import Mathlib

/-!
# SLA-NG probed: the client result table

A shallow embedding of the result handling of client.c: the list of
outstanding probes (struct res), the sweep performed by client_res_update,
the insertion done by client_res_insert and the PING scheduler
client_msess_transmit.

Conventions of the embedding.

* The two intrusive lists res_head and msess_head are Lean lists in list
  order (head first).
* Every clock reading (clock_gettime, gettimeofday), every malloc outcome and
  every result of send_w_ts is an explicit argument of the function that
  performs the call.
* The char field state holds either a status mask (bits 1, 2, 4, 8) or one of
  the ASCII status codes; it is a natural number here.
* The statistics counters are C ints: they hold integers of -2^31 .. 2^31 - 1
  and every addition on them goes through int_wrap. Time values (time_t,
  long) and the long long res_rtt_total are unbounded integers.
* The field sent of the globals is a record of what was handed to send_w_ts;
  no function of client.c reads it.
-/

namespace Slang

/-! ## Constants of client.c and probed.h -/

def MASK_PING : Nat := 1
def MASK_PONG : Nat := 2
def MASK_TIME : Nat := 4
def MASK_DONE : Nat := 7
def MASK_DSCP : Nat := 8

/-- Status code 'o'. -/
def STATE_OK : Nat := 111
/-- Status code 'd'. -/
def STATE_DSERROR : Nat := 100
/-- Status code 'e'. -/
def STATE_TSERROR : Nat := 101
/-- Status code 'l'. -/
def STATE_PONGLOSS : Nat := 108
/-- Status code 't'. -/
def STATE_TIMEOUT : Nat := 116
/-- Status code 'u'. -/
def STATE_DUP : Nat := 117

/-- Packet type 'i'. -/
def TYPE_PING : Nat := 105
/-- Packet type 'o'. -/
def TYPE_PONG : Nat := 111
/-- Packet type 't'. -/
def TYPE_TIME : Nat := 116

/-! ## Data model -/

/-- The type ts_t, a struct timespec. -/
structure ts_t where
  tv_sec : Int
  tv_nsec : Int
deriving DecidableEq, Repr

/-- A struct timeval. -/
structure timeval where
  tv_sec : Int
  tv_usec : Int
deriving DecidableEq, Repr

/-- The type addr_t, a struct sockaddr_in6. The address sin6_addr is the
128-bit number spelled by its sixteen bytes; the other fields are the numbers
spelled by their bytes in memory order. -/
structure addr_t where
  sin6_family : Nat
  sin6_port : Nat
  sin6_flowinfo : Nat
  sin6_addr : Nat
  sin6_scope_id : Nat
deriving DecidableEq, Repr

/-- The struct packet_data of probed.h, the decoded UDP payload. -/
structure data_t where
  type : Nat
  seq : Nat
  id : Nat
  t2 : ts_t
  t3 : ts_t
deriving DecidableEq, Repr

/-- The struct res of client.c: one outstanding probe. The array ts[4] is the
four fields ts0 .. ts3 (T1 .. T4). -/
structure res where
  created : ts_t
  state : Nat
  addr : Nat
  id : Nat
  seq : Nat
  ts0 : ts_t
  ts1 : ts_t
  ts2 : ts_t
  ts3 : ts_t
deriving DecidableEq, Repr

/-- The struct msess of client.c: one measurement session. -/
structure msess where
  id : Nat
  dst : addr_t
  interval : timeval
  timeout : Int
  got_hello : Int
  dscp : Nat
  child_pid : Int
  last_seq : Nat
  last_sent : timeval
deriving DecidableEq, Repr

/-- The operation mode cfg.op, as used by main.c. -/
inductive opmode where
  | HELP
  | SERVER
  | CLIENT
  | DAEMON
deriving DecidableEq, Repr

/-- The global variables of client.c, together with the output channels:
fifo is what was written to the daemon FIFO, emitted is the sequence of
records that reached an output block of client_res_update (the block that
precedes the removal of an entry, and the block for an unknown PONG), and
sent is the sequence of packets handed to send_w_ts (line 522), each with the
position in msess_head of the session it was built for and the destination
address it was handed over with. -/
structure World where
  res_head : List res
  msess_head : List msess
  res_ok : Int
  res_timeout : Int
  res_pongloss : Int
  res_tserror : Int
  res_dserror : Int
  res_dup : Int
  res_rtt_total : Int
  res_rtt_min : ts_t
  res_rtt_max : ts_t
  fifo : List res
  emitted : List res
  sent : List (Nat × addr_t × data_t)
deriving DecidableEq, Repr

/-- The zero timestamp, what memset leaves in a ts_t. -/
def ts_zero : ts_t := ⟨0, 0⟩

/-- The state of the globals after client_init, with the static counters at
their initial value zero. -/
def client_init : World :=
  { res_head := [], msess_head := [],
    res_ok := 0, res_timeout := 0, res_pongloss := 0, res_tserror := 0,
    res_dserror := 0, res_dup := 0, res_rtt_total := 0,
    res_rtt_min := ⟨-1, 0⟩, res_rtt_max := ⟨0, 0⟩,
    fifo := [], emitted := [], sent := [] }

/-! ## Time helpers -/

/-- The number of nanoseconds a timespec stands for. -/
def ts_nanos (t : ts_t) : Int := t.tv_sec * 1000000000 + t.tv_nsec

/-- Modelled from the spec: diff_ts lives in util.c, which is not among the
sources; only its declaration in probed.h is. It is exact normalised timespec
subtraction: the result stands for end minus beg and its tv_nsec lies in
0 .. 999999999. -/
def diff_ts (e b : ts_t) : ts_t :=
  ⟨(ts_nanos e - ts_nanos b) / 1000000000, (ts_nanos e - ts_nanos b) % 1000000000⟩

/-- Modelled from the spec: cmp_ts lives in util.c, which is not among the
sources. It is the three-way order on timespecs: -1, 0 or 1 as t1 is before,
equal to or after t2, comparing tv_sec first and tv_nsec second. -/
def cmp_ts (t1 t2 : ts_t) : Int :=
  if t1.tv_sec < t2.tv_sec then -1
  else if t1.tv_sec > t2.tv_sec then 1
  else if t1.tv_nsec < t2.tv_nsec then -1
  else if t1.tv_nsec > t2.tv_nsec then 1
  else 0

/-- Modelled from the spec: cmp_tv lives in util.c, which is not among the
sources. It is the lexicographic three-way comparison on (tv_sec, tv_usec). -/
def cmp_tv (t1 t2 : timeval) : Int :=
  if t1.tv_sec < t2.tv_sec then -1
  else if t1.tv_sec > t2.tv_sec then 1
  else if t1.tv_usec < t2.tv_usec then -1
  else if t1.tv_usec > t2.tv_usec then 1
  else 0

/-- The timersub of sys/time.h: field-wise subtraction with one borrow. -/
def timersub (a b : timeval) : timeval :=
  if a.tv_usec - b.tv_usec < 0 then
    ⟨a.tv_sec - b.tv_sec - 1, a.tv_usec - b.tv_usec + 1000000⟩
  else
    ⟨a.tv_sec - b.tv_sec, a.tv_usec - b.tv_usec⟩

/-- The value a variable of type int holds once the arithmetic result x has
been stored in it. C leaves signed overflow undefined; the arithmetic is taken
as on the two's-complement machines the program is built for, where the result
wraps around modulo 2^32 into -2^31 .. 2^31 - 1. -/
def int_wrap (x : Int) : Int := (x + 2147483648) % 4294967296 - 2147483648

/-- The cast (uint8_t)dscp of an int. -/
def uint8_of_int (x : Int) : Nat := (x % 256).toNat

/-! ## client_res_update -/

/-- The key test of client_res_update (lines 283-285): same id, same seq and
the same sixteen address bytes. -/
def res_iskey (a : addr_t) (d : data_t) (r : res) : Bool :=
  decide (r.id = d.id) && decide (r.seq = d.seq) && decide (r.addr = a.sin6_addr)

/-- The loop over msess_head of lines 294-297: every session with the id of
the entry and another DSCP sets MASK_DSCP. -/
def res_dscp (ms : List msess) (dscp : Int) (r : res) : res :=
  ms.foldl (fun r s =>
    if s.id = r.id then
      if s.dscp ≠ uint8_of_int dscp then { r with state := r.state ||| MASK_DSCP } else r
    else r) r

/-- The update of a matching entry (lines 283-304). An entry with another key
is returned as it is. -/
def res_match (ms : List msess) (a : addr_t) (d : data_t) (ts : Option ts_t)
    (dscp : Int) (r : res) : res :=
  if res_iskey a d r then
    if d.type = TYPE_PONG then
      let r1 := { r with state := r.state ||| MASK_PONG }
      let r2 := match ts with
        | some t => { r1 with ts3 := t }
        | none => r1
      res_dscp ms dscp r2
    else if d.type = TYPE_TIME then
      { r with state := r.state ||| MASK_TIME, ts1 := d.t2, ts2 := d.t3 }
    else r
  else r

/-- The round-trip time computed at lines 314-316 and again at 374-376:
(T4 - T1) - (T3 - T2). -/
def res_rtt (r : res) : ts_t :=
  diff_ts (diff_ts r.ts3 r.ts0) (diff_ts r.ts2 r.ts1)

/-- The zero test of line 324. -/
def ts_iszero (t : ts_t) : Bool := decide (t.tv_sec = 0) && decide (t.tv_nsec = 0)

/-- The turning of a status mask into a status code (lines 307-343). Takes
the local variable now and the entry, returns the entry with its new state and
the new value of now: the completion branch uses now as scratch space for
T3 - T2 and then clears it. -/
def res_classify (TIMEOUT : Int) (now : ts_t) (r : res) : res × ts_t :=
  if r.state &&& MASK_DONE = MASK_DONE then
    let s0 := if r.state &&& MASK_DSCP ≠ 0 then STATE_DSERROR else STATE_OK
    let rtt := res_rtt r
    let now1 : ts_t := ⟨0, 0⟩
    let s1 := if cmp_ts now1 rtt = 1 then STATE_TSERROR else s0
    let s2 := [r.ts0, r.ts1, r.ts2, r.ts3].foldl
      (fun s t => if ts_iszero t then STATE_TSERROR else s) s1
    ({ r with state := s2 }, now1)
  else
    let diff := diff_ts now r.created
    if diff.tv_sec > TIMEOUT then
      if r.state &&& MASK_TIME ≠ 0 then ({ r with state := STATE_PONGLOSS }, now)
      else if r.state &&& MASK_PONG ≠ 0 then ({ r with state := STATE_TSERROR }, now)
      else ({ r with state := STATE_TIMEOUT }, now)
    else (r, now)

/-- The test that guards the output block (lines 345-349). -/
def res_isfinal (s : Nat) : Bool :=
  decide (s = STATE_OK) || decide (s = STATE_TSERROR) || decide (s = STATE_DSERROR) ||
    decide (s = STATE_TIMEOUT) || decide (s = STATE_PONGLOSS)

/-- The client-mode statistics of lines 356-391 for one record. Returns the
globals and the new value of the local variable now, which the STATE_OK branch
overwrites with T3 - T2 (line 375). The five counters are ints and are
incremented with ++; res_rtt_total is a long long. The printed text is not
modelled. -/
def res_stats (w : World) (now : ts_t) (r : res) : World × ts_t :=
  if r.state = STATE_TSERROR then
    ({ w with res_tserror := int_wrap (w.res_tserror + 1) }, now)
  else if r.state = STATE_DSERROR then
    ({ w with res_dserror := int_wrap (w.res_dserror + 1) }, now)
  else if r.state = STATE_PONGLOSS then
    ({ w with res_pongloss := int_wrap (w.res_pongloss + 1) }, now)
  else if r.state = STATE_TIMEOUT then
    ({ w with res_timeout := int_wrap (w.res_timeout + 1) }, now)
  else
    let now1 := diff_ts r.ts2 r.ts1
    let rtt := res_rtt r
    let mx := if cmp_ts w.res_rtt_max rtt = -1 then rtt else w.res_rtt_max
    let mn := if w.res_rtt_min.tv_sec = -1 then rtt else w.res_rtt_min
    let mn1 := if cmp_ts mn rtt = 1 then rtt else mn
    ({ w with res_ok := int_wrap (w.res_ok + 1), res_rtt_max := mx, res_rtt_min := mn1,
              res_rtt_total := w.res_rtt_total + rtt.tv_nsec }, now1)

/-- The output block (lines 350-392): the FIFO write of daemon mode and the
statistics of client mode. -/
def res_output (op : opmode) (w : World) (now : ts_t) (r : res) : World × ts_t :=
  let w1 := { w with emitted := w.emitted ++ [r] }
  let w2 := if op = opmode.DAEMON then { w1 with fifo := w1.fifo ++ [r] } else w1
  if op = opmode.CLIENT then res_stats w2 now r else (w2, now)

/-- The variables that live across the iterations of the while loop of
client_res_update: the globals (res_head holds the entries visited so far and
left in the list), now and found. -/
structure Sweep where
  w : World
  now : ts_t
  found : Nat
deriving DecidableEq, Repr

/-- One iteration of the while loop (lines 282-403) on the entry r. -/
def res_visit (op : opmode) (TIMEOUT : Int) (a : addr_t) (d : data_t)
    (ts : Option ts_t) (dscp : Int) (st : Sweep) (r : res) : Sweep :=
  let r1 := res_match st.w.msess_head a d ts dscp r
  let found := if res_iskey a d r then 1 else st.found
  let c := res_classify TIMEOUT st.now r1
  if res_isfinal c.1.state then
    let o := res_output op st.w c.2 c.1
    { w := o.1, now := o.2, found := found }
  else
    { w := { st.w with res_head := st.w.res_head ++ [c.1] }, now := c.2, found := found }

/-- The first sixteen bytes of a struct sockaddr_in6, which line 410 copies
into the address of the synthetic record: family, port, flow information and
the upper half of the address. -/
def addr_head16 (a : addr_t) : Nat :=
  ((a.sin6_family % 2 ^ 16 * 2 ^ 16 + a.sin6_port % 2 ^ 16) * 2 ^ 32
      + a.sin6_flowinfo % 2 ^ 32) * 2 ^ 64 + a.sin6_addr / 2 ^ 64

/-- The record r_stat of lines 407-412. -/
def res_dup_record (a : addr_t) (d : data_t) (clk : ts_t) : res :=
  { created := clk, state := STATE_DUP, addr := addr_head16 a, id := d.id, seq := d.seq,
    ts0 := ts_zero, ts1 := ts_zero, ts2 := ts_zero, ts3 := ts_zero }

/-- The block for a PONG that matched no entry (lines 406-422); res_dup is an
int incremented with ++ (line 418). -/
def res_dup_block (op : opmode) (a : addr_t) (d : data_t) (clk : ts_t) (w : World) : World :=
  let r := res_dup_record a d clk
  let w1 := { w with emitted := w.emitted ++ [r] }
  let w2 := if op = opmode.DAEMON then { w1 with fifo := w1.fifo ++ [r] } else w1
  if op = opmode.CLIENT then { w2 with res_dup := int_wrap (w2.res_dup + 1) } else w2

/-- The while loop of client_res_update, started with the clock reading clk,
over the entries l. -/
def res_sweep_list (op : opmode) (TIMEOUT : Int) (a : addr_t) (d : data_t)
    (ts : Option ts_t) (dscp : Int) (clk : ts_t) (w : World) (l : List res) : Sweep :=
  l.foldl (res_visit op TIMEOUT a d ts dscp)
    { w := { w with res_head := [] }, now := clk, found := 0 }

/-- The while loop of client_res_update over the whole list res_head. -/
def res_sweep (op : opmode) (TIMEOUT : Int) (a : addr_t) (d : data_t)
    (ts : Option ts_t) (dscp : Int) (clk : ts_t) (w : World) : Sweep :=
  res_sweep_list op TIMEOUT a d ts dscp clk w w.res_head

/-- The value the local variable now of client_res_update holds once the
entries pre, the first entries of the list, have been visited. -/
def now_after (op : opmode) (TIMEOUT : Int) (a : addr_t) (d : data_t)
    (ts : Option ts_t) (dscp : Int) (clk : ts_t) (w : World) (pre : List res) : ts_t :=
  (res_sweep_list op TIMEOUT a d ts dscp clk w pre).now

/-- The function client_res_update. clk is the clock reading of line 279 and
clk_dup the one of line 408. -/
def client_res_update (op : opmode) (TIMEOUT : Int) (a : addr_t) (d : data_t)
    (ts : Option ts_t) (dscp : Int) (clk clk_dup : ts_t) (w : World) : World :=
  let st := res_sweep op TIMEOUT a d ts dscp clk w
  if st.found = 0 ∧ d.type = TYPE_PONG then res_dup_block op a d clk_dup st.w else st.w

/-! ## client_res_insert -/

/-- The entry built by client_res_insert (lines 243-249). -/
def res_new (a : addr_t) (d : data_t) (ts : ts_t) (clk : ts_t) : res :=
  { created := clk, state := MASK_PING, addr := a.sin6_addr, id := d.id, seq := d.seq,
    ts0 := ts, ts1 := ts_zero, ts2 := ts_zero, ts3 := ts_zero }

/-- The function client_res_insert. alloc tells whether malloc succeeded,
clk_created is the clock reading of line 244, clk and clk_dup are the readings
of the nested client_res_update. -/
def client_res_insert (op : opmode) (TIMEOUT : Int) (alloc : Bool) (a : addr_t) (d : data_t)
    (ts : ts_t) (clk_created clk clk_dup : ts_t) (w : World) : World :=
  if alloc then
    client_res_update op TIMEOUT a d (some ts) (-1) clk clk_dup
      { w with res_head := res_new a d ts clk_created :: w.res_head }
  else w

/-! ## client_msess_transmit -/

/-- What the environment answers while client_msess_transmit handles one
session: the result of send_w_ts (none when it fails, the transmit timestamp
otherwise), the outcome of malloc and the three clock readings of
client_res_insert. -/
structure TxEnv where
  send : Option ts_t
  alloc : Bool
  clk_created : ts_t
  clk : ts_t
  clk_dup : ts_t
deriving DecidableEq, Repr

/-- The ping packet built at lines 516-520. -/
def tx_ping (s : msess) : data_t :=
  { type := TYPE_PING, seq := s.last_seq, id := s.id, t2 := ts_zero, t3 := ts_zero }

/-- The body of the for loop of client_msess_transmit (lines 510-526) for the
session s, with the sessions before it in done and those after it in the last
list; e is what the environment answers. The packet tx is built from the
incremented last_seq (lines 516-520) and handed to send_w_ts (line 522), which
is recorded in sent whether or not the send succeeds. Returns the session as
the body leaves it and the globals. -/
def msess_transmit_one (op : opmode) (TIMEOUT : Int) (now : timeval) (e : TxEnv)
    (done rest : List msess) (s : msess) (w : World) : msess × World :=
  if s.got_hello ≠ 1 then (s, w)
  else if cmp_tv (timersub now s.last_sent) s.interval = 1 then
    let s1 := { s with last_seq := (s.last_seq + 1) % 2 ^ 32 }
    let tx := tx_ping s1
    let w1 := { w with sent := w.sent ++ [(done.length, s1.dst, tx)] }
    match e.send with
    | none => (s1, w1)
    | some ts =>
      ({ s1 with last_sent := now },
        client_res_insert op TIMEOUT e.alloc s1.dst tx ts
          e.clk_created e.clk e.clk_dup { w1 with msess_head := done ++ s1 :: rest })
  else (s, w)

/-- The for loop of client_msess_transmit (lines 509-527). The sessions
already visited are in done, the ones to visit in the second list; env i
answers for the session at position i. -/
def msess_transmit_loop (op : opmode) (TIMEOUT : Int) (now : timeval) (env : Nat → TxEnv) :
    List msess → List msess → World → World
  | done, [], w => { w with msess_head := done }
  | done, s :: rest, w =>
    msess_transmit_loop op TIMEOUT now env
      (done ++ [(msess_transmit_one op TIMEOUT now (env done.length) done rest s w).1]) rest
      (msess_transmit_one op TIMEOUT now (env done.length) done rest s w).2

/-- The function client_msess_transmit. now is the reading of gettimeofday. -/
def client_msess_transmit (op : opmode) (TIMEOUT : Int) (now : timeval) (env : Nat → TxEnv)
    (w : World) : World :=
  msess_transmit_loop op TIMEOUT now env [] w.msess_head w

/-! ## Runs of calls -/

/-- A call of one of the three functions that touch the result table, with
everything the environment answers during the call. -/
inductive Call where
  | update (a : addr_t) (d : data_t) (ts : Option ts_t) (dscp : Int) (clk clk_dup : ts_t)
  | insert (alloc : Bool) (a : addr_t) (d : data_t) (ts : ts_t) (clk_created clk clk_dup : ts_t)
  | transmit (now : timeval) (env : Nat → TxEnv)

/-- The effect of one call on the globals. -/
def Call.step (op : opmode) (TIMEOUT : Int) (c : Call) (w : World) : World :=
  match c with
  | Call.update a d ts dscp clk clk_dup => client_res_update op TIMEOUT a d ts dscp clk clk_dup w
  | Call.insert alloc a d ts clk_created clk clk_dup =>
    client_res_insert op TIMEOUT alloc a d ts clk_created clk clk_dup w
  | Call.transmit now env => client_msess_transmit op TIMEOUT now env w

/-- The effect of a sequence of calls, first call first. -/
def run (op : opmode) (TIMEOUT : Int) (cs : List Call) (w : World) : World :=
  cs.foldl (fun w c => c.step op TIMEOUT w) w

/-- Whether a call is a call of client_msess_transmit. -/
def Call.is_transmit : Call → Bool
  | Call.transmit _ _ => true
  | _ => false

/-- Whether a call is a call of client_res_insert. -/
def Call.is_insert : Call → Bool
  | Call.insert _ _ _ _ _ _ _ => true
  | _ => false

/-! ## Vocabulary of the statements -/

/-- The records a call appended to the output: what emitted holds after the
call beyond what it held before. -/
def new_emitted (w w' : World) : List res := w'.emitted.drop w.emitted.length

/-- The round-trip time (T4 - T1) - (T3 - T2) of a record in nanoseconds. -/
def rtt_nanos (r : res) : Int :=
  (ts_nanos r.ts3 - ts_nanos r.ts0) - (ts_nanos r.ts2 - ts_nanos r.ts1)

/-- Some timestamp of the record is the zero timestamp. -/
def res_haszero (r : res) : Prop :=
  r.ts0 = ts_zero ∨ r.ts1 = ts_zero ∨ r.ts2 = ts_zero ∨ r.ts3 = ts_zero

instance (r : res) : Decidable (res_haszero r) := by
  unfold res_haszero; infer_instance

/-- The key (addr, id, seq) of an entry. -/
def res_key (r : res) : Nat × Nat × Nat := (r.addr, r.id, r.seq)

/-- What identifies an entry for as long as it lives: its key, its creation
time and T1. No statement of client_res_update writes these fields. -/
def res_ident (r : res) : Nat × Nat × Nat × ts_t × ts_t :=
  (r.addr, r.id, r.seq, r.created, r.ts0)

/-- A state that is a status mask of a pending probe: built from the four
mask bits, with MASK_PING set and not all of MASK_DONE. -/
def is_pending (s : Nat) : Prop := s < 16 ∧ s &&& MASK_PING = MASK_PING ∧ s &&& MASK_DONE ≠ MASK_DONE

instance (s : Nat) : Decidable (is_pending s) := by
  unfold is_pending; infer_instance

/-- The five status codes with which an entry leaves the table. -/
def terminal_codes : List Nat :=
  [STATE_OK, STATE_DSERROR, STATE_TSERROR, STATE_PONGLOSS, STATE_TIMEOUT]

/-- The status code a timed-out entry with mask s gets (lines 336-341). -/
def timeout_code (s : Nat) : Nat :=
  if s &&& MASK_TIME ≠ 0 then STATE_PONGLOSS
  else if s &&& MASK_PONG ≠ 0 then STATE_TSERROR
  else STATE_TIMEOUT

/-- The session key (id, address) by which entries are attributed to sessions. -/
def msess_key (s : msess) : Nat × Nat := (s.id, s.dst.sin6_addr)

/-- The status code a complete entry gets (lines 309-325): the timestamp
checks come last and override the DSCP check. -/
def done_code (r : res) : Nat :=
  if rtt_nanos r < 0 ∨ res_haszero r then STATE_TSERROR
  else if r.state &&& MASK_DSCP ≠ 0 then STATE_DSERROR
  else STATE_OK

/-- The entry x is what a visit of the while loop makes of the entry r, for
some value of the local variable now. -/
def Visited (TIMEOUT : Int) (ms : List msess) (a : addr_t) (d : data_t) (ts : Option ts_t)
    (dscp : Int) (r x : res) : Prop :=
  ∃ now, x = (res_classify TIMEOUT now (res_match ms a d ts dscp r)).1


/-- The entry a visit works on, once the update and the status code are in. -/
def res_visited (T : Int) (a : addr_t) (d : data_t) (ts : Option ts_t) (dscp : Int)
    (st : Sweep) (r : res) : res :=
  (res_classify T st.now (res_match st.w.msess_head a d ts dscp r)).1

/-! ## Sample values -/

/-- A peer address. -/
def ex_addr : addr_t := ⟨10, 60666, 0, 42, 0⟩

/-- The ping with id 7 and sequence number 1. -/
def ex_ping : data_t := ⟨TYPE_PING, 1, 7, ts_zero, ts_zero⟩

/-- The pong that answers ex_ping. -/
def ex_pong : data_t := ⟨TYPE_PONG, 1, 7, ts_zero, ts_zero⟩

/-- The time report for ex_ping: T2 = 50 s, T3 = 50.001 s. -/
def ex_time : data_t := ⟨TYPE_TIME, 1, 7, ⟨50, 0⟩, ⟨50, 1000000⟩⟩

/-- The entry of ex_ping, sent at T1 = 100 s and registered 5 ns later. -/
def ex_entry : res := res_new ex_addr ex_ping ⟨100, 0⟩ ⟨100, 5⟩

/-- The session of ex_ping, with DSCP 10. -/
def ex_sess : msess :=
  { id := 7, dst := ex_addr, interval := ⟨0, 500000⟩, timeout := 0, got_hello := 1, dscp := 10,
    child_pid := 0, last_seq := 0, last_sent := ⟨0, 0⟩ }

/-- The globals with one session and the one entry ex_entry. -/
def ex_world : World := { client_init with res_head := [ex_entry], msess_head := [ex_sess] }

/-- The entry ex_entry after its pong arrived with T4 = 100.003 s. -/
def ex_entry_pong : res := { ex_entry with state := 3, ts3 := ⟨100, 3000000⟩ }

/-- The globals with one session and the one entry ex_entry_pong. -/
def ex_world_pong : World := { ex_world with res_head := [ex_entry_pong] }


/-- Some session with the id of the entry has a DSCP other than the observed
one: the condition under which lines 294-297 set MASK_DSCP. -/
def dscp_mismatch (ms : List msess) (dscp : Int) (r : res) : Bool :=
  ms.any (fun s => decide (s.id = r.id) && decide (s.dscp ≠ uint8_of_int dscp))

/-- The record of the entry r once the time report dt and a pong with receive
timestamp tsp (if any) are in, with status code s. -/
def res_joined (r : res) (dt : data_t) (tsp : Option ts_t) (s : Nat) : res :=
  { r with state := s, ts1 := dt.t2, ts2 := dt.t3, ts3 := tsp.getD r.ts3 }

/-- The receive timestamp T4 = 100.003 s of ex_pong. -/
def ex_pong_t4 : ts_t := ⟨100, 3000000⟩

/-- A time report for ex_ping that claims 5 ms between T2 and T3, more than
the 3 ms between T1 and T4. -/
def ex_time_slow : data_t := ⟨TYPE_TIME, 1, 7, ⟨50, 0⟩, ⟨50, 5000000⟩⟩


/-- The ping with id 7 and sequence number 2, the one sent after ex_ping. -/
def ex_tick : data_t := ⟨TYPE_PING, 2, 7, ts_zero, ts_zero⟩

/-- A pong for the sequence number 9 of session 7, which no entry of ex_world
carries. -/
def ex_pong_late : data_t := ⟨TYPE_PONG, 9, 7, ts_zero, ts_zero⟩

/-- The calls of the scenario in which a probe is timed out against an
overwritten now, in client mode and with the system clock at 10 s throughout:
ping 1 is registered, ping 2 is registered (T1 = 1 s on the clock of the
timestamps), the pong of ping 2 arrives (T4 = 200 s on that clock), and then
the time report of ping 2 arrives (T2 = 1 s, T3 = 101 s on the clock of the
peer). -/
def ex_overwrite_calls : List Call :=
  [ Call.insert true ex_addr ex_ping ⟨5, 0⟩ ⟨10, 0⟩ ⟨10, 0⟩ ⟨10, 0⟩,
    Call.insert true ex_addr ex_tick ⟨1, 0⟩ ⟨10, 0⟩ ⟨10, 0⟩ ⟨10, 0⟩,
    Call.update ex_addr ⟨TYPE_PONG, 2, 7, ts_zero, ts_zero⟩ (some ⟨200, 0⟩) 0 ⟨10, 0⟩ ⟨10, 0⟩ ]

/-- The globals when the last call of the scenario starts. -/
def ex_overwrite_world : World := run opmode.CLIENT 2 ex_overwrite_calls client_init

/-- The invariant behind key uniqueness, for the session list L and the
table tbl: a connected session (got_hello = 1) has no session with its address
before it in the list, the entries have pairwise different keys, and every
entry belongs to a connected session with its address and id whose last_seq is
at least the sequence number of the entry. -/
def hello_inv (L : List msess) (tbl : List res) : Prop :=
  L.Pairwise (fun s t => t.got_hello = 1 → t.dst.sin6_addr ≠ s.dst.sin6_addr) ∧
  (tbl.map res_key).Nodup ∧
  ∀ r ∈ tbl, ∃ s ∈ L, s.got_hello = 1 ∧ s.dst.sin6_addr = r.addr ∧ s.id = r.id ∧
    r.seq ≤ s.last_seq

/-- Two sessions with the same id 7 and the same peer, neither connected yet
and neither with a worker, as the configuration loader produces for the ids 7
and 263, which it reads through a cast to uint8_t. -/
def ex_twin_world : World :=
  { client_init with
    msess_head := [{ ex_sess with got_hello := 0 }, { ex_sess with got_hello := 0, dscp := 20 }] }

/-- An environment in which every send succeeds with transmit timestamp 10 s
and the clock reads 10 s. -/
def ex_env : Nat → TxEnv :=
  fun _ => { send := some ⟨10, 0⟩, alloc := true, clk_created := ⟨10, 0⟩, clk := ⟨10, 0⟩,
             clk_dup := ⟨10, 0⟩ }

/-! ## client_msess_gothello, client_msess_isaddrtaken, client_msess_forkall -/

/-- The for loop of client_msess_gothello (lines 697-703): the first session
with the address is set ready and the function returns 0 at once; -1 when the
list has no such session. Returns the return value and the list. -/
def msess_gothello_loop (addr : addr_t) : List msess → Int × List msess
  | [] => (-1, [])
  | s :: rest =>
    if addr.sin6_addr = s.dst.sin6_addr then (0, { s with got_hello := 1 } :: rest)
    else ((msess_gothello_loop addr rest).1, s :: (msess_gothello_loop addr rest).2)

/-- The function client_msess_gothello: its return value and the globals. -/
def client_msess_gothello (addr : addr_t) (w : World) : Int × World :=
  ((msess_gothello_loop addr w.msess_head).1,
    { w with msess_head := (msess_gothello_loop addr w.msess_head).2 })

/-- The function client_msess_isaddrtaken over the session list ms: 1 when a
session with another id than the given one has a child process and the given
address, 0 otherwise. -/
def client_msess_isaddrtaken (ms : List msess) (addr : addr_t) (id : Nat) : Int :=
  match ms with
  | [] => 0
  | s :: rest =>
    if s.id = id then client_msess_isaddrtaken rest addr id
    else if s.child_pid = 0 then client_msess_isaddrtaken rest addr id
    else if addr.sin6_addr = s.dst.sin6_addr then 1
    else client_msess_isaddrtaken rest addr id

/-- The for loop of client_msess_forkall (lines 541-548). The sessions already
visited are in the first list, the ones to visit in the second; fork i is the
process id client_fork returns for the session at position i. -/
def msess_forkall_loop (fork : Nat → Int) : List msess → List msess → List msess
  | done, [] => done
  | done, s :: rest =>
    if client_msess_isaddrtaken (done ++ s :: rest) s.dst s.id = 1 then
      msess_forkall_loop fork (done ++ [s]) rest
    else
      msess_forkall_loop fork (done ++ [{ s with child_pid := fork done.length }]) rest

/-- The function client_msess_forkall. -/
def client_msess_forkall (fork : Nat → Int) (w : World) : World :=
  { w with msess_head := msess_forkall_loop fork [] w.msess_head }

/-! ## client_res_summary -/

/-- The variable total of client_res_summary (line 429): the five counters
are added up from left to right in int, and the sum is widened to long long. -/
def res_total (w : World) : Int :=
  int_wrap (int_wrap (int_wrap (int_wrap (w.res_ok + w.res_dserror) + w.res_tserror)
    + w.res_timeout) + w.res_pongloss)

/-- The numerator of the loss ratio of client_res_summary (line 430): the sum
res_timeout + res_pongloss, computed in int before the cast to float. -/
def res_lost (w : World) : Int := int_wrap (w.res_timeout + w.res_pongloss)

/-! ## Vocabulary of the statements on sessions and statistics -/

/-- The number of microseconds a timeval stands for. -/
def tv_usecs (t : timeval) : Int := t.tv_sec * 1000000 + t.tv_usec

/-- A timeval whose tv_usec lies in 0 .. 999999. -/
def tv_normal (t : timeval) : Prop := 0 ≤ t.tv_usec ∧ t.tv_usec < 1000000

instance (t : timeval) : Decidable (tv_normal t) := by
  unfold tv_normal; infer_instance

/-- The two tests of client_msess_transmit (lines 511 and 515) that decide
whether a ping is built for the session. -/
def msess_due (now : timeval) (s : msess) : Bool :=
  decide (s.got_hello = 1) && decide (cmp_tv (timersub now s.last_sent) s.interval = 1)

/-- The session as one turn of the loop of client_msess_transmit leaves it,
given the result of send_w_ts: untouched when no ping is due, else with
last_seq one further and, if the send succeeded, last_sent at now. -/
def msess_step (now : timeval) (send : Option ts_t) (s : msess) : msess :=
  if msess_due now s then
    { s with last_seq := (s.last_seq + 1) % 2 ^ 32,
             last_sent := if send.isSome then now else s.last_sent }
  else s

/-- The packets handed to send_w_ts between the state w and the later state
w2 for the session at position i of msess_head: what sent holds in w2 beyond
what it held in w, restricted to that position, in the order of the calls. -/
def new_sent (i : Nat) (w w2 : World) : List data_t :=
  ((w2.sent.drop w.sent.length).filter (fun p => decide (p.1 = i))).map (fun p => p.2.2)

/-- The last_seq of the session at position i of msess_head (0 when the list
has no such position). -/
def last_seq_at (i : Nat) (w : World) : Nat :=
  match w.msess_head[i]? with
  | some s => s.last_seq
  | none => 0

/-- The entries of sent one call of client_msess_transmit with the clock
reading now adds for the sessions l, the first of which stands at position
k. -/
def msess_pings (now : timeval) : Nat → List msess → List (Nat × addr_t × data_t)
  | _, [] => []
  | k, s :: rest =>
    (if msess_due now s then
        [(k, s.dst, tx_ping { s with last_seq := (s.last_seq + 1) % 2 ^ 32 })]
      else [])
      ++ msess_pings now (k + 1) rest

/-- The globals with the statistics counters zero and nothing put out yet, as
at the start of the program. -/
def zero_stats (w : World) : World :=
  { w with res_ok := 0, res_timeout := 0, res_pongloss := 0, res_tserror := 0,
           res_dserror := 0, res_dup := 0, res_rtt_total := 0,
           res_rtt_min := ⟨-1, 0⟩, res_rtt_max := ⟨0, 0⟩, fifo := [], emitted := [] }

/-- The number of records with status code c among the records l. -/
def count_state (c : Nat) (l : List res) : Int := (l.countP (fun e => decide (e.state = c)) : Nat)

/-- Two sessions, ids 7 and 8, to the same peer, neither connected yet and
neither with a worker. -/
def ex_hello_world : World :=
  { client_init with
    msess_head := [{ ex_sess with got_hello := 0 }, { ex_sess with id := 8, got_hello := 0 }] }

/-- One session as client_msess_add leaves it: id 7, the peer ex_addr, DSCP
10 and an interval of 0.5 s, everything else zero. -/
def ex_conf_world : World := { client_init with msess_head := [{ ex_sess with got_hello := 0 }] }

/-- The globals of ex_conf_world once the hello of the peer has arrived. -/
def ex_ready_world : World := (client_msess_gothello ex_addr ex_conf_world).2

/-- An environment in which every send fails, the clock reading 11 s. -/
def ex_env_down : Nat → TxEnv :=
  fun _ => { send := none, alloc := true, clk_created := ⟨11, 0⟩, clk := ⟨11, 0⟩,
             clk_dup := ⟨11, 0⟩ }

/-- A call of client_msess_transmit at 11 s during which send_w_ts fails. -/
def ex_down_call : Call := Call.transmit ⟨11, 0⟩ ex_env_down

/-- Three calls of client_msess_transmit: at 10 s with a successful send, at
10.0001 s, and at 11 s with a failing send. -/
def ex_pace_calls : List Call :=
  [Call.transmit ⟨10, 0⟩ ex_env, Call.transmit ⟨10, 100⟩ ex_env, ex_down_call]

/-- The number of sessions of ms with destination address A that have a
child process. -/
def msess_workers (A : Nat) (ms : List msess) : Nat :=
  ms.countP (fun s => decide (s.dst.sin6_addr = A) && decide (s.child_pid ≠ 0))

/-- The process ids client_fork hands out in the samples: 100, 101, ... -/
def ex_fork : Nat → Int := fun i => 100 + i

/-- The statistics agree with the output as far as an int can tell: every
counter is the number of records put out with its status code, wrapped into
the range of an int, and every record put out carries one of the six status
codes. -/
def stats_inv (w : World) : Prop :=
  w.res_ok = int_wrap (count_state STATE_OK w.emitted) ∧
  w.res_dserror = int_wrap (count_state STATE_DSERROR w.emitted) ∧
  w.res_tserror = int_wrap (count_state STATE_TSERROR w.emitted) ∧
  w.res_timeout = int_wrap (count_state STATE_TIMEOUT w.emitted) ∧
  w.res_pongloss = int_wrap (count_state STATE_PONGLOSS w.emitted) ∧
  w.res_dup = int_wrap (count_state STATE_DUP w.emitted) ∧
  ∀ e ∈ w.emitted, e.state ∈ terminal_codes ∨ e.state = STATE_DUP

/-- The number of records put out for entries removed from the table: the
records that are not the synthetic Duplicate record. -/
def removed_count (w : World) : Int :=
  ((w.emitted.filter (fun e => decide (e.state ≠ STATE_DUP))).length : Nat)

/-- The calls of the scenario in which an overdue probe is passed over, in
client mode: ping 1 is registered at 997.5 s, ping 2 at 998 s, and the pong of
ping 2 arrives at 998.003 s. -/
def ex_stall_calls : List Call :=
  [ Call.insert true ex_addr ex_ping ⟨997, 500000000⟩ ⟨997, 500000000⟩ ⟨997, 500000000⟩
      ⟨997, 500000000⟩,
    Call.insert true ex_addr ex_tick ⟨998, 0⟩ ⟨998, 0⟩ ⟨998, 0⟩ ⟨998, 0⟩,
    Call.update ex_addr ⟨TYPE_PONG, 2, 7, ts_zero, ts_zero⟩ (some ⟨998, 3000000⟩) 0
      ⟨998, 3000000⟩ ⟨998, 3000000⟩ ]

/-- The globals when the time report of ping 2 arrives in that scenario. -/
def ex_stall_world : World := run opmode.CLIENT 2 ex_stall_calls client_init

/-- The time report of ping 2 in that scenario: T2 = 998.001 s,
T3 = 998.002 s. -/
def ex_stall_time : data_t := ⟨TYPE_TIME, 2, 7, ⟨998, 1000000⟩, ⟨998, 2000000⟩⟩

/-- The globals with the one entry of ex_ping after its pong arrived with
T4 = 101.7 s, that is 1.7 s after T1. -/
def ex_slow_world : World :=
  { ex_world with res_head := [{ ex_entry with state := 3, ts3 := ⟨101, 700000000⟩ }] }

/-- The time report of ex_ping with 0.2 s between T2 and T3. -/
def ex_slow_time : data_t := ⟨TYPE_TIME, 1, 7, ⟨50, 0⟩, ⟨50, 200000000⟩⟩

/-! ## Runs with hellos -/

/-- What the main loop does to the sessions and the result table: it passes
on the hello of a peer to client_msess_gothello, or it performs one of the
calls of Call. -/
inductive Event where
  | hello (addr : addr_t)
  | call (c : Call)

/-- The effect of one event on the globals. -/
def Event.step (op : opmode) (TIMEOUT : Int) (e : Event) (w : World) : World :=
  match e with
  | Event.hello addr => (client_msess_gothello addr w).2
  | Event.call c => c.step op TIMEOUT w

/-- The effect of a sequence of events, first event first. -/
def run_events (op : opmode) (TIMEOUT : Int) (es : List Event) (w : World) : World :=
  es.foldl (fun w e => e.step op TIMEOUT w) w

/-- Whether an event is a call of client_msess_transmit. -/
def Event.is_transmit : Event → Bool
  | Event.call c => c.is_transmit
  | _ => false

/-- Whether an event is a direct call of client_res_insert. -/
def Event.is_insert : Event → Bool
  | Event.call c => c.is_insert
  | _ => false

/-- An environment in which every send succeeds with transmit timestamp 11 s
and the clock reads 11 s. -/
def ex_env_up : Nat → TxEnv :=
  fun _ => { send := some ⟨11, 0⟩, alloc := true, clk_created := ⟨11, 0⟩, clk := ⟨11, 0⟩,
             clk_dup := ⟨11, 0⟩ }

/-- The events of the scenario in which a sequence number comes round again
while its first entry is still in the table: the hello of the peer; a ping
sent at 10 s; then, all at 11 s, 4294967295 calls of client_msess_transmit
during which send_w_ts fails, and one during which it succeeds. -/
def ex_wrap_events : List Event :=
  [Event.hello ex_addr, Event.call (Call.transmit ⟨10, 0⟩ ex_env)] ++
    (List.replicate 4294967295 ex_down_call).map Event.call ++
    [Event.call (Call.transmit ⟨11, 0⟩ ex_env_up)]

/-- A hello, two pings of the session it connects and the pong of the first
ping. -/
def ex_hello_events : List Event :=
  [Event.hello ex_addr, Event.call (Call.transmit ⟨10, 0⟩ ex_env),
    Event.call (Call.transmit ⟨11, 0⟩ ex_env),
    Event.call (Call.update ex_addr ex_pong (some ⟨11, 0⟩) 10 ⟨11, 5⟩ ⟨11, 5⟩)]

/-- The ping with sequence number k + 1 of session 7. -/
def ex_ping_no (k : Nat) : data_t := ⟨TYPE_PING, k + 1, 7, ts_zero, ts_zero⟩

/-- The clock reading 3 (k + 1) s. -/
def ex_clock (k : Nat) : ts_t := ⟨3 * ((k : Int) + 1), 0⟩

/-- The entry of the ping with sequence number k + 1, sent and registered at
3 (k + 1) s. -/
def ex_dead_entry (k : Nat) : res := res_new ex_addr (ex_ping_no k) (ex_clock k) (ex_clock k)

/-- Call number k (counted from 0) of a run of probes to a peer that never
answers, one probe every 3 s: the registration at 3 (k + 1) s of the ping with
sequence number k + 1. -/
def ex_dead_call (k : Nat) : Call :=
  Call.insert true ex_addr (ex_ping_no k) (ex_clock k) (ex_clock k) (ex_clock k) (ex_clock k)

/-- The first n calls of that run. -/
def ex_dead_calls (n : Nat) : List Call := (List.range n).map ex_dead_call

/-! ## Facts about the time helpers -/

theorem ts_nanos_diff_ts (e b : ts_t) : ts_nanos (diff_ts e b) = ts_nanos e - ts_nanos b := by
  simp only [diff_ts, ts_nanos]
  have := Int.ediv_add_emod (e.tv_sec * 1000000000 + e.tv_nsec - (b.tv_sec * 1000000000 + b.tv_nsec)) 1000000000
  linarith

theorem diff_ts_nsec_nonneg (e b : ts_t) : 0 ≤ (diff_ts e b).tv_nsec := by
  simp only [diff_ts]
  exact Int.emod_nonneg _ (by norm_num)

theorem diff_ts_nsec_lt (e b : ts_t) : (diff_ts e b).tv_nsec < 1000000000 := by
  simp only [diff_ts]
  exact Int.emod_lt_of_pos _ (by norm_num)

/-- On timespecs with tv_nsec in 0 .. 999999999 the subtraction is the usual
one with a borrow from the seconds. -/
theorem diff_ts_borrow (e b : ts_t) (he : 0 ≤ e.tv_nsec ∧ e.tv_nsec < 1000000000)
    (hb : 0 ≤ b.tv_nsec ∧ b.tv_nsec < 1000000000) :
    diff_ts e b =
      if e.tv_nsec - b.tv_nsec < 0 then
        ⟨e.tv_sec - b.tv_sec - 1, 1000000000 + e.tv_nsec - b.tv_nsec⟩
      else ⟨e.tv_sec - b.tv_sec, e.tv_nsec - b.tv_nsec⟩ := by
  have h1 := ts_nanos_diff_ts e b
  have h2 := diff_ts_nsec_nonneg e b
  have h3 := diff_ts_nsec_lt e b
  simp only [ts_nanos] at h1
  generalize diff_ts e b = x at h1 h2 h3 ⊢
  obtain ⟨s, n⟩ := x
  simp only [] at h1 h2 h3
  split_ifs with hc
  · have hs : s = e.tv_sec - b.tv_sec - 1 := by omega
    have hn : n = 1000000000 + e.tv_nsec - b.tv_nsec := by omega
    rw [hs, hn]
  · have hs : s = e.tv_sec - b.tv_sec := by omega
    have hn : n = e.tv_nsec - b.tv_nsec := by omega
    rw [hs, hn]

theorem diff_ts_sec_gt (e b : ts_t) (T : Int) :
    (diff_ts e b).tv_sec > T ↔ (T + 1) * 1000000000 ≤ ts_nanos e - ts_nanos b := by
  have h1 := ts_nanos_diff_ts e b
  have h2 := diff_ts_nsec_nonneg e b
  have h3 := diff_ts_nsec_lt e b
  simp only [ts_nanos] at h1 ⊢
  constructor
  · intro h; nlinarith
  · intro h; by_contra hc; push_neg at hc; nlinarith

theorem cmp_ts_zero_diff (e b : ts_t) :
    cmp_ts ⟨0, 0⟩ (diff_ts e b) = 1 ↔ ts_nanos e - ts_nanos b < 0 := by
  have h1 := ts_nanos_diff_ts e b
  have h2 := diff_ts_nsec_nonneg e b
  have h3 := diff_ts_nsec_lt e b
  simp only [ts_nanos] at h1 ⊢
  simp only [cmp_ts]
  split_ifs <;> constructor <;> intro h <;> first | omega | simp at h

theorem cmp_ts_zero_rtt (r : res) : cmp_ts ⟨0, 0⟩ (res_rtt r) = 1 ↔ rtt_nanos r < 0 := by
  rw [res_rtt, cmp_ts_zero_diff, ts_nanos_diff_ts, ts_nanos_diff_ts, rtt_nanos]

theorem ts_iszero_iff (t : ts_t) : ts_iszero t = true ↔ t = ts_zero := by
  cases t with
  | mk s n => simp [ts_iszero, ts_zero]

/-! ## Facts about one visit of the sweep -/

theorem res_classify_done (T : Int) (now : ts_t) (r : res)
    (h : r.state &&& MASK_DONE = MASK_DONE) :
    res_classify T now r = ({ r with state := done_code r }, ⟨0, 0⟩) := by
  have hz := cmp_ts_zero_rtt r
  simp only [res_classify, h, if_true, List.foldl_cons, List.foldl_nil, ts_iszero_iff,
    done_code, res_haszero]
  by_cases h0 : r.ts0 = ts_zero <;> by_cases h1 : r.ts1 = ts_zero <;>
    by_cases h2 : r.ts2 = ts_zero <;> by_cases h3 : r.ts3 = ts_zero <;>
    by_cases hr : rtt_nanos r < 0 <;>
    simp [h0, h1, h2, h3, hr, hz]

theorem res_classify_late (T : Int) (now : ts_t) (r : res)
    (h : r.state &&& MASK_DONE ≠ MASK_DONE) (hl : (diff_ts now r.created).tv_sec > T) :
    res_classify T now r = ({ r with state := timeout_code r.state }, now) := by
  simp only [res_classify, h, if_false, hl, if_true, timeout_code]
  split_ifs <;> rfl

theorem res_classify_wait (T : Int) (now : ts_t) (r : res)
    (h : r.state &&& MASK_DONE ≠ MASK_DONE) (hl : ¬ (diff_ts now r.created).tv_sec > T) :
    res_classify T now r = (r, now) := by
  simp only [res_classify, h, if_false, hl]

theorem res_isfinal_iff (s : Nat) : res_isfinal s = true ↔ s ∈ terminal_codes := by
  simp only [res_isfinal, terminal_codes, Bool.or_eq_true, decide_eq_true_eq, List.mem_cons,
    List.mem_singleton, List.not_mem_nil, or_false]
  tauto

theorem res_isfinal_done_code (r : res) : res_isfinal (done_code r) = true := by
  unfold done_code; split_ifs <;> decide

theorem res_isfinal_timeout_code (s : Nat) : res_isfinal (timeout_code s) = true := by
  unfold timeout_code; split_ifs <;> decide

theorem res_isfinal_mask (s : Nat) (h : s < 16) : res_isfinal s = false := by
  interval_cases s <;> decide

/-! ## Facts about the whole sweep -/

theorem res_stats_frame (w : World) (now : ts_t) (r : res) :
    (res_stats w now r).1.res_head = w.res_head ∧
    (res_stats w now r).1.msess_head = w.msess_head ∧
    (res_stats w now r).1.emitted = w.emitted ∧
    (res_stats w now r).1.fifo = w.fifo ∧
    (res_stats w now r).1.res_dup = w.res_dup := by
  unfold res_stats
  split_ifs <;> simp

theorem res_output_frame (op : opmode) (w : World) (now : ts_t) (r : res) :
    (res_output op w now r).1.res_head = w.res_head ∧
    (res_output op w now r).1.msess_head = w.msess_head ∧
    (res_output op w now r).1.emitted = w.emitted ++ [r] ∧
    (res_output op w now r).1.res_dup = w.res_dup := by
  unfold res_output
  by_cases h1 : op = opmode.DAEMON <;> by_cases h2 : op = opmode.CLIENT <;>
    simp [h1, h2, res_stats_frame]

theorem res_visit_spec (op : opmode) (T : Int) (a : addr_t) (d : data_t) (ts : Option ts_t)
    (dscp : Int) (st : Sweep) (r : res) :
    (res_visit op T a d ts dscp st r).w.msess_head = st.w.msess_head ∧
    (res_visit op T a d ts dscp st r).w.res_head =
      st.w.res_head ++ [res_visited T a d ts dscp st r].filter (fun x => !res_isfinal x.state) ∧
    (res_visit op T a d ts dscp st r).w.emitted =
      st.w.emitted ++ [res_visited T a d ts dscp st r].filter (fun x => res_isfinal x.state) ∧
    (res_visit op T a d ts dscp st r).w.res_dup = st.w.res_dup ∧
    (res_visit op T a d ts dscp st r).found = (if res_iskey a d r then 1 else st.found) := by
  unfold res_visit res_visited
  by_cases h : res_isfinal (res_classify T st.now (res_match st.w.msess_head a d ts dscp r)).1.state = true
  · simp [h, res_output_frame]
  · simp [h]

theorem res_fold_spec (op : opmode) (T : Int) (a : addr_t) (d : data_t) (ts : Option ts_t)
    (dscp : Int) (l : List res) (st : Sweep) :
    ∃ V, List.Forall₂ (Visited T st.w.msess_head a d ts dscp) l V ∧
      (l.foldl (res_visit op T a d ts dscp) st).w.res_head =
        st.w.res_head ++ V.filter (fun x => !res_isfinal x.state) ∧
      (l.foldl (res_visit op T a d ts dscp) st).w.emitted =
        st.w.emitted ++ V.filter (fun x => res_isfinal x.state) ∧
      (l.foldl (res_visit op T a d ts dscp) st).w.msess_head = st.w.msess_head ∧
      (l.foldl (res_visit op T a d ts dscp) st).w.res_dup = st.w.res_dup ∧
      (l.foldl (res_visit op T a d ts dscp) st).found =
        (if l.any (res_iskey a d) then 1 else st.found) := by
  induction l generalizing st with
  | nil => exact ⟨[], List.Forall₂.nil, by simp⟩
  | cons r rest ih =>
    obtain ⟨hm, hh, he, hd, hf⟩ := res_visit_spec op T a d ts dscp st r
    obtain ⟨V, hV, h1, h2, h3, h4, h5⟩ := ih (res_visit op T a d ts dscp st r)
    refine ⟨res_visited T a d ts dscp st r :: V, ?_, ?_, ?_, ?_, ?_, ?_⟩
    · rw [hm] at hV
      exact List.Forall₂.cons ⟨st.now, rfl⟩ hV
    · rw [List.foldl_cons, h1, hh, List.filter_cons]
      by_cases hfin : res_isfinal (res_visited T a d ts dscp st r).state = true <;>
        simp [hfin]
    · rw [List.foldl_cons, h2, he, List.filter_cons]
      by_cases hfin : res_isfinal (res_visited T a d ts dscp st r).state = true <;>
        simp [hfin]
    · rw [List.foldl_cons, h3, hm]
    · rw [List.foldl_cons, h4, hd]
    · rw [List.foldl_cons, h5, hf]
      by_cases hk : res_iskey a d r = true
      · simp [hk]
      · simp [hk]

theorem forall₂_mem_left {α β : Type} {R : α → β → Prop} {l : List α} {V : List β}
    (h : List.Forall₂ R l V) {r : α} (hr : r ∈ l) : ∃ x ∈ V, R r x := by
  induction h with
  | nil => cases hr
  | cons hab _ ih =>
    rcases List.mem_cons.1 hr with rfl | hr
    · exact ⟨_, List.mem_cons_self _ _, hab⟩
    · obtain ⟨x, hx, hR⟩ := ih hr
      exact ⟨x, List.mem_cons_of_mem _ hx, hR⟩

theorem forall₂_mem_right {α β : Type} {R : α → β → Prop} {l : List α} {V : List β}
    (h : List.Forall₂ R l V) {x : β} (hx : x ∈ V) : ∃ r ∈ l, R r x := by
  induction h with
  | nil => cases hx
  | cons hab _ ih =>
    rcases List.mem_cons.1 hx with rfl | hx
    · exact ⟨_, List.mem_cons_self _ _, hab⟩
    · obtain ⟨r, hr, hR⟩ := ih hx
      exact ⟨r, List.mem_cons_of_mem _ hr, hR⟩

theorem res_sweep_list_spec (op : opmode) (T : Int) (a : addr_t) (d : data_t)
    (ts : Option ts_t) (dscp : Int) (clk : ts_t) (w : World) (l : List res) :
    ∃ V, List.Forall₂ (Visited T w.msess_head a d ts dscp) l V ∧
      (res_sweep_list op T a d ts dscp clk w l).w.res_head =
        V.filter (fun x => !res_isfinal x.state) ∧
      (res_sweep_list op T a d ts dscp clk w l).w.emitted =
        w.emitted ++ V.filter (fun x => res_isfinal x.state) ∧
      (res_sweep_list op T a d ts dscp clk w l).w.msess_head = w.msess_head ∧
      (res_sweep_list op T a d ts dscp clk w l).w.res_dup = w.res_dup ∧
      (res_sweep_list op T a d ts dscp clk w l).found =
        (if l.any (res_iskey a d) then 1 else 0) := by
  obtain ⟨V, hV, h1, h2, h3, h4, h5⟩ := res_fold_spec op T a d ts dscp l
    { w := { w with res_head := [] }, now := clk, found := 0 }
  exact ⟨V, hV, by simpa [res_sweep_list] using h1, by simpa [res_sweep_list] using h2,
    by simpa [res_sweep_list] using h3, by simpa [res_sweep_list] using h4,
    by simpa [res_sweep_list] using h5⟩

/-- The sweep of client_res_update, entry by entry. -/
theorem res_sweep_spec (op : opmode) (T : Int) (a : addr_t) (d : data_t) (ts : Option ts_t)
    (dscp : Int) (clk : ts_t) (w : World) :
    ∃ V, List.Forall₂ (Visited T w.msess_head a d ts dscp) w.res_head V ∧
      (res_sweep op T a d ts dscp clk w).w.res_head = V.filter (fun x => !res_isfinal x.state) ∧
      (res_sweep op T a d ts dscp clk w).w.emitted =
        w.emitted ++ V.filter (fun x => res_isfinal x.state) ∧
      (res_sweep op T a d ts dscp clk w).w.msess_head = w.msess_head ∧
      (res_sweep op T a d ts dscp clk w).w.res_dup = w.res_dup ∧
      (res_sweep op T a d ts dscp clk w).found =
        (if w.res_head.any (res_iskey a d) then 1 else 0) :=
  res_sweep_list_spec op T a d ts dscp clk w w.res_head

theorem res_dup_block_frame (op : opmode) (a : addr_t) (d : data_t) (clk : ts_t) (w : World) :
    (res_dup_block op a d clk w).res_head = w.res_head ∧
    (res_dup_block op a d clk w).msess_head = w.msess_head ∧
    (res_dup_block op a d clk w).emitted = w.emitted ++ [res_dup_record a d clk] := by
  unfold res_dup_block
  by_cases h1 : op = opmode.DAEMON <;> by_cases h2 : op = opmode.CLIENT <;> simp [h1, h2]

/-- The whole of client_res_update, entry by entry: the entries left are the
visited entries without a status code, the records put out are the visited
entries with one, followed by at most the record of an unknown PONG. -/
theorem client_res_update_spec (op : opmode) (T : Int) (a : addr_t) (d : data_t)
    (ts : Option ts_t) (dscp : Int) (clk clk_dup : ts_t) (w : World) :
    ∃ V D, List.Forall₂ (Visited T w.msess_head a d ts dscp) w.res_head V ∧
      (client_res_update op T a d ts dscp clk clk_dup w).res_head =
        V.filter (fun x => !res_isfinal x.state) ∧
      (client_res_update op T a d ts dscp clk clk_dup w).emitted =
        w.emitted ++ (V.filter (fun x => res_isfinal x.state) ++ D) ∧
      (client_res_update op T a d ts dscp clk clk_dup w).msess_head = w.msess_head ∧
      D = (if w.res_head.any (res_iskey a d) = false ∧ d.type = TYPE_PONG
            then [res_dup_record a d clk_dup] else []) := by
  obtain ⟨V, hV, h1, h2, h3, _, h5⟩ := res_sweep_spec op T a d ts dscp clk w
  refine ⟨V, _, hV, ?_, ?_, ?_, rfl⟩
  all_goals
    unfold client_res_update
    by_cases hk : w.res_head.any (res_iskey a d) = true <;>
      by_cases ht : d.type = TYPE_PONG <;>
      simp [hk, ht, h1, h2, h3, h5, res_dup_block_frame]

theorem new_emitted_eq (w w' : World) (E : List res) (h : w'.emitted = w.emitted ++ E) :
    new_emitted w w' = E := by
  simp [new_emitted, h]

/-! ## DSCP -/

theorem res_dscp_eq (ms : List msess) (dscp : Int) (r : res) :
    res_dscp ms dscp r =
      { r with state := if dscp_mismatch ms dscp r then r.state ||| MASK_DSCP else r.state } := by
  unfold res_dscp dscp_mismatch
  induction ms generalizing r with
  | nil => simp
  | cons s rest ih =>
    rw [List.foldl_cons]
    by_cases h1 : s.id = r.id
    · by_cases h2 : s.dscp ≠ uint8_of_int dscp
      · rw [if_pos h1, if_pos h2, ih]
        simp only [List.any_cons, h1, h2, decide_True, decide_not, Bool.true_and,
          Bool.true_or, if_true, decide_False, Bool.not_false]
        split_ifs <;> simp [Nat.lor_assoc]
      · rw [if_pos h1, if_neg h2, ih]
        simp [List.any_cons, h1, h2]
    · rw [if_neg h1, ih]
      simp [List.any_cons, h1]

theorem dscp_mismatch_of_mem (ms : List msess) (dscp : Int) (r : res) (s : msess)
    (hs : s ∈ ms) (hid : s.id = r.id) (hmis : s.dscp ≠ uint8_of_int dscp) :
    dscp_mismatch ms dscp r = true := by
  unfold dscp_mismatch
  rw [List.any_eq_true]
  exact ⟨s, hs, by simp [hid, hmis]⟩

theorem res_match_pong (ms : List msess) (a : addr_t) (d : data_t) (ts : Option ts_t)
    (dscp : Int) (r : res) (hk : res_iskey a d r = true) (ht : d.type = TYPE_PONG) :
    res_match ms a d ts dscp r =
      { r with state := if dscp_mismatch ms dscp r then r.state ||| MASK_PONG ||| MASK_DSCP
                        else r.state ||| MASK_PONG,
               ts3 := ts.getD r.ts3 } := by
  unfold res_match
  rw [if_pos hk, if_pos ht]
  cases ts with
  | none => simp only [res_dscp_eq, dscp_mismatch, Option.getD_none]
  | some t => simp only [res_dscp_eq, dscp_mismatch, Option.getD_some]

theorem res_match_time (ms : List msess) (a : addr_t) (d : data_t) (ts : Option ts_t)
    (dscp : Int) (r : res) (hk : res_iskey a d r = true) (ht : d.type = TYPE_TIME) :
    res_match ms a d ts dscp r =
      { r with state := r.state ||| MASK_TIME, ts1 := d.t2, ts2 := d.t3 } := by
  unfold res_match
  have h : d.type ≠ TYPE_PONG := by rw [ht]; decide
  rw [if_pos hk, if_neg h, if_pos ht]

theorem res_match_other (ms : List msess) (a : addr_t) (d : data_t) (ts : Option ts_t)
    (dscp : Int) (r : res) (hk : res_iskey a d r = false) :
    res_match ms a d ts dscp r = r := by
  unfold res_match
  simp [hk]

/-! ## What a visit leaves untouched -/

theorem res_iskey_congr (a : addr_t) (d : data_t) (r r' : res)
    (h1 : r'.id = r.id) (h2 : r'.seq = r.seq) (h3 : r'.addr = r.addr) :
    res_iskey a d r' = res_iskey a d r := by
  simp [res_iskey, h1, h2, h3]

theorem mask_lor_lt (s : Nat) (h : s < 16) :
    s ||| MASK_PONG < 16 ∧ s ||| MASK_TIME < 16 ∧ s ||| MASK_DSCP < 16 ∧
    s ||| MASK_PONG ||| MASK_DSCP < 16 := by
  interval_cases s <;> decide

theorem res_match_state_lt (ms : List msess) (a : addr_t) (d : data_t) (ts : Option ts_t)
    (dscp : Int) (r : res) (h : r.state < 16) : (res_match ms a d ts dscp r).state < 16 := by
  obtain ⟨h1, h2, _, h4⟩ := mask_lor_lt r.state h
  by_cases hk : res_iskey a d r = true
  · by_cases hp : d.type = TYPE_PONG
    · rw [res_match_pong ms a d ts dscp r hk hp]
      simp only []
      split_ifs
      · exact h4
      · exact h1
    · by_cases ht : d.type = TYPE_TIME
      · rw [res_match_time ms a d ts dscp r hk ht]
        exact h2
      · unfold res_match
        simp [hk, hp, ht, h]
  · rw [res_match_other ms a d ts dscp r (by simpa using hk)]
    exact h

theorem res_match_ident (ms : List msess) (a : addr_t) (d : data_t) (ts : Option ts_t)
    (dscp : Int) (r : res) :
    res_ident (res_match ms a d ts dscp r) = res_ident r := by
  by_cases hk : res_iskey a d r = true
  · by_cases hp : d.type = TYPE_PONG
    · rw [res_match_pong ms a d ts dscp r hk hp]
      rfl
    · by_cases ht : d.type = TYPE_TIME
      · rw [res_match_time ms a d ts dscp r hk ht]
        rfl
      · unfold res_match
        simp [hk, hp, ht]
  · rw [res_match_other ms a d ts dscp r (by simpa using hk)]

theorem res_classify_ident (T : Int) (now : ts_t) (r : res) :
    res_ident (res_classify T now r).1 = res_ident r := by
  by_cases hd : r.state &&& MASK_DONE = MASK_DONE
  · rw [res_classify_done T now r hd]; rfl
  · by_cases hl : (diff_ts now r.created).tv_sec > T
    · rw [res_classify_late T now r hd hl]; rfl
    · rw [res_classify_wait T now r hd hl]

theorem visited_ident {T : Int} {ms : List msess} {a : addr_t} {d : data_t}
    {ts : Option ts_t} {dscp : Int} {r x : res} (h : Visited T ms a d ts dscp r x) :
    res_ident x = res_ident r := by
  obtain ⟨now, hx⟩ := h
  rw [hx, res_classify_ident, res_match_ident]

theorem res_ident_created {r x : res} (h : res_ident x = res_ident r) : x.created = r.created := by
  simp only [res_ident, Prod.mk.injEq] at h
  exact h.2.2.2.1

theorem res_ident_iskey {r x : res} (a : addr_t) (d : data_t) (h : res_ident x = res_ident r) :
    res_iskey a d x = res_iskey a d r := by
  simp only [res_ident, Prod.mk.injEq] at h
  exact res_iskey_congr a d r x h.2.1 h.2.2.1 h.1

theorem forall₂_map_eq {α β γ : Type} {R : α → β → Prop} (f : α → γ) (g : β → γ)
    {l : List α} {V : List β} (h : List.Forall₂ R l V) (hR : ∀ a b, R a b → g b = f a) :
    V.map g = l.map f := by
  induction h with
  | nil => rfl
  | cons hab _ ih => simp [hR _ _ hab, ih]

/-! ## Completion -/

theorem res_classify_ok (T : Int) (now : ts_t) (r : res)
    (h : (res_classify T now r).1.state = STATE_OK) :
    0 ≤ rtt_nanos (res_classify T now r).1 ∧ ¬ res_haszero (res_classify T now r).1 := by
  by_cases hd : r.state &&& MASK_DONE = MASK_DONE
  · rw [res_classify_done T now r hd] at h ⊢
    simp only [done_code] at h
    by_cases hb : rtt_nanos r < 0 ∨ res_haszero r
    · simp [hb, STATE_TSERROR, STATE_OK] at h
    · push_neg at hb
      exact ⟨hb.1, hb.2⟩
  · by_cases hl : (diff_ts now r.created).tv_sec > T
    · rw [res_classify_late T now r hd hl] at h
      simp only [timeout_code] at h
      split_ifs at h <;> simp [STATE_PONGLOSS, STATE_TSERROR, STATE_TIMEOUT, STATE_OK] at h
    · rw [res_classify_wait T now r hd hl] at h
      simp only [] at h
      rw [h] at hd
      exact absurd (by decide) hd

/-- A complete entry is put out by the call, with the code of done_code. -/
theorem res_done_emitted (op : opmode) (T : Int) (a : addr_t) (d : data_t)
    (ts : Option ts_t) (dscp : Int) (clk clk_dup : ts_t) (w : World) (r : res)
    (hr : r ∈ w.res_head)
    (hdone : (res_match w.msess_head a d ts dscp r).state &&& MASK_DONE = MASK_DONE) :
    { res_match w.msess_head a d ts dscp r with
        state := done_code (res_match w.msess_head a d ts dscp r) }
      ∈ new_emitted w (client_res_update op T a d ts dscp clk clk_dup w) := by
  obtain ⟨V, D, hV, _, he, _, _⟩ := client_res_update_spec op T a d ts dscp clk clk_dup w
  rw [new_emitted_eq _ _ _ he]
  obtain ⟨x, hx, now, hxe⟩ := forall₂_mem_left hV hr
  rw [res_classify_done T now _ hdone] at hxe
  simp only [] at hxe
  rw [← hxe]
  refine List.mem_append_left _ (List.mem_filter.2 ⟨hx, ?_⟩)
  rw [hxe]
  exact res_isfinal_done_code _

/-- C1: an entry whose status mask, once the update of the call is applied,
has GotPing, GotPong and GotTimeReport set and DscpMismatch clear is put out
by client_res_update with state TimestampError if its round-trip time
(T4 - T1) - (T3 - T2) is negative or one of its four timestamps is zero, and
with state Ok otherwise; and every record any call puts out with state Ok has
a non-negative round-trip time and four non-zero timestamps. -/
theorem C1_completion_classification (op : opmode) (T : Int) (a : addr_t) (d : data_t)
    (ts : Option ts_t) (dscp : Int) (clk clk_dup : ts_t) (w : World) (r : res)
    (hr : r ∈ w.res_head)
    (hdone : (res_match w.msess_head a d ts dscp r).state &&& MASK_DONE = MASK_DONE)
    (hdscp : (res_match w.msess_head a d ts dscp r).state &&& MASK_DSCP = 0) :
    { res_match w.msess_head a d ts dscp r with
        state := if rtt_nanos (res_match w.msess_head a d ts dscp r) < 0 ∨
                    res_haszero (res_match w.msess_head a d ts dscp r)
                 then STATE_TSERROR else STATE_OK }
      ∈ new_emitted w (client_res_update op T a d ts dscp clk clk_dup w) ∧
    ∀ e ∈ new_emitted w (client_res_update op T a d ts dscp clk clk_dup w),
      e.state = STATE_OK → 0 ≤ rtt_nanos e ∧ ¬ res_haszero e := by
  constructor
  · have h := res_done_emitted op T a d ts dscp clk clk_dup w r hr hdone
    simpa [done_code, hdscp] using h
  · obtain ⟨V, D, hV, _, he, _, hD⟩ := client_res_update_spec op T a d ts dscp clk clk_dup w
    rw [new_emitted_eq _ _ _ he]
    intro e hmem hok
    rcases List.mem_append.1 hmem with hv | hd
    · obtain ⟨r', _, now, hx⟩ := forall₂_mem_right hV (List.mem_filter.1 hv).1
      rw [hx] at hok ⊢
      exact res_classify_ok T now _ hok
    · rw [hD] at hd
      split_ifs at hd
      · rw [List.mem_singleton.1 hd] at hok
        simp [res_dup_record, STATE_DUP, STATE_OK] at hok
      · cases hd

/-- C1 at a sample: the time report for ex_ping arrives after its pong. -/
theorem C1_completion_classification_witness :
    ({ res_match ex_world_pong.msess_head ex_addr ex_time none 10 ex_entry_pong with
        state := if rtt_nanos (res_match ex_world_pong.msess_head ex_addr ex_time none 10
                      ex_entry_pong) < 0 ∨
                    res_haszero (res_match ex_world_pong.msess_head ex_addr ex_time none 10
                      ex_entry_pong)
                 then STATE_TSERROR else STATE_OK }
      ∈ new_emitted ex_world_pong
          (client_res_update opmode.CLIENT 2 ex_addr ex_time none 10 ⟨101, 0⟩ ⟨101, 0⟩
            ex_world_pong)) ∧
    ∀ e ∈ new_emitted ex_world_pong
          (client_res_update opmode.CLIENT 2 ex_addr ex_time none 10 ⟨101, 0⟩ ⟨101, 0⟩
            ex_world_pong),
      e.state = STATE_OK → 0 ≤ rtt_nanos e ∧ ¬ res_haszero e :=
  C1_completion_classification opmode.CLIENT 2 ex_addr ex_time none 10 ⟨101, 0⟩ ⟨101, 0⟩
    ex_world_pong ex_entry_pong (by decide) (by decide) (by decide)

/-- C2, refuted as stated: the session of ex_entry is configured with DSCP 10,
a pong observed with DSCP 20 and then a time report are applied with no
timeout in between, all four timestamps are present, and the record is put
out with state TimestampError, not DscpError, because the round-trip time is
negative. -/
theorem C2_dscp_mismatch_counterexample :
    ex_sess ∈ ex_world.msess_head ∧ ex_sess.id = ex_entry.id ∧
    ex_sess.dscp ≠ uint8_of_int 20 ∧
    (client_res_update opmode.DAEMON 2 ex_addr ex_pong (some ex_pong_t4) 20
        ⟨100, 4000000⟩ ⟨100, 4000000⟩ ex_world).res_head
      = [{ ex_entry with state := MASK_PING ||| MASK_PONG ||| MASK_DSCP, ts3 := ex_pong_t4 }] ∧
    new_emitted
        (client_res_update opmode.DAEMON 2 ex_addr ex_pong (some ex_pong_t4) 20
          ⟨100, 4000000⟩ ⟨100, 4000000⟩ ex_world)
        (client_res_update opmode.DAEMON 2 ex_addr ex_time_slow none 0
          ⟨100, 6000000⟩ ⟨100, 6000000⟩
          (client_res_update opmode.DAEMON 2 ex_addr ex_pong (some ex_pong_t4) 20
            ⟨100, 4000000⟩ ⟨100, 4000000⟩ ex_world))
      = [{ ex_entry with state := STATE_TSERROR, ts1 := ⟨50, 0⟩, ts2 := ⟨50, 5000000⟩,
                         ts3 := ex_pong_t4 }] ∧
    STATE_TSERROR ≠ STATE_DSERROR := by
  decide

/-- C2, amended: for a pending probe (mask GotPing) whose session is
configured with a DSCP other than the one observed on its pong, once the pong
and the time report have both been applied, in either order and with the entry
still in the table after the first of the two, the second call puts the record
out with state TimestampError if the round-trip time is negative or one of
the four timestamps is zero, and with state DscpError otherwise; the state is
never Ok. -/
theorem C2_dscp_mismatch_amended (op : opmode) (T : Int) (a : addr_t) (dp dt : data_t)
    (tsp tst : Option ts_t) (dscp dscp_t : Int) (clk1 dup1 clk2 dup2 : ts_t)
    (w : World) (r : res) (s : msess) (hstate : r.state = MASK_PING)
    (hs : s ∈ w.msess_head) (hid : s.id = r.id) (hmis : s.dscp ≠ uint8_of_int dscp)
    (hkp : res_iskey a dp r = true) (hp : dp.type = TYPE_PONG)
    (hkt : res_iskey a dt r = true) (ht : dt.type = TYPE_TIME) :
    (res_match w.msess_head a dp tsp dscp r
        ∈ (client_res_update op T a dp tsp dscp clk1 dup1 w).res_head →
      res_joined r dt tsp
          (if rtt_nanos (res_joined r dt tsp 0) < 0 ∨ res_haszero (res_joined r dt tsp 0)
           then STATE_TSERROR else STATE_DSERROR)
        ∈ new_emitted (client_res_update op T a dp tsp dscp clk1 dup1 w)
            (client_res_update op T a dt tst dscp_t clk2 dup2
              (client_res_update op T a dp tsp dscp clk1 dup1 w))) ∧
    (res_match w.msess_head a dt tst dscp_t r
        ∈ (client_res_update op T a dt tst dscp_t clk1 dup1 w).res_head →
      res_joined r dt tsp
          (if rtt_nanos (res_joined r dt tsp 0) < 0 ∨ res_haszero (res_joined r dt tsp 0)
           then STATE_TSERROR else STATE_DSERROR)
        ∈ new_emitted (client_res_update op T a dt tst dscp_t clk1 dup1 w)
            (client_res_update op T a dp tsp dscp clk2 dup2
              (client_res_update op T a dt tst dscp_t clk1 dup1 w))) ∧
    (if rtt_nanos (res_joined r dt tsp 0) < 0 ∨ res_haszero (res_joined r dt tsp 0)
      then STATE_TSERROR else STATE_DSERROR) ≠ STATE_OK := by
  have hmm := dscp_mismatch_of_mem w.msess_head dscp r s hs hid hmis
  refine ⟨?_, ?_, ?_⟩
  · intro hin
    obtain ⟨_, _, _, _, _, hms, _⟩ := client_res_update_spec op T a dp tsp dscp clk1 dup1 w
    have hr1 := res_match_pong w.msess_head a dp tsp dscp r hkp hp
    rw [hmm, if_pos rfl, hstate] at hr1
    have hk1 : res_iskey a dt (res_match w.msess_head a dp tsp dscp r) = true := by
      rw [hr1]; exact hkt
    have hr2 := res_match_time (client_res_update op T a dp tsp dscp clk1 dup1 w).msess_head
      a dt tst dscp_t _ hk1 ht
    have hdone : (res_match (client_res_update op T a dp tsp dscp clk1 dup1 w).msess_head
        a dt tst dscp_t (res_match w.msess_head a dp tsp dscp r)).state &&& MASK_DONE
          = MASK_DONE := by
      rw [hr2, hr1]
      show (MASK_PING ||| MASK_PONG ||| MASK_DSCP ||| MASK_TIME) &&& MASK_DONE = MASK_DONE
      decide
    have h := res_done_emitted op T a dt tst dscp_t clk2 dup2 _ _ hin hdone
    rw [hr2, hr1] at h
    have hc : (MASK_PING ||| MASK_PONG ||| MASK_DSCP ||| MASK_TIME) &&& MASK_DSCP ≠ 0 := by
      decide
    simpa [done_code, res_joined, rtt_nanos, res_haszero, hc] using h
  · intro hin
    obtain ⟨_, _, _, _, _, hms, _⟩ := client_res_update_spec op T a dt tst dscp_t clk1 dup1 w
    have hr1 := res_match_time w.msess_head a dt tst dscp_t r hkt ht
    rw [hstate] at hr1
    have hk1 : res_iskey a dp (res_match w.msess_head a dt tst dscp_t r) = true := by
      rw [hr1]; exact hkp
    have hmm1 : dscp_mismatch w.msess_head dscp (res_match w.msess_head a dt tst dscp_t r)
        = true := by
      rw [hr1]; exact hmm
    have hr2 := res_match_pong (client_res_update op T a dt tst dscp_t clk1 dup1 w).msess_head
      a dp tsp dscp _ hk1 hp
    rw [hms, hmm1, if_pos rfl] at hr2
    have hdone : (res_match (client_res_update op T a dt tst dscp_t clk1 dup1 w).msess_head
        a dp tsp dscp (res_match w.msess_head a dt tst dscp_t r)).state &&& MASK_DONE
          = MASK_DONE := by
      rw [hms, hr2, hr1]
      show (MASK_PING ||| MASK_TIME ||| MASK_PONG ||| MASK_DSCP) &&& MASK_DONE = MASK_DONE
      decide
    have h := res_done_emitted op T a dp tsp dscp clk2 dup2 _ _ hin hdone
    rw [hms, hr2, hr1] at h
    have hc : (MASK_PING ||| MASK_TIME ||| MASK_PONG ||| MASK_DSCP) &&& MASK_DSCP ≠ 0 := by
      decide
    simpa [done_code, res_joined, rtt_nanos, res_haszero, hc] using h
  · split_ifs <;> decide

/-- C2 amended, at a sample: ex_entry, a pong observed with DSCP 20 and the
time report ex_time. -/
theorem C2_dscp_mismatch_amended_witness :
    (res_match ex_world.msess_head ex_addr ex_pong (some ex_pong_t4) 20 ex_entry
        ∈ (client_res_update opmode.DAEMON 2 ex_addr ex_pong (some ex_pong_t4) 20
            ⟨101, 0⟩ ⟨101, 0⟩ ex_world).res_head →
      res_joined ex_entry ex_time (some ex_pong_t4)
          (if rtt_nanos (res_joined ex_entry ex_time (some ex_pong_t4) 0) < 0 ∨
              res_haszero (res_joined ex_entry ex_time (some ex_pong_t4) 0)
           then STATE_TSERROR else STATE_DSERROR)
        ∈ new_emitted (client_res_update opmode.DAEMON 2 ex_addr ex_pong (some ex_pong_t4) 20
              ⟨101, 0⟩ ⟨101, 0⟩ ex_world)
            (client_res_update opmode.DAEMON 2 ex_addr ex_time none 0 ⟨102, 0⟩ ⟨102, 0⟩
              (client_res_update opmode.DAEMON 2 ex_addr ex_pong (some ex_pong_t4) 20
                ⟨101, 0⟩ ⟨101, 0⟩ ex_world))) ∧
    (res_match ex_world.msess_head ex_addr ex_time none 0 ex_entry
        ∈ (client_res_update opmode.DAEMON 2 ex_addr ex_time none 0
            ⟨101, 0⟩ ⟨101, 0⟩ ex_world).res_head →
      res_joined ex_entry ex_time (some ex_pong_t4)
          (if rtt_nanos (res_joined ex_entry ex_time (some ex_pong_t4) 0) < 0 ∨
              res_haszero (res_joined ex_entry ex_time (some ex_pong_t4) 0)
           then STATE_TSERROR else STATE_DSERROR)
        ∈ new_emitted (client_res_update opmode.DAEMON 2 ex_addr ex_time none 0
              ⟨101, 0⟩ ⟨101, 0⟩ ex_world)
            (client_res_update opmode.DAEMON 2 ex_addr ex_pong (some ex_pong_t4) 20
              ⟨102, 0⟩ ⟨102, 0⟩
              (client_res_update opmode.DAEMON 2 ex_addr ex_time none 0
                ⟨101, 0⟩ ⟨101, 0⟩ ex_world))) ∧
    (if rtt_nanos (res_joined ex_entry ex_time (some ex_pong_t4) 0) < 0 ∨
        res_haszero (res_joined ex_entry ex_time (some ex_pong_t4) 0)
      then STATE_TSERROR else STATE_DSERROR) ≠ STATE_OK :=
  C2_dscp_mismatch_amended opmode.DAEMON 2 ex_addr ex_pong ex_time (some ex_pong_t4) none 20 0
    ⟨101, 0⟩ ⟨101, 0⟩ ⟨102, 0⟩ ⟨102, 0⟩ ex_world ex_entry ex_sess
    (by decide) (by decide) (by decide) (by decide) (by decide) (by decide) (by decide)
    (by decide)

/-! ## Entries at a given place of the list -/

theorem res_sweep_split (op : opmode) (T : Int) (a : addr_t) (d : data_t) (ts : Option ts_t)
    (dscp : Int) (clk : ts_t) (w : World) (pre post : List res) (r : res)
    (hw : w.res_head = pre ++ r :: post) :
    res_sweep op T a d ts dscp clk w =
      post.foldl (res_visit op T a d ts dscp)
        (res_visit op T a d ts dscp (res_sweep_list op T a d ts dscp clk w pre) r) := by
  unfold res_sweep res_sweep_list
  rw [hw]
  simp [List.foldl_append]

/-- What the sweep has made of the list and of the output once the entry
after pre is visited and the rest of the list is gone through. -/
theorem res_sweep_at (op : opmode) (T : Int) (a : addr_t) (d : data_t) (ts : Option ts_t)
    (dscp : Int) (clk : ts_t) (w : World) (pre post : List res) (r : res)
    (hw : w.res_head = pre ++ r :: post) :
    ∃ K1 E1 K2 E2,
      (res_sweep op T a d ts dscp clk w).w.res_head =
        K1 ++ [(res_classify T (now_after op T a d ts dscp clk w pre)
          (res_match w.msess_head a d ts dscp r)).1].filter (fun x => !res_isfinal x.state)
          ++ K2 ∧
      (res_sweep op T a d ts dscp clk w).w.emitted =
        w.emitted ++ (E1 ++ [(res_classify T (now_after op T a d ts dscp clk w pre)
          (res_match w.msess_head a d ts dscp r)).1].filter (fun x => res_isfinal x.state)
          ++ E2) ∧
      (pre = [] → K1 = [] ∧ E1 = []) ∧ (post = [] → K2 = [] ∧ E2 = []) ∧
      List.Sublist (K2.map res_ident) (post.map res_ident) := by
  obtain ⟨V1, hV1, hk1, he1, hms, _, _⟩ := res_sweep_list_spec op T a d ts dscp clk w pre
  obtain ⟨_, hk, he, _, _⟩ := res_visit_spec op T a d ts dscp
    (res_sweep_list op T a d ts dscp clk w pre) r
  obtain ⟨V2, hV2, hk2, he2, _, _, _⟩ := res_fold_spec op T a d ts dscp post
    (res_visit op T a d ts dscp (res_sweep_list op T a d ts dscp clk w pre) r)
  refine ⟨V1.filter (fun x => !res_isfinal x.state), V1.filter (fun x => res_isfinal x.state),
    V2.filter (fun x => !res_isfinal x.state), V2.filter (fun x => res_isfinal x.state),
    ?_, ?_, ?_, ?_, ?_⟩
  · rw [res_sweep_split op T a d ts dscp clk w pre post r hw, hk2, hk, hk1]
    unfold res_visited now_after
    rw [hms]
  · rw [res_sweep_split op T a d ts dscp clk w pre post r hw, he2, he, he1]
    unfold res_visited now_after
    rw [hms]
    simp only [List.append_assoc]
  · intro hp
    subst hp
    cases hV1
    exact ⟨rfl, rfl⟩
  · intro hp
    subst hp
    cases hV2
    exact ⟨rfl, rfl⟩
  · rw [← forall₂_map_eq res_ident res_ident hV2 (fun _ _ h => visited_ident h)]
    exact List.Sublist.map _ (List.filter_sublist _)

theorem client_res_update_emitted (op : opmode) (T : Int) (a : addr_t) (d : data_t)
    (ts : Option ts_t) (dscp : Int) (clk clk_dup : ts_t) (w : World) :
    ∃ D, (client_res_update op T a d ts dscp clk clk_dup w).emitted =
      (res_sweep op T a d ts dscp clk w).w.emitted ++ D := by
  unfold client_res_update
  by_cases h : (res_sweep op T a d ts dscp clk w).found = 0 ∧ d.type = TYPE_PONG
  · exact ⟨[res_dup_record a d clk_dup], by simp [h, res_dup_block_frame]⟩
  · exact ⟨[], by simp [h]⟩

theorem client_res_update_res_head (op : opmode) (T : Int) (a : addr_t) (d : data_t)
    (ts : Option ts_t) (dscp : Int) (clk clk_dup : ts_t) (w : World) :
    (client_res_update op T a d ts dscp clk clk_dup w).res_head =
      (res_sweep op T a d ts dscp clk w).w.res_head := by
  unfold client_res_update
  by_cases h : (res_sweep op T a d ts dscp clk w).found = 0 ∧ d.type = TYPE_PONG
  · simp [h, res_dup_block_frame]
  · simp [h]

/-- An entry that gets a status code at its visit is put out by the call. The
value of now at the visit is the one left by the sweep of the entries before. -/
theorem res_visited_emitted (op : opmode) (T : Int) (a : addr_t) (d : data_t)
    (ts : Option ts_t) (dscp : Int) (clk clk_dup : ts_t) (w : World) (pre post : List res)
    (r : res) (hw : w.res_head = pre ++ r :: post)
    (hfin : res_isfinal (res_classify T (now_after op T a d ts dscp clk w pre)
        (res_match w.msess_head a d ts dscp r)).1.state = true) :
    (res_classify T (now_after op T a d ts dscp clk w pre)
        (res_match w.msess_head a d ts dscp r)).1
      ∈ new_emitted w (client_res_update op T a d ts dscp clk clk_dup w) := by
  obtain ⟨K1, E1, K2, E2, _, he, _, _, _⟩ := res_sweep_at op T a d ts dscp clk w pre post r hw
  obtain ⟨D, hD⟩ := client_res_update_emitted op T a d ts dscp clk clk_dup w
  rw [he, List.append_assoc] at hD
  rw [new_emitted_eq _ _ _ hD]
  simp [List.filter_cons, hfin]

/-- An entry that gets no status code at its visit stays in the list. -/
theorem res_visited_kept (op : opmode) (T : Int) (a : addr_t) (d : data_t)
    (ts : Option ts_t) (dscp : Int) (clk clk_dup : ts_t) (w : World) (pre post : List res)
    (r : res) (hw : w.res_head = pre ++ r :: post)
    (hfin : res_isfinal (res_classify T (now_after op T a d ts dscp clk w pre)
        (res_match w.msess_head a d ts dscp r)).1.state = false) :
    (res_classify T (now_after op T a d ts dscp clk w pre)
        (res_match w.msess_head a d ts dscp r)).1
      ∈ (client_res_update op T a d ts dscp clk clk_dup w).res_head := by
  obtain ⟨K1, E1, K2, E2, hk, _, _, _, _⟩ := res_sweep_at op T a d ts dscp clk w pre post r hw
  rw [client_res_update_res_head, hk]
  simp [List.filter_cons, hfin]

/-- C3: an entry that client_res_update finds incomplete (not all of GotPing,
GotPong, GotTimeReport set once the update of the call is applied) and timed
out against the value its variable now holds at the visit of the entry is put
out with state PongLoss if GotTimeReport is set, TimestampError if GotPong is
set and GotTimeReport is not, and Timeout if neither is set, whatever
DscpMismatch is; the three codes are pairwise different. -/
theorem C3_timeout_classification (op : opmode) (T : Int) (a : addr_t) (d : data_t)
    (ts : Option ts_t) (dscp : Int) (clk clk_dup : ts_t) (w : World) (pre post : List res)
    (r : res) (hw : w.res_head = pre ++ r :: post)
    (hinc : (res_match w.msess_head a d ts dscp r).state &&& MASK_DONE ≠ MASK_DONE)
    (hlate : (diff_ts (now_after op T a d ts dscp clk w pre)
        (res_match w.msess_head a d ts dscp r).created).tv_sec > T) :
    { res_match w.msess_head a d ts dscp r with
        state := if (res_match w.msess_head a d ts dscp r).state &&& MASK_TIME ≠ 0
                   then STATE_PONGLOSS
                 else if (res_match w.msess_head a d ts dscp r).state &&& MASK_PONG ≠ 0
                   then STATE_TSERROR
                 else STATE_TIMEOUT }
      ∈ new_emitted w (client_res_update op T a d ts dscp clk clk_dup w) ∧
    STATE_PONGLOSS ≠ STATE_TSERROR ∧ STATE_PONGLOSS ≠ STATE_TIMEOUT ∧
    STATE_TSERROR ≠ STATE_TIMEOUT := by
  refine ⟨?_, by decide, by decide, by decide⟩
  have hc := res_classify_late T _ _ hinc hlate
  have h := res_visited_emitted op T a d ts dscp clk clk_dup w pre post r hw
    (by rw [hc]; exact res_isfinal_timeout_code _)
  rw [hc] at h
  simpa [timeout_code] using h

/-- C3 at a sample: ex_entry, registered at 100.000000005 s, is visited at
103.000000005 s with a timeout of 2 s. -/
theorem C3_timeout_classification_witness :
    { res_match ex_world.msess_head ex_addr ex_tick none (-1) ex_entry with
        state := if (res_match ex_world.msess_head ex_addr ex_tick none (-1) ex_entry).state
                      &&& MASK_TIME ≠ 0
                   then STATE_PONGLOSS
                 else if (res_match ex_world.msess_head ex_addr ex_tick none (-1) ex_entry).state
                      &&& MASK_PONG ≠ 0
                   then STATE_TSERROR
                 else STATE_TIMEOUT }
      ∈ new_emitted ex_world
          (client_res_update opmode.CLIENT 2 ex_addr ex_tick none (-1) ⟨103, 5⟩ ⟨103, 5⟩
            ex_world) ∧
    STATE_PONGLOSS ≠ STATE_TSERROR ∧ STATE_PONGLOSS ≠ STATE_TIMEOUT ∧
    STATE_TSERROR ≠ STATE_TIMEOUT :=
  C3_timeout_classification opmode.CLIENT 2 ex_addr ex_tick none (-1) ⟨103, 5⟩ ⟨103, 5⟩
    ex_world [] [] ex_entry (by decide) (by decide) (by decide)

/-! ## The timeout threshold -/

/-- The records the unknown-PONG block adds carry the state Duplicate. -/
theorem client_res_update_single (op : opmode) (T : Int) (a : addr_t) (d : data_t)
    (ts : Option ts_t) (dscp : Int) (clk clk_dup : ts_t) (w : World) (r : res)
    (hw : w.res_head = [r]) :
    ∃ D, (∀ e ∈ D, e.state = STATE_DUP) ∧
      (client_res_update op T a d ts dscp clk clk_dup w).res_head =
        [(res_classify T clk (res_match w.msess_head a d ts dscp r)).1].filter
          (fun x => !res_isfinal x.state) ∧
      new_emitted w (client_res_update op T a d ts dscp clk clk_dup w) =
        [(res_classify T clk (res_match w.msess_head a d ts dscp r)).1].filter
          (fun x => res_isfinal x.state) ++ D := by
  obtain ⟨K1, E1, K2, E2, hk, he, h1, h2, _⟩ := res_sweep_at op T a d ts dscp clk w [] [] r hw
  obtain ⟨rfl, rfl⟩ := h1 rfl
  obtain ⟨rfl, rfl⟩ := h2 rfl
  have hnow : now_after op T a d ts dscp clk w [] = clk := rfl
  rw [hnow] at hk he
  refine ⟨if (res_sweep op T a d ts dscp clk w).found = 0 ∧ d.type = TYPE_PONG
      then [res_dup_record a d clk_dup] else [], ?_, ?_, ?_⟩
  · intro e he
    split_ifs at he
    · rw [List.mem_singleton.1 he]; rfl
    · cases he
  · rw [client_res_update_res_head, hk]; simp
  · apply new_emitted_eq
    unfold client_res_update
    by_cases h : (res_sweep op T a d ts dscp clk w).found = 0 ∧ d.type = TYPE_PONG
    · simp [h, res_dup_block_frame, he]
    · simp [h, he]

theorem foldl_congr_mem {α β : Type} (f g : β → α → β) (l : List α) (b : β)
    (h : ∀ b, ∀ x ∈ l, f b x = g b x) : l.foldl f b = l.foldl g b := by
  induction l generalizing b with
  | nil => rfl
  | cons x rest ih =>
    rw [List.foldl_cons, List.foldl_cons, h b x (List.mem_cons_self _ _)]
    exact ih _ (fun b y hy => h b y (List.mem_cons_of_mem _ hy))

/-- A sweep that meets no entry with the key of the packet does not depend on
the type of the packet. -/
theorem res_sweep_nokey (op : opmode) (T : Int) (a : addr_t) (d d' : data_t)
    (ts : Option ts_t) (dscp : Int) (clk : ts_t) (w : World)
    (hid : d'.id = d.id) (hseq : d'.seq = d.seq)
    (hno : ∀ r ∈ w.res_head, res_iskey a d r = false) :
    res_sweep op T a d ts dscp clk w = res_sweep op T a d' ts dscp clk w := by
  unfold res_sweep res_sweep_list
  apply foldl_congr_mem
  intro st r hr
  have h1 := hno r hr
  have h2 : res_iskey a d' r = false := by
    rw [← h1]; simp [res_iskey, hid, hseq]
  unfold res_visit
  rw [res_match_other _ a d ts dscp r h1, res_match_other _ a d' ts dscp r h2, h1, h2]

theorem res_sweep_found_zero (op : opmode) (T : Int) (a : addr_t) (d : data_t)
    (ts : Option ts_t) (dscp : Int) (clk : ts_t) (w : World)
    (hno : ∀ r ∈ w.res_head, res_iskey a d r = false) :
    (res_sweep op T a d ts dscp clk w).found = 0 := by
  obtain ⟨_, _, _, _, _, _, hf⟩ := res_sweep_spec op T a d ts dscp clk w
  rw [hf]
  have : w.res_head.any (res_iskey a d) = false := by
    rw [List.any_eq_false]
    intro r hr
    simp [hno r hr]
  simp [this]

/-- The records a sweep puts out carry one of the five final codes. -/
theorem client_res_update_codes (op : opmode) (T : Int) (a : addr_t) (d : data_t)
    (ts : Option ts_t) (dscp : Int) (clk clk_dup : ts_t) (w : World) :
    ∀ e ∈ new_emitted w (client_res_update op T a d ts dscp clk clk_dup w),
      e.state ∈ terminal_codes ∨ (d.type = TYPE_PONG ∧ e = res_dup_record a d clk_dup) := by
  obtain ⟨V, D, _, _, he, _, hD⟩ := client_res_update_spec op T a d ts dscp clk clk_dup w
  rw [new_emitted_eq _ _ _ he]
  intro e hmem
  rcases List.mem_append.1 hmem with hv | hd
  · exact Or.inl ((res_isfinal_iff _).1 (List.mem_filter.1 hv).2)
  · rw [hD] at hd
    split_ifs at hd with hc
    · exact Or.inr ⟨hc.2, List.mem_singleton.1 hd⟩
    · cases hd

theorem client_res_update_keys (op : opmode) (T : Int) (a : addr_t) (d : data_t)
    (ts : Option ts_t) (dscp : Int) (clk clk_dup : ts_t) (w : World) :
    ∀ x ∈ (client_res_update op T a d ts dscp clk clk_dup w).res_head,
      ∃ r ∈ w.res_head, res_ident x = res_ident r := by
  obtain ⟨V, D, hV, hk, _, _, _⟩ := client_res_update_spec op T a d ts dscp clk clk_dup w
  rw [hk]
  intro x hx
  obtain ⟨r, hr, hvis⟩ := forall₂_mem_right hV (List.mem_filter.1 hx).1
  exact ⟨r, hr, visited_ident hvis⟩

theorem mask_lor_ping (s : Nat) (h : s < 16) (hp : s &&& MASK_PING = MASK_PING) :
    (s ||| MASK_PONG) &&& MASK_PING = MASK_PING ∧ (s ||| MASK_TIME) &&& MASK_PING = MASK_PING ∧
    (s ||| MASK_PONG ||| MASK_DSCP) &&& MASK_PING = MASK_PING := by
  interval_cases s <;> first | exact absurd hp (by decide) | decide

theorem res_match_state_ping (ms : List msess) (a : addr_t) (d : data_t) (ts : Option ts_t)
    (dscp : Int) (r : res) (h : r.state < 16) (hp : r.state &&& MASK_PING = MASK_PING) :
    (res_match ms a d ts dscp r).state &&& MASK_PING = MASK_PING := by
  obtain ⟨h1, h2, h3⟩ := mask_lor_ping r.state h hp
  by_cases hk : res_iskey a d r = true
  · by_cases hpo : d.type = TYPE_PONG
    · rw [res_match_pong ms a d ts dscp r hk hpo]
      simp only []
      split_ifs
      · exact h3
      · exact h1
    · by_cases ht : d.type = TYPE_TIME
      · rw [res_match_time ms a d ts dscp r hk ht]
        exact h2
      · unfold res_match
        simp [hk, hpo, ht, hp]
  · rw [res_match_other ms a d ts dscp r (by simpa using hk)]
    exact hp

theorem is_pending_codes (s : Nat) (h : is_pending s) :
    s ∉ terminal_codes ∧ s ≠ STATE_DUP := by
  obtain ⟨h16, _, _⟩ := h
  constructor
  · intro hc
    have := (res_isfinal_iff s).2 hc
    rw [res_isfinal_mask s h16] at this
    cases this
  · intro hc
    rw [hc] at h16
    exact absurd h16 (by decide)

/-- An entry that was pending and is left in the list by a visit is pending. -/
theorem visited_pending {T : Int} {ms : List msess} {a : addr_t} {d : data_t}
    {ts : Option ts_t} {dscp : Int} {r x : res} (h : Visited T ms a d ts dscp r x)
    (hr : is_pending r.state) (hx : res_isfinal x.state = false) : is_pending x.state := by
  obtain ⟨now, rfl⟩ := h
  obtain ⟨h16, hp, _⟩ := hr
  have m16 := res_match_state_lt ms a d ts dscp r h16
  have mp := res_match_state_ping ms a d ts dscp r h16 hp
  by_cases hd : (res_match ms a d ts dscp r).state &&& MASK_DONE = MASK_DONE
  · rw [res_classify_done T now _ hd] at hx
    simp only [res_isfinal_done_code] at hx
    cases hx
  · by_cases hl : (diff_ts now (res_match ms a d ts dscp r).created).tv_sec > T
    · rw [res_classify_late T now _ hd hl] at hx
      simp only [res_isfinal_timeout_code] at hx
      cases hx
    · rw [res_classify_wait T now _ hd hl]
      exact ⟨m16, mp, hd⟩

theorem client_res_update_pending (op : opmode) (T : Int) (a : addr_t) (d : data_t)
    (ts : Option ts_t) (dscp : Int) (clk clk_dup : ts_t) (w : World)
    (h : ∀ r ∈ w.res_head, is_pending r.state) :
    ∀ r ∈ (client_res_update op T a d ts dscp clk clk_dup w).res_head, is_pending r.state := by
  obtain ⟨V, D, hV, hk, _, _, _⟩ := client_res_update_spec op T a d ts dscp clk clk_dup w
  rw [hk]
  intro x hx
  obtain ⟨hxV, hxf⟩ := List.mem_filter.1 hx
  obtain ⟨r, hr, hvis⟩ := forall₂_mem_right hV hxV
  exact visited_pending hvis (h r hr) (by simpa using hxf)

theorem client_res_insert_pending (op : opmode) (T : Int) (alloc : Bool) (a : addr_t)
    (d : data_t) (ts : ts_t) (c1 c2 c3 : ts_t) (w : World)
    (h : ∀ r ∈ w.res_head, is_pending r.state) :
    ∀ r ∈ (client_res_insert op T alloc a d ts c1 c2 c3 w).res_head, is_pending r.state := by
  unfold client_res_insert
  cases alloc with
  | false => simpa using h
  | true =>
    simp only [if_true]
    apply client_res_update_pending
    intro r hr
    rcases List.mem_cons.1 hr with rfl | hr
    · exact ⟨show MASK_PING < 16 by decide,
        show MASK_PING &&& MASK_PING = MASK_PING by decide,
        show MASK_PING &&& MASK_DONE ≠ MASK_DONE by decide⟩
    · exact h r hr

/-- The three ways the body of the loop of client_msess_transmit can go:
nothing sent, a sequence number used up by a failed send, or a ping sent and
registered. -/
theorem msess_transmit_one_cases (op : opmode) (T : Int) (now : timeval) (e : TxEnv)
    (done rest : List msess) (s : msess) (w : World) :
    msess_transmit_one op T now e done rest s w = (s, w) ∨
    msess_transmit_one op T now e done rest s w =
      ({ s with last_seq := (s.last_seq + 1) % 2 ^ 32 },
        { w with sent := w.sent ++
            [(done.length, s.dst, tx_ping { s with last_seq := (s.last_seq + 1) % 2 ^ 32 })] }) ∨
    ∃ ts, msess_transmit_one op T now e done rest s w =
      ({ s with last_seq := (s.last_seq + 1) % 2 ^ 32, last_sent := now },
        client_res_insert op T e.alloc s.dst
          (tx_ping { s with last_seq := (s.last_seq + 1) % 2 ^ 32 }) ts
          e.clk_created e.clk e.clk_dup
          { w with
            sent := w.sent ++
              [(done.length, s.dst, tx_ping { s with last_seq := (s.last_seq + 1) % 2 ^ 32 })],
            msess_head := done ++ { s with last_seq := (s.last_seq + 1) % 2 ^ 32 } :: rest })
    := by
  unfold msess_transmit_one
  by_cases h1 : s.got_hello ≠ 1
  · left; rw [if_pos h1]
  · rw [if_neg h1]
    by_cases h2 : cmp_tv (timersub now s.last_sent) s.interval = 1
    · rw [if_pos h2]
      cases hs : e.send with
      | none => right; left; rfl
      | some t => right; right; exact ⟨t, rfl⟩
    · left; rw [if_neg h2]

/-- A property of the table that every client_res_insert keeps is kept by the
loop of client_msess_transmit. -/
theorem msess_transmit_loop_table (op : opmode) (T : Int) (now : timeval) (env : Nat → TxEnv)
    (P : List res → Prop)
    (hins : ∀ alloc a d ts c1 c2 c3 (w : World), P w.res_head →
      P (client_res_insert op T alloc a d ts c1 c2 c3 w).res_head)
    (todo done : List msess) (w : World) (h : P w.res_head) :
    P (msess_transmit_loop op T now env done todo w).res_head := by
  induction todo generalizing done w with
  | nil => simpa [msess_transmit_loop] using h
  | cons s rest ih =>
    unfold msess_transmit_loop
    apply ih
    rcases msess_transmit_one_cases op T now (env done.length) done rest s w with h1 | h1 | ⟨t, h1⟩
    · rw [h1]; exact h
    · rw [h1]; exact h
    · rw [h1]; exact hins _ _ _ _ _ _ _ _ h

theorem step_pending (op : opmode) (T : Int) (c : Call) (w : World)
    (h : ∀ r ∈ w.res_head, is_pending r.state) :
    ∀ r ∈ (c.step op T w).res_head, is_pending r.state := by
  cases c with
  | update a d ts dscp clk clk_dup => exact client_res_update_pending op T a d ts dscp clk clk_dup w h
  | insert alloc a d ts c1 c2 c3 => exact client_res_insert_pending op T alloc a d ts c1 c2 c3 w h
  | transmit now env =>
    exact msess_transmit_loop_table op T now env (fun l => ∀ r ∈ l, is_pending r.state)
      (fun alloc a d ts c1 c2 c3 w hw => client_res_insert_pending op T alloc a d ts c1 c2 c3 w hw)
      w.msess_head [] w h

theorem run_pending (op : opmode) (T : Int) (cs : List Call) (w : World)
    (h : ∀ r ∈ w.res_head, is_pending r.state) :
    ∀ r ∈ (run op T cs w).res_head, is_pending r.state := by
  induction cs generalizing w with
  | nil => exact h
  | cons c rest ih =>
    unfold run
    rw [List.foldl_cons]
    exact ih _ (step_pending op T c w h)

/-- Every entry of the table is, after a call of client_res_update, either
still in the table or put out once with one of the five final codes; what the
call puts out beyond that is at most the one record of an unknown PONG. -/
theorem client_res_update_account (op : opmode) (T : Int) (a : addr_t) (d : data_t)
    (ts : Option ts_t) (dscp : Int) (clk clk_dup : ts_t) (w : World) :
    ∃ E D, new_emitted w (client_res_update op T a d ts dscp clk clk_dup w) = E ++ D ∧
      (∀ e ∈ E, e.state ∈ terminal_codes) ∧ (∀ e ∈ D, e.state = STATE_DUP) ∧ D.length ≤ 1 ∧
      List.Perm (w.res_head.map res_ident)
        (((client_res_update op T a d ts dscp clk clk_dup w).res_head ++ E).map res_ident) := by
  obtain ⟨V, D, hV, hk, he, _, hD⟩ := client_res_update_spec op T a d ts dscp clk clk_dup w
  refine ⟨V.filter (fun x => res_isfinal x.state), D, new_emitted_eq _ _ _ he, ?_, ?_, ?_, ?_⟩
  · intro e hmem
    exact (res_isfinal_iff _).1 (List.mem_filter.1 hmem).2
  · intro e hmem
    rw [hD] at hmem
    split_ifs at hmem
    · rw [List.mem_singleton.1 hmem]; rfl
    · cases hmem
  · rw [hD]; split_ifs <;> simp
  · rw [hk, ← forall₂_map_eq res_ident res_ident hV (fun _ _ h => visited_ident h)]
    apply List.Perm.map
    have h := List.filter_append_perm (fun x => res_isfinal x.state) V
    exact (List.perm_append_comm.trans h).symm

/-- What a call of client_res_update does with the first entry of the list,
which it visits with the clock reading of the call in now. -/
theorem client_res_update_head (op : opmode) (T : Int) (a : addr_t) (d : data_t)
    (ts : Option ts_t) (dscp : Int) (clk clk_dup : ts_t) (w : World) (r : res)
    (rest : List res) (hw : w.res_head = r :: rest) :
    ∃ K E,
      (client_res_update op T a d ts dscp clk clk_dup w).res_head =
        [(res_classify T clk (res_match w.msess_head a d ts dscp r)).1].filter
          (fun x => !res_isfinal x.state) ++ K ∧
      new_emitted w (client_res_update op T a d ts dscp clk clk_dup w) =
        [(res_classify T clk (res_match w.msess_head a d ts dscp r)).1].filter
          (fun x => res_isfinal x.state) ++ E ∧
      (client_res_update op T a d ts dscp clk clk_dup w).msess_head = w.msess_head ∧
      List.Sublist (K.map res_ident) (rest.map res_ident) := by
  obtain ⟨K1, E1, K2, E2, hk, he, h1, _, hsub⟩ :=
    res_sweep_at op T a d ts dscp clk w [] rest r hw
  obtain ⟨rfl, rfl⟩ := h1 rfl
  have hnow : now_after op T a d ts dscp clk w [] = clk := rfl
  rw [hnow] at hk he
  obtain ⟨D, hD⟩ := client_res_update_emitted op T a d ts dscp clk clk_dup w
  obtain ⟨_, _, _, _, _, hms, _⟩ := client_res_update_spec op T a d ts dscp clk clk_dup w
  refine ⟨K2, E2 ++ D, ?_, ?_, hms, hsub⟩
  · rw [client_res_update_res_head, hk]; simp
  · apply new_emitted_eq
    rw [hD, he]; simp

theorem dscp_mismatch_congr (ms : List msess) (dscp : Int) (r r' : res) (h : r'.id = r.id) :
    dscp_mismatch ms dscp r' = dscp_mismatch ms dscp r := by
  simp [dscp_mismatch, h]

/-- The two-call scenario behind C2 and C7, pong first: the entry at the head
of the list, with mask GotPing, gets its pong in a first call that does not
time it out and its time report in a second call. -/
theorem pong_then_time (op : opmode) (T : Int) (a : addr_t) (dp dt : data_t)
    (tsp tst : Option ts_t) (dscp dscp_t : Int) (clk1 dup1 clk2 dup2 : ts_t)
    (w : World) (r : res) (rest : List res)
    (hw : w.res_head = r :: rest) (hstate : r.state = MASK_PING)
    (hkp : res_iskey a dp r = true) (hp : dp.type = TYPE_PONG)
    (hkt : res_iskey a dt r = true) (ht : dt.type = TYPE_TIME)
    (hwait : ¬ (diff_ts clk1 r.created).tv_sec > T) :
    ∃ E, new_emitted (client_res_update op T a dp tsp dscp clk1 dup1 w)
        (client_res_update op T a dt tst dscp_t clk2 dup2
          (client_res_update op T a dp tsp dscp clk1 dup1 w)) =
      res_joined r dt tsp
        (if rtt_nanos (res_joined r dt tsp 0) < 0 ∨ res_haszero (res_joined r dt tsp 0)
          then STATE_TSERROR
         else if dscp_mismatch w.msess_head dscp r then STATE_DSERROR else STATE_OK) :: E := by
  obtain ⟨K, E1, hk, _, hms, _⟩ := client_res_update_head op T a dp tsp dscp clk1 dup1 w r rest hw
  have hr1 := res_match_pong w.msess_head a dp tsp dscp r hkp hp
  rw [hstate] at hr1
  have hinc : (res_match w.msess_head a dp tsp dscp r).state &&& MASK_DONE ≠ MASK_DONE := by
    rw [hr1]; simp only []; split_ifs <;> decide
  have h16 : (res_match w.msess_head a dp tsp dscp r).state < 16 := by
    rw [hr1]; simp only []; split_ifs <;> decide
  have hcr : (res_match w.msess_head a dp tsp dscp r).created = r.created := by rw [hr1]
  rw [res_classify_wait T clk1 _ hinc (by rw [hcr]; exact hwait)] at hk
  simp only [List.filter_cons, res_isfinal_mask _ h16, Bool.not_false, if_true,
    List.filter_nil, List.singleton_append] at hk
  obtain ⟨K', E, _, he, _, _⟩ := client_res_update_head op T a dt tst dscp_t clk2 dup2 _ _ K hk
  have hk1 : res_iskey a dt (res_match w.msess_head a dp tsp dscp r) = true := by
    rw [hr1]; exact hkt
  have hr2 := res_match_time (client_res_update op T a dp tsp dscp clk1 dup1 w).msess_head
    a dt tst dscp_t _ hk1 ht
  have hdone : (res_match (client_res_update op T a dp tsp dscp clk1 dup1 w).msess_head
      a dt tst dscp_t (res_match w.msess_head a dp tsp dscp r)).state &&& MASK_DONE
        = MASK_DONE := by
    rw [hr2, hr1]; simp only []; split_ifs <;> decide
  rw [res_classify_done T clk2 _ hdone] at he
  simp only [List.filter_cons, res_isfinal_done_code, if_true, List.filter_nil,
    List.singleton_append] at he
  refine ⟨E, ?_⟩
  rw [he, hr2, hr1]
  congr 1
  by_cases hm : dscp_mismatch w.msess_head dscp r = true
  · have hc : (MASK_PING ||| MASK_PONG ||| MASK_DSCP ||| MASK_TIME) &&& MASK_DSCP ≠ 0 := by
      decide
    simp [done_code, res_joined, rtt_nanos, res_haszero, hm, hc]
  · have hc : (MASK_PING ||| MASK_PONG ||| MASK_TIME) &&& MASK_DSCP = 0 := by decide
    simp [done_code, res_joined, rtt_nanos, res_haszero, hm, hc]

/-- The two-call scenario behind C2 and C7, time report first. -/
theorem time_then_pong (op : opmode) (T : Int) (a : addr_t) (dp dt : data_t)
    (tsp tst : Option ts_t) (dscp dscp_t : Int) (clk1 dup1 clk2 dup2 : ts_t)
    (w : World) (r : res) (rest : List res)
    (hw : w.res_head = r :: rest) (hstate : r.state = MASK_PING)
    (hkp : res_iskey a dp r = true) (hp : dp.type = TYPE_PONG)
    (hkt : res_iskey a dt r = true) (ht : dt.type = TYPE_TIME)
    (hwait : ¬ (diff_ts clk1 r.created).tv_sec > T) :
    ∃ E, new_emitted (client_res_update op T a dt tst dscp_t clk1 dup1 w)
        (client_res_update op T a dp tsp dscp clk2 dup2
          (client_res_update op T a dt tst dscp_t clk1 dup1 w)) =
      res_joined r dt tsp
        (if rtt_nanos (res_joined r dt tsp 0) < 0 ∨ res_haszero (res_joined r dt tsp 0)
          then STATE_TSERROR
         else if dscp_mismatch w.msess_head dscp r then STATE_DSERROR else STATE_OK) :: E := by
  obtain ⟨K, E1, hk, _, hms, _⟩ := client_res_update_head op T a dt tst dscp_t clk1 dup1 w r rest hw
  have hr1 := res_match_time w.msess_head a dt tst dscp_t r hkt ht
  rw [hstate] at hr1
  have hinc : (res_match w.msess_head a dt tst dscp_t r).state &&& MASK_DONE ≠ MASK_DONE := by
    rw [hr1]; simp only []; decide
  have h16 : (res_match w.msess_head a dt tst dscp_t r).state < 16 := by
    rw [hr1]; simp only []; decide
  have hcr : (res_match w.msess_head a dt tst dscp_t r).created = r.created := by rw [hr1]
  rw [res_classify_wait T clk1 _ hinc (by rw [hcr]; exact hwait)] at hk
  simp only [List.filter_cons, res_isfinal_mask _ h16, Bool.not_false, if_true,
    List.filter_nil, List.singleton_append] at hk
  obtain ⟨K', E, _, he, _, _⟩ := client_res_update_head op T a dp tsp dscp clk2 dup2 _ _ K hk
  have hk1 : res_iskey a dp (res_match w.msess_head a dt tst dscp_t r) = true := by
    rw [hr1]; exact hkp
  have hr2 := res_match_pong (client_res_update op T a dt tst dscp_t clk1 dup1 w).msess_head
    a dp tsp dscp _ hk1 hp
  have hmm : dscp_mismatch (client_res_update op T a dt tst dscp_t clk1 dup1 w).msess_head dscp
      (res_match w.msess_head a dt tst dscp_t r) = dscp_mismatch w.msess_head dscp r := by
    rw [hms, hr1]; exact dscp_mismatch_congr _ _ _ _ rfl
  rw [hmm] at hr2
  have hdone : (res_match (client_res_update op T a dt tst dscp_t clk1 dup1 w).msess_head
      a dp tsp dscp (res_match w.msess_head a dt tst dscp_t r)).state &&& MASK_DONE
        = MASK_DONE := by
    rw [hr2, hr1]; simp only []; split_ifs <;> decide
  rw [res_classify_done T clk2 _ hdone] at he
  simp only [List.filter_cons, res_isfinal_done_code, if_true, List.filter_nil,
    List.singleton_append] at he
  refine ⟨E, ?_⟩
  rw [he, hr2, hr1]
  congr 1
  by_cases hm : dscp_mismatch w.msess_head dscp r = true
  · have hc : (MASK_PING ||| MASK_TIME ||| MASK_PONG ||| MASK_DSCP) &&& MASK_DSCP ≠ 0 := by
      decide
    simp [done_code, res_joined, rtt_nanos, res_haszero, hm, hc]
  · have hc : (MASK_PING ||| MASK_TIME ||| MASK_PONG) &&& MASK_DSCP = 0 := by decide
    simp [done_code, res_joined, rtt_nanos, res_haszero, hm, hc]

/-- C7: for a probe freshly inserted (at the head of the list, mask GotPing)
and a PongReceived and a TimeReport for its key, applying the pong first and
the time report second puts out, as the first record of the second call, the
same record (same final state, same four timestamps) as applying the time
report first and the pong second, provided the first call of either order
does not time the entry out. -/
theorem C7_arrival_order_independence (op : opmode) (T : Int) (a : addr_t) (dp dt : data_t)
    (tsp tst : Option ts_t) (dscp dscp_t : Int)
    (clkA1 dupA1 clkA2 dupA2 clkB1 dupB1 clkB2 dupB2 : ts_t)
    (w : World) (r : res) (rest : List res)
    (hw : w.res_head = r :: rest) (hstate : r.state = MASK_PING)
    (hkp : res_iskey a dp r = true) (hp : dp.type = TYPE_PONG)
    (hkt : res_iskey a dt r = true) (ht : dt.type = TYPE_TIME)
    (hA : ¬ (diff_ts clkA1 r.created).tv_sec > T)
    (hB : ¬ (diff_ts clkB1 r.created).tv_sec > T) :
    ∃ e EA EB,
      new_emitted (client_res_update op T a dp tsp dscp clkA1 dupA1 w)
        (client_res_update op T a dt tst dscp_t clkA2 dupA2
          (client_res_update op T a dp tsp dscp clkA1 dupA1 w)) = e :: EA ∧
      new_emitted (client_res_update op T a dt tst dscp_t clkB1 dupB1 w)
        (client_res_update op T a dp tsp dscp clkB2 dupB2
          (client_res_update op T a dt tst dscp_t clkB1 dupB1 w)) = e :: EB ∧
      res_ident e = res_ident r ∧ e.ts1 = dt.t2 ∧ e.ts2 = dt.t3 ∧ e.ts3 = tsp.getD r.ts3 ∧
      e.state ∈ [STATE_OK, STATE_DSERROR, STATE_TSERROR] := by
  obtain ⟨EA, hEA⟩ := pong_then_time op T a dp dt tsp tst dscp dscp_t clkA1 dupA1 clkA2 dupA2
    w r rest hw hstate hkp hp hkt ht hA
  obtain ⟨EB, hEB⟩ := time_then_pong op T a dp dt tsp tst dscp dscp_t clkB1 dupB1 clkB2 dupB2
    w r rest hw hstate hkp hp hkt ht hB
  refine ⟨_, EA, EB, hEA, hEB, rfl, rfl, rfl, rfl, ?_⟩
  simp only [res_joined]
  split_ifs <;> decide

/-- C7 at a sample: ex_entry, its pong with T4 = 100.003 s and its time
report, in both orders. -/
theorem C7_arrival_order_independence_witness :
    ∃ e EA EB,
      new_emitted (client_res_update opmode.CLIENT 2 ex_addr ex_pong (some ex_pong_t4) 10
          ⟨100, 4000000⟩ ⟨100, 4000000⟩ ex_world)
        (client_res_update opmode.CLIENT 2 ex_addr ex_time none 0 ⟨100, 5000000⟩ ⟨100, 5000000⟩
          (client_res_update opmode.CLIENT 2 ex_addr ex_pong (some ex_pong_t4) 10
            ⟨100, 4000000⟩ ⟨100, 4000000⟩ ex_world)) = e :: EA ∧
      new_emitted (client_res_update opmode.CLIENT 2 ex_addr ex_time none 0
          ⟨100, 2000000⟩ ⟨100, 2000000⟩ ex_world)
        (client_res_update opmode.CLIENT 2 ex_addr ex_pong (some ex_pong_t4) 10
          ⟨100, 4000000⟩ ⟨100, 4000000⟩
          (client_res_update opmode.CLIENT 2 ex_addr ex_time none 0
            ⟨100, 2000000⟩ ⟨100, 2000000⟩ ex_world)) = e :: EB ∧
      res_ident e = res_ident ex_entry ∧ e.ts1 = ex_time.t2 ∧ e.ts2 = ex_time.t3 ∧
      e.ts3 = (some ex_pong_t4).getD ex_entry.ts3 ∧
      e.state ∈ [STATE_OK, STATE_DSERROR, STATE_TSERROR] :=
  C7_arrival_order_independence opmode.CLIENT 2 ex_addr ex_pong ex_time (some ex_pong_t4) none
    10 0 ⟨100, 4000000⟩ ⟨100, 4000000⟩ ⟨100, 5000000⟩ ⟨100, 5000000⟩
    ⟨100, 2000000⟩ ⟨100, 2000000⟩ ⟨100, 4000000⟩ ⟨100, 4000000⟩
    ex_world ex_entry [] (by decide) (by decide) (by decide) (by decide) (by decide)
    (by decide) (by decide) (by decide)

/-! ## Insertion -/

theorem client_res_update_sublist (op : opmode) (T : Int) (a : addr_t) (d : data_t)
    (ts : Option ts_t) (dscp : Int) (clk clk_dup : ts_t) (w : World) :
    List.Sublist ((client_res_update op T a d ts dscp clk clk_dup w).res_head.map res_ident)
      (w.res_head.map res_ident) := by
  obtain ⟨V, D, hV, hk, _, _, _⟩ := client_res_update_spec op T a d ts dscp clk clk_dup w
  rw [hk, ← forall₂_map_eq res_ident res_ident hV (fun _ _ h => visited_ident h)]
  exact List.Sublist.map _ (List.filter_sublist _)

/-- C8: after client_res_insert(a, d, T1) for ping data d, with the
allocation succeeding and the clock reading of the clean-up sweep less than
TIMEOUT seconds after the one taken for created, the table has at its head a
new entry with the IPv6 address of a, the id and seq of d, status mask exactly
GotPing, ts[0] = T1, ts[1..3] zero and created the clock reading at insertion,
followed by entries of the old table; with the allocation failing the globals
are unchanged; and client_res_update never adds an entry: the entries after a
call are, in order, entries of the table before it. -/
theorem C8_sent_event (op : opmode) (T : Int) (a : addr_t) (d : data_t) (T1 : ts_t)
    (clk_created clk clk_dup : ts_t) (w : World)
    (hd : d.type = TYPE_PING)
    (hclk : ts_nanos clk - ts_nanos clk_created < T * 1000000000) :
    (∃ tail, (client_res_insert op T true a d T1 clk_created clk clk_dup w).res_head =
        { created := clk_created, state := MASK_PING, addr := a.sin6_addr, id := d.id,
          seq := d.seq, ts0 := T1, ts1 := ts_zero, ts2 := ts_zero, ts3 := ts_zero } :: tail ∧
      List.Sublist (tail.map res_ident) (w.res_head.map res_ident)) ∧
    client_res_insert op T false a d T1 clk_created clk clk_dup w = w ∧
    (∀ (a' : addr_t) (d' : data_t) (ts' : Option ts_t) (dscp' : Int) (clk' dup' : ts_t)
        (w' : World),
      List.Sublist
        ((client_res_update op T a' d' ts' dscp' clk' dup' w').res_head.map res_ident)
        (w'.res_head.map res_ident)) := by
  refine ⟨?_, by simp [client_res_insert], ?_⟩
  · obtain ⟨K, E, hk, _, _, hsub⟩ := client_res_update_head op T a d (some T1) (-1) clk clk_dup
      { w with res_head := res_new a d T1 clk_created :: w.res_head }
      (res_new a d T1 clk_created) w.res_head rfl
    have hm : res_match w.msess_head a d (some T1) (-1) (res_new a d T1 clk_created) =
        res_new a d T1 clk_created := by
      unfold res_match
      have h1 : d.type ≠ TYPE_PONG := by rw [hd]; decide
      have h2 : d.type ≠ TYPE_TIME := by rw [hd]; decide
      simp [h1, h2]
    have hinc : (res_new a d T1 clk_created).state &&& MASK_DONE ≠ MASK_DONE := by
      show MASK_PING &&& MASK_DONE ≠ MASK_DONE
      decide
    have hl : ¬ (diff_ts clk (res_new a d T1 clk_created).created).tv_sec > T := by
      rw [diff_ts_sec_gt]
      show ¬ (T + 1) * 1000000000 ≤ ts_nanos clk - ts_nanos clk_created
      omega
    have hf : res_isfinal (res_new a d T1 clk_created).state = false :=
      res_isfinal_mask _ (show MASK_PING < 16 by decide)
    simp only [hm, res_classify_wait T clk _ hinc hl, List.filter_cons, hf, Bool.not_false,
      if_true, List.filter_nil, List.singleton_append] at hk
    exact ⟨K, hk, hsub⟩
  · intro a' d' ts' dscp' clk' dup' w'
    exact client_res_update_sublist op T a' d' ts' dscp' clk' dup' w'

/-- C8 at a sample: the ping ex_ping is registered in the globals of
client_init. -/
theorem C8_sent_event_witness :
    (∃ tail, (client_res_insert opmode.CLIENT 2 true ex_addr ex_ping ⟨100, 0⟩ ⟨100, 5⟩ ⟨100, 9⟩
          ⟨100, 9⟩ client_init).res_head =
        { created := ⟨100, 5⟩, state := MASK_PING, addr := ex_addr.sin6_addr, id := ex_ping.id,
          seq := ex_ping.seq, ts0 := ⟨100, 0⟩, ts1 := ts_zero, ts2 := ts_zero,
          ts3 := ts_zero } :: tail ∧
      List.Sublist (tail.map res_ident) (client_init.res_head.map res_ident)) ∧
    client_res_insert opmode.CLIENT 2 false ex_addr ex_ping ⟨100, 0⟩ ⟨100, 5⟩ ⟨100, 9⟩ ⟨100, 9⟩
      client_init = client_init ∧
    (∀ (a' : addr_t) (d' : data_t) (ts' : Option ts_t) (dscp' : Int) (clk' dup' : ts_t)
        (w' : World),
      List.Sublist
        ((client_res_update opmode.CLIENT 2 a' d' ts' dscp' clk' dup' w').res_head.map res_ident)
        (w'.res_head.map res_ident)) :=
  C8_sent_event opmode.CLIENT 2 ex_addr ex_ping ⟨100, 0⟩ ⟨100, 5⟩ ⟨100, 9⟩ ⟨100, 9⟩ client_init
    (by decide) (by decide)

/-! ## The variable now is overwritten -/

/-- C9, the code at the failing input: in client mode with a timeout of 2 s
and the system clock reading 10 s, the call that applies the time report of
ping 2 completes that entry as Ok and then puts out the entry of ping 1,
registered at 10 s, with state Timeout, although no time has passed since it
was registered: it is compared with T3 - T2 = 100 s, which line 375 left in
now. -/
theorem C9_timeout_soundness_failing :
    new_emitted ex_overwrite_world
        (client_res_update opmode.CLIENT 2 ex_addr ⟨TYPE_TIME, 2, 7, ⟨1, 0⟩, ⟨101, 0⟩⟩ none 0
          ⟨10, 0⟩ ⟨10, 0⟩ ex_overwrite_world)
      = [ { created := ⟨10, 0⟩, state := STATE_OK, addr := 42, id := 7, seq := 2,
            ts0 := ⟨1, 0⟩, ts1 := ⟨1, 0⟩, ts2 := ⟨101, 0⟩, ts3 := ⟨200, 0⟩ },
          { created := ⟨10, 0⟩, state := STATE_TIMEOUT, addr := 42, id := 7, seq := 1,
            ts0 := ⟨5, 0⟩, ts1 := ts_zero, ts2 := ts_zero, ts3 := ts_zero } ] ∧
    ts_nanos ⟨10, 0⟩ - ts_nanos ⟨10, 0⟩ < 2 * 1000000000 ∧
    now_after opmode.CLIENT 2 ex_addr ⟨TYPE_TIME, 2, 7, ⟨1, 0⟩, ⟨101, 0⟩⟩ none 0 ⟨10, 0⟩
        ex_overwrite_world (ex_overwrite_world.res_head.take 1) = ⟨100, 0⟩ := by
  decide

/-! ## Failing sends -/

/-- A call of client_msess_transmit over a single session that is connected
and due, during which send_w_ts fails: last_seq moves on, the ping is recorded
as handed over, nothing else changes. -/
theorem transmit_down (op : opmode) (T : Int) (now : timeval) (env : Nat → TxEnv) (s : msess)
    (w : World) (hw : w.msess_head = [s]) (hr : s.got_hello = 1)
    (hdue : cmp_tv (timersub now s.last_sent) s.interval = 1) (hsend : (env 0).send = none) :
    client_msess_transmit op T now env w =
      { w with msess_head := [{ s with last_seq := (s.last_seq + 1) % 2 ^ 32 }],
               sent := w.sent ++
                 [(0, s.dst, tx_ping { s with last_seq := (s.last_seq + 1) % 2 ^ 32 })] } := by
  unfold client_msess_transmit
  rw [hw]
  unfold msess_transmit_loop msess_transmit_loop msess_transmit_one
  simp [hr, hdue, hsend]

/-- The globals after n such calls in a row. -/
theorem run_down (op : opmode) (T : Int) (now : timeval) (env : Nat → TxEnv) (s : msess)
    (w : World) (hw : w.msess_head = [s]) (hr : s.got_hello = 1)
    (hdue : cmp_tv (timersub now s.last_sent) s.interval = 1) (hsend : (env 0).send = none)
    (hlt : s.last_seq < 2 ^ 32) (n : Nat) :
    run op T (List.replicate n (Call.transmit now env)) w =
      { w with msess_head := [{ s with last_seq := (s.last_seq + n) % 2 ^ 32 }],
               sent := w.sent ++ (List.range n).map (fun k =>
                 (0, s.dst, tx_ping { s with last_seq := (s.last_seq + (k + 1)) % 2 ^ 32 })) } := by
  induction n with
  | zero =>
    have : (s.last_seq + 0) % 2 ^ 32 = s.last_seq := Nat.mod_eq_of_lt hlt
    simp only [List.replicate_zero, run, List.foldl_nil, List.range_zero, List.map_nil,
      List.append_nil, this]
    rw [← hw]
  | succ n ih =>
    rw [List.replicate_succ']
    unfold run at ih ⊢
    rw [List.foldl_append, ih]
    simp only [List.foldl_cons, List.foldl_nil, Call.step]
    rw [transmit_down op T now env { s with last_seq := (s.last_seq + n) % 2 ^ 32 } _ rfl hr hdue
      hsend]
    have hm : ((s.last_seq + n) % 2 ^ 32 + 1) % 2 ^ 32 = (s.last_seq + (n + 1)) % 2 ^ 32 := by
      rw [Nat.add_mod, Nat.mod_mod, ← Nat.add_mod, Nat.add_assoc]
    simp only [hm, List.range_succ, List.map_append, List.map_cons, List.map_nil,
      List.append_assoc]

/-! ## Key uniqueness -/

theorem res_ident_key {r x : res} (h : res_ident x = res_ident r) : res_key x = res_key r := by
  simp only [res_ident, Prod.mk.injEq] at h
  simp [res_key, h.1, h.2.1, h.2.2.1]

theorem map_res_key (l : List res) :
    l.map res_key = (l.map res_ident).map (fun i => (i.1, i.2.1, i.2.2.1)) := by
  rw [List.map_map]
  rfl

theorem sublist_mem_ident {l l' : List res}
    (h : List.Sublist (l'.map res_ident) (l.map res_ident)) :
    ∀ x ∈ l', ∃ r ∈ l, res_ident x = res_ident r := by
  intro x hx
  have := h.subset (List.mem_map.2 ⟨x, hx, rfl⟩)
  obtain ⟨r, hr, he⟩ := List.mem_map.1 this
  exact ⟨r, hr, he.symm⟩

/-- The invariant survives when the table shrinks. -/
theorem hello_inv_sublist {L : List msess} {tbl tbl' : List res} (h : hello_inv L tbl)
    (hsub : List.Sublist (tbl'.map res_ident) (tbl.map res_ident)) : hello_inv L tbl' := by
  obtain ⟨h1, h2, h3⟩ := h
  refine ⟨h1, ?_, ?_⟩
  · rw [map_res_key] at h2 ⊢
    exact List.Nodup.sublist (List.Sublist.map _ hsub) h2
  · intro x hx
    obtain ⟨r, hr, he⟩ := sublist_mem_ident hsub x hx
    have hk := res_ident_key he
    simp only [res_key, Prod.mk.injEq] at hk
    obtain ⟨s, hs, hready, haddr, hid, hle⟩ := h3 r hr
    exact ⟨s, hs, hready, by rw [haddr, hk.1], by rw [hid, hk.2.1], by rw [hk.2.2]; exact hle⟩

/-- The invariant survives when a session moves on without changing its
address, its id or its connection state. -/
theorem hello_inv_replace {done rest : List msess} {s s2 : msess} {tbl : List res}
    (h : hello_inv (done ++ s :: rest) tbl) (hg : s2.got_hello = s.got_hello)
    (hd : s2.dst = s.dst) (hi : s2.id = s.id) (hseq : s.last_seq ≤ s2.last_seq) :
    hello_inv (done ++ s2 :: rest) tbl := by
  obtain ⟨h1, h2, h3⟩ := h
  refine ⟨?_, h2, ?_⟩
  · simp only [List.pairwise_append, List.pairwise_cons, List.mem_cons, forall_eq_or_imp, hg,
      hd] at h1 ⊢
    exact h1
  · intro r hr
    obtain ⟨u, hu, hready, haddr, hid, hle⟩ := h3 r hr
    rcases List.mem_append.1 hu with hu | hu
    · exact ⟨u, List.mem_append_left _ hu, hready, haddr, hid, hle⟩
    · rcases List.mem_cons.1 hu with rfl | hu
      · exact ⟨s2, List.mem_append_right _ (List.mem_cons_self _ _), by rw [hg]; exact hready,
          by rw [hd]; exact haddr, by rw [hi]; exact hid, by omega⟩
      · exact ⟨u, List.mem_append_right _ (List.mem_cons_of_mem _ hu), hready, haddr, hid, hle⟩

/-- A connected session is the only connected session with its address. -/
theorem hello_inv_owner {done rest : List msess} {s : msess} {tbl : List res}
    (h : hello_inv (done ++ s :: rest) tbl) (hr : s.got_hello = 1) :
    ∀ u ∈ done ++ s :: rest, u.got_hello = 1 → u.dst.sin6_addr = s.dst.sin6_addr → u = s := by
  obtain ⟨h1, _, _⟩ := h
  simp only [List.pairwise_append, List.pairwise_cons, List.mem_cons, forall_eq_or_imp] at h1
  obtain ⟨_, ⟨hrest, _⟩, hdone⟩ := h1
  intro u hu hready haddr
  rcases List.mem_append.1 hu with hu | hu
  · exact absurd haddr.symm ((hdone u hu).1 hr)
  · rcases List.mem_cons.1 hu with rfl | hu
    · rfl
    · exact absurd haddr (hrest u hu hready)

/-- The invariant survives the registration of a ping of a connected session
with a sequence number that is new for it. -/
theorem hello_inv_insert (op : opmode) (T : Int) (alloc : Bool) (ts c1 c2 c3 : ts_t)
    {L : List msess} (w : World) (s1 : msess) (h : hello_inv L w.res_head) (hs : s1 ∈ L)
    (hr : s1.got_hello = 1)
    (hnew : ∀ r ∈ w.res_head, s1.id = r.id → s1.dst.sin6_addr = r.addr → r.seq < s1.last_seq) :
    hello_inv L (client_res_insert op T alloc s1.dst (tx_ping s1) ts c1 c2 c3 w).res_head := by
  unfold client_res_insert
  cases alloc with
  | false => simpa using h
  | true =>
    simp only [if_true]
    refine hello_inv_sublist ?_ (client_res_update_sublist op T _ _ _ _ _ _ _)
    obtain ⟨h1, h2, h3⟩ := h
    refine ⟨h1, ?_, ?_⟩
    · simp only [List.map_cons, List.nodup_cons]
      refine ⟨?_, h2⟩
      intro hmem
      obtain ⟨r, hr0, hk⟩ := List.mem_map.1 hmem
      simp only [res_key, res_new, tx_ping, Prod.mk.injEq] at hk
      have := hnew r hr0 hk.2.1.symm hk.1.symm
      omega
    · intro r hr0
      rcases List.mem_cons.1 hr0 with rfl | hr0
      · exact ⟨s1, hs, hr, rfl, rfl, le_refl _⟩
      · exact h3 r hr0

theorem msess_transmit_one_idle (op : opmode) (T : Int) (now : timeval) (e : TxEnv)
    (done rest : List msess) (s : msess) (w : World) (h : s.got_hello ≠ 1) :
    msess_transmit_one op T now e done rest s w = (s, w) := by
  unfold msess_transmit_one
  rw [if_pos h]

/-- One turn of the loop of client_msess_transmit keeps the invariant, as
long as the sequence number does not wrap. -/
theorem msess_transmit_one_inv (op : opmode) (T : Int) (now : timeval) (e : TxEnv)
    (done rest : List msess) (s : msess) (w : World) (n : Nat)
    (h : hello_inv (done ++ s :: rest) w.res_head) (hn : s.last_seq + (n + 1) < 2 ^ 32) :
    hello_inv (done ++ (msess_transmit_one op T now e done rest s w).1 :: rest)
      (msess_transmit_one op T now e done rest s w).2.res_head ∧
    (msess_transmit_one op T now e done rest s w).1.last_seq + n < 2 ^ 32 := by
  have hmod : (s.last_seq + 1) % 2 ^ 32 = s.last_seq + 1 := Nat.mod_eq_of_lt (by omega)
  by_cases hr : s.got_hello ≠ 1
  · rw [msess_transmit_one_idle op T now e done rest s w hr]
    exact ⟨h, by simp only []; omega⟩
  have hr1 : s.got_hello = 1 := not_not.1 hr
  rcases msess_transmit_one_cases op T now e done rest s w with h1 | h1 | ⟨t, h1⟩
  · rw [h1]; exact ⟨h, by simp only []; omega⟩
  · rw [h1]
    simp only [hmod]
    exact ⟨hello_inv_replace h rfl rfl rfl (by simp), by omega⟩
  · rw [h1]
    simp only [hmod]
    refine ⟨?_, by omega⟩
    have hA : hello_inv (done ++ { s with last_seq := s.last_seq + 1 } :: rest) w.res_head :=
      hello_inv_replace h rfl rfl rfl (by simp)
    have hown := hello_inv_owner h hr1
    have hnew : ∀ r ∈ w.res_head, s.id = r.id → s.dst.sin6_addr = r.addr →
        r.seq < s.last_seq + 1 := by
      intro r hr0 _ haddr
      obtain ⟨u, hu, hready, hua, _, hle⟩ := h.2.2 r hr0
      have := hown u hu hready (by rw [hua, haddr])
      rw [this] at hle
      omega
    have hB := hello_inv_insert op T e.alloc t e.clk_created e.clk e.clk_dup
      { w with
        sent := w.sent ++
          [(done.length, s.dst, tx_ping { s with last_seq := s.last_seq + 1 })],
        msess_head := done ++ { s with last_seq := s.last_seq + 1 } :: rest }
      { s with last_seq := s.last_seq + 1 } hA
      (List.mem_append_right _ (List.mem_cons_self _ _)) hr1 hnew
    exact hello_inv_replace hB rfl rfl rfl (le_refl _)

theorem msess_transmit_loop_inv (op : opmode) (T : Int) (now : timeval) (env : Nat → TxEnv)
    (n : Nat) (todo done : List msess) (w : World)
    (h : hello_inv (done ++ todo) w.res_head)
    (hd : ∀ s ∈ done, s.last_seq + n < 2 ^ 32)
    (ht : ∀ s ∈ todo, s.last_seq + (n + 1) < 2 ^ 32) :
    hello_inv (msess_transmit_loop op T now env done todo w).msess_head
      (msess_transmit_loop op T now env done todo w).res_head ∧
    ∀ s ∈ (msess_transmit_loop op T now env done todo w).msess_head,
      s.last_seq + n < 2 ^ 32 := by
  induction todo generalizing done w with
  | nil =>
    simp only [msess_transmit_loop]
    exact ⟨by simpa using h, hd⟩
  | cons s rest ih =>
    unfold msess_transmit_loop
    obtain ⟨h1, h2⟩ := msess_transmit_one_inv op T now (env done.length) done rest s w n h
      (ht s (List.mem_cons_self _ _))
    apply ih
    · simpa using h1
    · intro t htm
      rcases List.mem_append.1 htm with htm | htm
      · exact hd t htm
      · rw [List.mem_singleton.1 htm]; exact h2
    · intro t htm
      exact ht t (List.mem_cons_of_mem _ htm)

/-- What client_msess_gothello leaves in the list: the sessions as they were,
but for one session with the address of the hello, now connected. -/
theorem msess_gothello_loop_mem (addr : addr_t) (L : List msess) :
    ∀ t ∈ (msess_gothello_loop addr L).2, t ∈ L ∨
      ∃ u ∈ L, t = { u with got_hello := 1 } ∧ addr.sin6_addr = u.dst.sin6_addr := by
  induction L with
  | nil => intro t ht; simp [msess_gothello_loop] at ht
  | cons s rest ih =>
    intro t ht
    unfold msess_gothello_loop at ht
    by_cases ha : addr.sin6_addr = s.dst.sin6_addr
    · rw [if_pos ha] at ht
      rcases List.mem_cons.1 ht with rfl | ht
      · exact Or.inr ⟨s, List.mem_cons_self _ _, rfl, ha⟩
      · exact Or.inl (List.mem_cons_of_mem _ ht)
    · rw [if_neg ha] at ht
      rcases List.mem_cons.1 ht with rfl | ht
      · exact Or.inl (List.mem_cons_self _ _)
      · rcases ih t ht with h | ⟨u, hu, h1, h2⟩
        · exact Or.inl (List.mem_cons_of_mem _ h)
        · exact Or.inr ⟨u, List.mem_cons_of_mem _ hu, h1, h2⟩

/-- A session that is connected stays in the list as it is. -/
theorem msess_gothello_loop_keep (addr : addr_t) (L : List msess) :
    ∀ u ∈ L, u.got_hello = 1 → u ∈ (msess_gothello_loop addr L).2 := by
  induction L with
  | nil => intro u hu; cases hu
  | cons s rest ih =>
    intro u hu hready
    unfold msess_gothello_loop
    by_cases ha : addr.sin6_addr = s.dst.sin6_addr
    · rw [if_pos ha]
      rcases List.mem_cons.1 hu with rfl | hu
      · have : ({ u with got_hello := 1 } : msess) = u := by
          cases u; simp only [msess.mk.injEq] at *; simp [hready]
        rw [this]
        exact List.mem_cons_self _ _
      · exact List.mem_cons_of_mem _ hu
    · rw [if_neg ha]
      rcases List.mem_cons.1 hu with rfl | hu
      · exact List.mem_cons_self _ _
      · exact List.mem_cons_of_mem _ (ih u hu hready)

/-- The session client_msess_gothello connects has no session with its
address before it. -/
theorem msess_gothello_loop_pairwise (addr : addr_t) (L : List msess)
    (h : L.Pairwise (fun s t => t.got_hello = 1 → t.dst.sin6_addr ≠ s.dst.sin6_addr)) :
    (msess_gothello_loop addr L).2.Pairwise
      (fun s t => t.got_hello = 1 → t.dst.sin6_addr ≠ s.dst.sin6_addr) := by
  induction L with
  | nil => simp [msess_gothello_loop]
  | cons s rest ih =>
    obtain ⟨hs, hrest⟩ := List.pairwise_cons.1 h
    unfold msess_gothello_loop
    by_cases ha : addr.sin6_addr = s.dst.sin6_addr
    · rw [if_pos ha]
      exact List.pairwise_cons.2 ⟨fun t ht => hs t ht, hrest⟩
    · rw [if_neg ha]
      refine List.pairwise_cons.2 ⟨?_, ih hrest⟩
      intro t ht hready
      rcases msess_gothello_loop_mem addr rest t ht with h1 | ⟨u, _, h1, h2⟩
      · exact hs t h1 hready
      · rw [h1]
        intro hc
        exact ha (h2.trans hc)

theorem client_msess_gothello_inv (addr : addr_t) (w : World)
    (h : hello_inv w.msess_head w.res_head) :
    hello_inv (client_msess_gothello addr w).2.msess_head
      (client_msess_gothello addr w).2.res_head := by
  obtain ⟨h1, h2, h3⟩ := h
  refine ⟨msess_gothello_loop_pairwise addr _ h1, h2, ?_⟩
  intro r hr
  obtain ⟨u, hu, hready, hrest⟩ := h3 r hr
  exact ⟨u, msess_gothello_loop_keep addr _ u hu hready, hready, hrest⟩

theorem run_events_inv (op : opmode) (T : Int) (es : List Event) (w : World)
    (hes : ∀ e ∈ es, e.is_insert = false)
    (h : hello_inv w.msess_head w.res_head)
    (hseq : ∀ s ∈ w.msess_head, s.last_seq + es.countP Event.is_transmit < 2 ^ 32) :
    hello_inv (run_events op T es w).msess_head (run_events op T es w).res_head := by
  induction es generalizing w with
  | nil => exact h
  | cons e rest ih =>
    unfold run_events
    rw [List.foldl_cons]
    have hrest : ∀ e ∈ rest, e.is_insert = false := fun e he => hes e (List.mem_cons_of_mem _ he)
    cases e with
    | hello addr =>
      apply ih _ hrest (client_msess_gothello_inv addr w h)
      intro t ht
      rw [List.countP_cons_of_neg _ _ (by simp [Event.is_transmit])] at hseq
      rcases msess_gothello_loop_mem addr w.msess_head t ht with h1 | ⟨u, hu, h1, _⟩
      · exact hseq t h1
      · rw [h1]; exact hseq u hu
    | call c =>
      cases c with
      | update a d ts dscp clk clk_dup =>
        obtain ⟨_, _, _, _, _, hms, _⟩ := client_res_update_spec op T a d ts dscp clk clk_dup w
        apply ih _ hrest
        · show hello_inv (client_res_update op T a d ts dscp clk clk_dup w).msess_head
            (client_res_update op T a d ts dscp clk clk_dup w).res_head
          rw [hms]
          exact hello_inv_sublist h (client_res_update_sublist op T a d ts dscp clk clk_dup w)
        · show ∀ s ∈ (client_res_update op T a d ts dscp clk clk_dup w).msess_head, _
          rw [hms]
          intro s hs
          have := hseq s hs
          rw [List.countP_cons_of_neg _ _ (by simp [Event.is_transmit, Call.is_transmit])] at this
          exact this
      | insert alloc a d ts c1 c2 c3 =>
        have := hes _ (List.mem_cons_self _ _)
        simp [Event.is_insert, Call.is_insert] at this
      | transmit now env =>
        have hs2 : ∀ s ∈ w.msess_head,
            s.last_seq + (rest.countP Event.is_transmit + 1) < 2 ^ 32 := by
          intro s hs
          have := hseq s hs
          rw [List.countP_cons_of_pos _ _ (by simp [Event.is_transmit, Call.is_transmit])] at this
          exact this
        obtain ⟨h1, h2⟩ := msess_transmit_loop_inv op T now env (rest.countP Event.is_transmit)
          w.msess_head [] w (by simpa using h) (by simp) hs2
        exact ih _ hrest h1 h2

theorem hello_inv_init (L : List msess) (h : ∀ s ∈ L, s.got_hello ≠ 1) : hello_inv L [] := by
  refine ⟨?_, List.nodup_nil, fun _ hr => absurd hr (List.not_mem_nil _)⟩
  induction L with
  | nil => exact List.Pairwise.nil
  | cons s rest ih =>
    exact List.pairwise_cons.2 ⟨fun t ht hready => absurd hready (h t (List.mem_cons_of_mem _ ht)),
      ih (fun t ht => h t (List.mem_cons_of_mem _ ht))⟩

theorem run_events_calls (op : opmode) (T : Int) (cs : List Call) (w : World) :
    run_events op T (cs.map Event.call) w = run op T cs w := by
  unfold run_events run
  rw [List.foldl_map]
  rfl

theorem run_events_append (op : opmode) (T : Int) (e1 e2 : List Event) (w : World) :
    run_events op T (e1 ++ e2) w = run_events op T e2 (run_events op T e1 w) := by
  unfold run_events
  rw [List.foldl_append]

theorem msess_transmit_one_fst (op : opmode) (T : Int) (now : timeval) (e : TxEnv)
    (done rest : List msess) (s : msess) (w : World) :
    (msess_transmit_one op T now e done rest s w).1 = msess_step now e.send s := by
  unfold msess_transmit_one msess_step msess_due
  by_cases h1 : s.got_hello ≠ 1
  · have h1' : ¬ s.got_hello = 1 := h1
    simp [h1']
  · have h1' : s.got_hello = 1 := not_not.1 h1
    by_cases h2 : cmp_tv (timersub now s.last_sent) s.interval = 1
    · cases hs : e.send <;> simp [h1', h2]
    · simp [h1', h2]

theorem msess_transmit_loop_prefix (op : opmode) (T : Int) (now : timeval) (env : Nat → TxEnv)
    (todo done : List msess) (w : World) :
    ∃ X, (msess_transmit_loop op T now env done todo w).msess_head = done ++ X ∧
      X.length = todo.length := by
  induction todo generalizing done w with
  | nil => exact ⟨[], by simp [msess_transmit_loop]⟩
  | cons s rest ih =>
    unfold msess_transmit_loop
    obtain ⟨X, hX, hl⟩ := ih
      (done ++ [(msess_transmit_one op T now (env done.length) done rest s w).1])
      (msess_transmit_one op T now (env done.length) done rest s w).2
    exact ⟨(msess_transmit_one op T now (env done.length) done rest s w).1 :: X,
      by rw [hX]; simp, by simp [hl]⟩

/-- The session at a given place of the list after the loop of
client_msess_transmit is the session before it, moved on by msess_step. -/
theorem msess_transmit_loop_at (op : opmode) (T : Int) (now : timeval) (env : Nat → TxEnv)
    (pre post : List msess) (s : msess) (done : List msess) (w : World) :
    ∃ P Q, (msess_transmit_loop op T now env done (pre ++ s :: post) w).msess_head =
        done ++ P ++ msess_step now (env (done.length + pre.length)).send s :: Q ∧
      P.length = pre.length := by
  induction pre generalizing done w with
  | nil =>
    simp only [List.nil_append, List.length_nil, Nat.add_zero]
    unfold msess_transmit_loop
    obtain ⟨X, hX, _⟩ := msess_transmit_loop_prefix op T now env post
      (done ++ [(msess_transmit_one op T now (env done.length) done post s w).1])
      (msess_transmit_one op T now (env done.length) done post s w).2
    refine ⟨[], X, ?_, rfl⟩
    rw [hX, msess_transmit_one_fst]
    simp
  | cons t pre ih =>
    simp only [List.cons_append]
    unfold msess_transmit_loop
    obtain ⟨P, Q, hPQ, hl⟩ := ih
      (done ++ [(msess_transmit_one op T now (env done.length) done (pre ++ s :: post) t w).1])
      (msess_transmit_one op T now (env done.length) done (pre ++ s :: post) t w).2
    refine ⟨(msess_transmit_one op T now (env done.length) done (pre ++ s :: post) t w).1 :: P,
      Q, ?_, by simp [hl]⟩
    rw [hPQ]
    simp [Nat.add_assoc, Nat.add_comm 1]

theorem timersub_usecs (a b : timeval) (ha : tv_normal a) (hb : tv_normal b) :
    tv_usecs (timersub a b) = tv_usecs a - tv_usecs b ∧ tv_normal (timersub a b) := by
  obtain ⟨ha1, ha2⟩ := ha
  obtain ⟨hb1, hb2⟩ := hb
  unfold timersub tv_usecs tv_normal
  split_ifs with h <;> simp only [] <;> constructor <;> omega

theorem cmp_tv_gt (x y : timeval) (hx : tv_normal x) (hy : tv_normal y) :
    cmp_tv x y = 1 ↔ tv_usecs y < tv_usecs x := by
  obtain ⟨hx1, hx2⟩ := hx
  obtain ⟨hy1, hy2⟩ := hy
  unfold cmp_tv tv_usecs
  split_ifs <;> constructor <;> intro h <;> first | omega | simp at h

theorem msess_due_iff (now : timeval) (s : msess) (hnow : tv_normal now)
    (hlast : tv_normal s.last_sent) (hint : tv_normal s.interval) :
    msess_due now s = true ↔
      s.got_hello = 1 ∧ tv_usecs s.interval < tv_usecs now - tv_usecs s.last_sent := by
  obtain ⟨h1, h2⟩ := timersub_usecs now s.last_sent hnow hlast
  unfold msess_due
  rw [Bool.and_eq_true, decide_eq_true_eq, decide_eq_true_eq, cmp_tv_gt _ _ h2 hint, h1]

/-- C12, the code at the failing input: two sessions (ids 7 and 8) point at
the same peer and neither is connected; client_msess_gothello for that peer
returns 0 and sets got_hello on the first session only, the second keeps
got_hello = 0 although its address is the one of the hello. -/
theorem C12_hello_unblocks_failing :
    (client_msess_gothello ex_addr ex_hello_world).1 = 0 ∧
    (client_msess_gothello ex_addr ex_hello_world).2.msess_head.map
        (fun s => (s.id, s.dst.sin6_addr, s.got_hello))
      = [(7, 42, 1), (8, 42, 0)] ∧
    ex_hello_world.msess_head.map (fun s => (s.id, s.dst.sin6_addr, s.got_hello))
      = [(7, 42, 0), (8, 42, 0)] ∧
    ex_addr.sin6_addr = 42 := by
  decide

/-! ## Sequence numbers -/

theorem res_stats_sent (w : World) (now : ts_t) (r : res) :
    (res_stats w now r).1.sent = w.sent := by
  unfold res_stats
  split_ifs <;> simp

theorem res_output_sent (op : opmode) (w : World) (now : ts_t) (r : res) :
    (res_output op w now r).1.sent = w.sent := by
  unfold res_output
  by_cases h1 : op = opmode.DAEMON <;> by_cases h2 : op = opmode.CLIENT <;>
    simp [h1, h2, res_stats_sent]

theorem res_visit_sent (op : opmode) (T : Int) (a : addr_t) (d : data_t) (ts : Option ts_t)
    (dscp : Int) (st : Sweep) (r : res) :
    (res_visit op T a d ts dscp st r).w.sent = st.w.sent := by
  unfold res_visit
  by_cases h : res_isfinal (res_classify T st.now (res_match st.w.msess_head a d ts dscp r)).1.state = true
  · simp [h, res_output_sent]
  · simp [h]

theorem res_fold_sent (op : opmode) (T : Int) (a : addr_t) (d : data_t) (ts : Option ts_t)
    (dscp : Int) (l : List res) (st : Sweep) :
    (l.foldl (res_visit op T a d ts dscp) st).w.sent = st.w.sent := by
  induction l generalizing st with
  | nil => rfl
  | cons r rest ih => rw [List.foldl_cons, ih, res_visit_sent]

/-- No call of client_res_update hands anything to send_w_ts. -/
theorem client_res_update_sent (op : opmode) (T : Int) (a : addr_t) (d : data_t)
    (ts : Option ts_t) (dscp : Int) (clk clk_dup : ts_t) (w : World) :
    (client_res_update op T a d ts dscp clk clk_dup w).sent = w.sent := by
  have h : (res_sweep op T a d ts dscp clk w).w.sent = w.sent := by
    unfold res_sweep res_sweep_list
    rw [res_fold_sent]
  unfold client_res_update
  simp only []
  split_ifs
  · unfold res_dup_block
    simp only []
    split_ifs <;> exact h
  · exact h

theorem client_res_insert_sent (op : opmode) (T : Int) (alloc : Bool) (a : addr_t) (d : data_t)
    (ts : ts_t) (c1 c2 c3 : ts_t) (w : World) :
    (client_res_insert op T alloc a d ts c1 c2 c3 w).sent = w.sent := by
  unfold client_res_insert
  cases alloc with
  | false => simp
  | true =>
    simp only [if_true]
    rw [client_res_update_sent]

theorem client_res_insert_msess (op : opmode) (T : Int) (alloc : Bool) (a : addr_t) (d : data_t)
    (ts : ts_t) (c1 c2 c3 : ts_t) (w : World) :
    (client_res_insert op T alloc a d ts c1 c2 c3 w).msess_head = w.msess_head := by
  unfold client_res_insert
  cases alloc with
  | false => simp
  | true =>
    simp only [if_true]
    obtain ⟨_, _, _, _, _, hms, _⟩ := client_res_update_spec op T a d (some ts) (-1) c2 c3
      { w with res_head := res_new a d ts c1 :: w.res_head }
    rw [hms]

/-- One turn of the loop of client_msess_transmit hands the ping of the
session to send_w_ts exactly when the session is due. -/
theorem msess_transmit_one_sent (op : opmode) (T : Int) (now : timeval) (e : TxEnv)
    (done rest : List msess) (s : msess) (w : World) :
    (msess_transmit_one op T now e done rest s w).2.sent =
      w.sent ++ (if msess_due now s then
        [(done.length, s.dst, tx_ping { s with last_seq := (s.last_seq + 1) % 2 ^ 32 })]
        else []) := by
  unfold msess_transmit_one msess_due
  by_cases h1 : s.got_hello ≠ 1
  · have h1' : ¬ s.got_hello = 1 := h1
    simp [h1']
  · have h1' : s.got_hello = 1 := not_not.1 h1
    by_cases h2 : cmp_tv (timersub now s.last_sent) s.interval = 1
    · cases hs : e.send with
      | none => simp [h1', h2]
      | some t => simp [h1', h2, client_res_insert_sent]
    · simp [h1', h2]

theorem msess_transmit_loop_sent (op : opmode) (T : Int) (now : timeval) (env : Nat → TxEnv)
    (todo done : List msess) (w : World) :
    (msess_transmit_loop op T now env done todo w).sent =
      w.sent ++ msess_pings now done.length todo := by
  induction todo generalizing done w with
  | nil => simp [msess_transmit_loop, msess_pings]
  | cons s rest ih =>
    unfold msess_transmit_loop
    rw [ih, msess_transmit_one_sent]
    simp [msess_pings, List.append_assoc]

theorem msess_pings_pos (now : timeval) (l : List msess) (k : Nat) :
    ∀ p ∈ msess_pings now k l, k ≤ p.1 ∧ p.1 < k + l.length := by
  induction l generalizing k with
  | nil => intro p hp; simp [msess_pings] at hp
  | cons s rest ih =>
    intro p hp
    simp only [msess_pings, List.mem_append] at hp
    rcases hp with hp | hp
    · split_ifs at hp
      · rw [List.mem_singleton.1 hp]
        simp
      · cases hp
    · have := ih (k + 1) p hp
      simp only [List.length_cons]
      omega

/-- Of what one call of client_msess_transmit hands to send_w_ts, the part of
one session is its ping if the session is due, and nothing otherwise. -/
theorem msess_pings_at (now : timeval) (pre post : List msess) (s : msess) (k : Nat) :
    (msess_pings now k (pre ++ s :: post)).filter (fun p => decide (p.1 = k + pre.length)) =
      if msess_due now s then
        [(k + pre.length, s.dst, tx_ping { s with last_seq := (s.last_seq + 1) % 2 ^ 32 })]
      else [] := by
  induction pre generalizing k with
  | nil =>
    have hpost : (msess_pings now (k + 1) post).filter (fun p => decide (p.1 = k)) = [] := by
      rw [List.filter_eq_nil_iff]
      intro p hp
      have := msess_pings_pos now post (k + 1) p hp
      simp only [decide_eq_true_eq]
      omega
    simp only [List.nil_append, List.length_nil, Nat.add_zero, msess_pings, List.filter_append,
      hpost, List.append_nil]
    split_ifs <;> simp
  | cons t pre ih =>
    have ht : (if msess_due now t then
        [(k, t.dst, tx_ping { t with last_seq := (t.last_seq + 1) % 2 ^ 32 })]
        else []).filter (fun p => decide (p.1 = k + (pre.length + 1))) = [] := by
      split_ifs <;> simp
    simp only [List.cons_append, List.length_cons, msess_pings, List.filter_append, ht,
      List.nil_append]
    have := ih (k + 1)
    rw [show k + 1 + pre.length = k + (pre.length + 1) by omega] at this
    exact this

theorem getElem?_at_length {α : Type} (P Q : List α) (x : α) (n : Nat) (h : P.length = n) :
    (P ++ x :: Q)[n]? = some x := by
  subst h
  rw [List.getElem?_append_right (Nat.le_refl _)]
  simp

/-- What one call does to the session at a given position of the list and
what it hands to send_w_ts for it: nothing, or (a call of
client_msess_transmit only) last_seq is incremented modulo 2^32 and the one
ping handed over carries the new last_seq and the id of the session. -/
theorem step_session (op : opmode) (T : Int) (c : Call) (w : World) (pre post : List msess)
    (s : msess) (hw : w.msess_head = pre ++ s :: post) :
    ∃ P Q s2 X, (c.step op T w).msess_head = P ++ s2 :: Q ∧ P.length = pre.length ∧
      (c.step op T w).sent = w.sent ++ X ∧ s2.id = s.id ∧
      ((s2.last_seq = s.last_seq ∧
          (X.filter (fun p => decide (p.1 = pre.length))).map (fun p => p.2.2) = []) ∨
        (c.is_transmit = true ∧ s2.last_seq = (s.last_seq + 1) % 2 ^ 32 ∧
          (X.filter (fun p => decide (p.1 = pre.length))).map (fun p => p.2.2) =
            [{ type := TYPE_PING, seq := s2.last_seq, id := s.id,
               t2 := ts_zero, t3 := ts_zero }])) := by
  cases c with
  | update a d ts dscp clk clk_dup =>
    obtain ⟨_, _, _, _, _, hms, _⟩ := client_res_update_spec op T a d ts dscp clk clk_dup w
    refine ⟨pre, post, s, [], ?_, rfl, ?_, rfl, Or.inl ⟨rfl, rfl⟩⟩
    · show (client_res_update op T a d ts dscp clk clk_dup w).msess_head = _
      rw [hms, hw]
    · show (client_res_update op T a d ts dscp clk clk_dup w).sent = _
      rw [client_res_update_sent]; simp
  | insert alloc a d ts c1 c2 c3 =>
    refine ⟨pre, post, s, [], ?_, rfl, ?_, rfl, Or.inl ⟨rfl, rfl⟩⟩
    · show (client_res_insert op T alloc a d ts c1 c2 c3 w).msess_head = _
      rw [client_res_insert_msess, hw]
    · show (client_res_insert op T alloc a d ts c1 c2 c3 w).sent = _
      rw [client_res_insert_sent]; simp
  | transmit now env =>
    obtain ⟨P, Q, hPQ, hl⟩ := msess_transmit_loop_at op T now env pre post s [] w
    have hsent := msess_transmit_loop_sent op T now env (pre ++ s :: post) [] w
    have hat := msess_pings_at now pre post s 0
    simp only [List.length_nil, Nat.zero_add, List.nil_append] at hPQ hsent hat
    refine ⟨P, Q, msess_step now (env pre.length).send s, msess_pings now 0 (pre ++ s :: post),
      ?_, hl, ?_, ?_, ?_⟩
    · show (client_msess_transmit op T now env w).msess_head = _
      unfold client_msess_transmit
      rw [hw]; exact hPQ
    · show (client_msess_transmit op T now env w).sent = _
      unfold client_msess_transmit
      rw [hw]; exact hsent
    · unfold msess_step; split_ifs <;> rfl
    · rw [hat]
      by_cases hd : msess_due now s = true
      · refine Or.inr ⟨rfl, ?_, ?_⟩
        · simp [msess_step, hd]
        · simp [msess_step, hd, tx_ping]
      · refine Or.inl ⟨?_, ?_⟩
        · simp [msess_step, hd]
        · simp [hd]

/-- Over a run of calls without a wrap the session numbers its pings upwards,
one by one, from its last_seq on. -/
theorem run_session (op : opmode) (T : Int) (cs : List Call) (w : World) (pre post : List msess)
    (s : msess) (hw : w.msess_head = pre ++ s :: post)
    (h : s.last_seq + cs.countP Call.is_transmit < 2 ^ 32) :
    ∃ P Q s2 X, (run op T cs w).msess_head = P ++ s2 :: Q ∧ P.length = pre.length ∧
      (run op T cs w).sent = w.sent ++ X ∧ s2.id = s.id ∧
      s2.last_seq =
        s.last_seq + ((X.filter (fun p => decide (p.1 = pre.length))).map (fun p => p.2.2)).length ∧
      ((X.filter (fun p => decide (p.1 = pre.length))).map (fun p => p.2.2)).length ≤
        cs.countP Call.is_transmit ∧
      ((X.filter (fun p => decide (p.1 = pre.length))).map (fun p => p.2.2)).map (fun p => p.seq) =
        List.range' (s.last_seq + 1)
          ((X.filter (fun p => decide (p.1 = pre.length))).map (fun p => p.2.2)).length ∧
      ∀ p ∈ (X.filter (fun p => decide (p.1 = pre.length))).map (fun p => p.2.2),
        p.type = TYPE_PING ∧ p.id = s.id := by
  induction cs generalizing w pre post s with
  | nil =>
    refine ⟨pre, post, s, [], hw, rfl, by simp [run], rfl, ?_⟩
    simp
  | cons c rest ih =>
    obtain ⟨P1, Q1, s1, X1, hh1, hl1, hs1, hid1, hcase⟩ := step_session op T c w pre post s hw
    have hcount : rest.countP Call.is_transmit ≤ (c :: rest).countP Call.is_transmit := by
      rw [List.countP_cons]; omega
    have hb1 : s1.last_seq + rest.countP Call.is_transmit < 2 ^ 32 := by
      rcases hcase with ⟨he, _⟩ | ⟨htr, he, _⟩
      · rw [he]; omega
      · rw [List.countP_cons_of_pos _ _ htr] at h
        rw [he, Nat.mod_eq_of_lt (by omega)]
        omega
    obtain ⟨P2, Q2, s2, X2, hh2, hl2, hs2, hid2, hseq2, hlen2, hrange2, htype2⟩ :=
      ih (c.step op T w) P1 Q1 s1 hh1 hb1
    rw [hl1] at hl2 hseq2 hlen2 hrange2 htype2
    have hrun : run op T (c :: rest) w = run op T rest (c.step op T w) := by
      unfold run; rw [List.foldl_cons]
    refine ⟨P2, Q2, s2, X1 ++ X2, by rw [hrun, hh2], hl2,
      by rw [hrun, hs2, hs1, List.append_assoc], by rw [hid2, hid1], ?_⟩
    simp only [List.filter_append, List.map_append, List.length_append, List.mem_append]
    rcases hcase with ⟨he, hx⟩ | ⟨htr, he, hx⟩
    · rw [hx]
      simp only [List.length_nil, List.nil_append, Nat.zero_add, List.map_nil]
      rw [he] at hseq2 hrange2
      refine ⟨hseq2, by omega, hrange2, ?_⟩
      intro p hp
      rcases hp with hp | hp
      · cases hp
      · rw [← hid1]; exact htype2 p hp
    · rw [List.countP_cons_of_pos _ _ htr] at h ⊢
      have he2 : s1.last_seq = s.last_seq + 1 := by
        rw [he]; exact Nat.mod_eq_of_lt (by omega)
      rw [hx]
      generalize (X2.filter (fun p => decide (p.1 = pre.length))).map (fun p => p.2.2) = pk2
        at hseq2 hlen2 hrange2 htype2 ⊢
      simp only [List.length_singleton, List.map_cons, List.map_nil, List.singleton_append,
        List.mem_cons, List.mem_singleton, List.length_nil, Nat.zero_add]
      refine ⟨by omega, by omega, ?_, ?_⟩
      · rw [hrange2, he2, Nat.add_comm 1 pk2.length, List.range'_succ]
      · intro p hp
        rcases hp with (hp | hp) | hp
        · rw [hp]; exact ⟨rfl, rfl⟩
        · cases hp
        · rw [← hid1]; exact htype2 p hp

theorem new_sent_eq (i : Nat) (w w2 : World) (X : List (Nat × addr_t × data_t))
    (h : w2.sent = w.sent ++ X) :
    new_sent i w w2 = (X.filter (fun p => decide (p.1 = i))).map (fun p => p.2.2) := by
  unfold new_sent
  rw [h, List.drop_left]

theorem last_seq_at_eq (i : Nat) (w : World) (P Q : List msess) (s : msess)
    (h : w.msess_head = P ++ s :: Q) (hl : P.length = i) : last_seq_at i w = s.last_seq := by
  unfold last_seq_at
  rw [h, getElem?_at_length P Q s i hl]

theorem run_down_last_seq (op : opmode) (T : Int) (now : timeval) (env : Nat → TxEnv) (s : msess)
    (w : World) (hw : w.msess_head = [s]) (hr : s.got_hello = 1)
    (hdue : cmp_tv (timersub now s.last_sent) s.interval = 1) (hsend : (env 0).send = none)
    (hlt : s.last_seq < 2 ^ 32) (n : Nat) :
    last_seq_at 0 (run op T (List.replicate n (Call.transmit now env)) w) =
      (s.last_seq + n) % 2 ^ 32 := by
  rw [run_down op T now env s w hw hr hdue hsend hlt n]
  rfl

theorem run_down_new_sent (op : opmode) (T : Int) (now : timeval) (env : Nat → TxEnv) (s : msess)
    (w : World) (hw : w.msess_head = [s]) (hr : s.got_hello = 1)
    (hdue : cmp_tv (timersub now s.last_sent) s.interval = 1) (hsend : (env 0).send = none)
    (hlt : s.last_seq < 2 ^ 32) (n : Nat) :
    new_sent 0 (run op T (List.replicate n (Call.transmit now env)) w)
        (run op T (List.replicate (n + 1) (Call.transmit now env)) w) =
      [tx_ping { s with last_seq := (s.last_seq + (n + 1)) % 2 ^ 32 }] := by
  rw [run_down op T now env s w hw hr hdue hsend hlt n,
    run_down op T now env s w hw hr hdue hsend hlt (n + 1)]
  rw [new_sent_eq 0 _ _
    [(0, s.dst, tx_ping { s with last_seq := (s.last_seq + (n + 1)) % 2 ^ 32 })]
    (by simp only [List.range_succ, List.map_append, List.map_cons, List.map_nil,
      List.append_assoc])]
  rfl

theorem run_take_succ (op : opmode) (T : Int) (cs : List Call) (w : World) (k : Nat)
    (hk : k < cs.length) :
    run op T (cs.take (k + 1)) w = (cs.get ⟨k, hk⟩).step op T (run op T (cs.take k) w) := by
  rw [List.take_succ, List.getElem?_eq_getElem hk]
  unfold run
  rw [List.foldl_append]
  rfl

theorem countP_take_le (cs : List Call) (k : Nat) :
    (cs.take k).countP Call.is_transmit ≤ cs.countP Call.is_transmit :=
  List.Sublist.countP_le _ (List.take_sublist k cs)

theorem client_msess_isaddrtaken_iff (ms : List msess) (addr : addr_t) (id : Nat) :
    client_msess_isaddrtaken ms addr id = 1 ↔
      ∃ t ∈ ms, t.id ≠ id ∧ t.child_pid ≠ 0 ∧ addr.sin6_addr = t.dst.sin6_addr := by
  induction ms with
  | nil => simp [client_msess_isaddrtaken]
  | cons s rest ih =>
    unfold client_msess_isaddrtaken
    by_cases h1 : s.id = id
    · simp [h1, ih]
    · by_cases h2 : s.child_pid = 0
      · simp [h1, h2, ih]
      · by_cases h3 : addr.sin6_addr = s.dst.sin6_addr
        · simp [h1, h2, h3]
        · simp [h1, h2, h3, ih]

theorem msess_workers_append (A : Nat) (l1 l2 : List msess) :
    msess_workers A (l1 ++ l2) = msess_workers A l1 + msess_workers A l2 := by
  simp [msess_workers, List.countP_append]

theorem mem_addrs_snoc (A : Nat) (done : List msess) (s : msess) :
    A ∈ (done ++ [s]).map (fun s => s.dst.sin6_addr) ↔
      A ∈ done.map (fun s => s.dst.sin6_addr) ∨ A = s.dst.sin6_addr := by
  simp only [List.map_append, List.mem_append, List.map_cons, List.map_nil, List.mem_singleton]

theorem msess_workers_pos (A : Nat) (ms : List msess) (h : 0 < msess_workers A ms) :
    ∃ t ∈ ms, t.dst.sin6_addr = A ∧ t.child_pid ≠ 0 := by
  unfold msess_workers at h
  obtain ⟨t, ht, hp⟩ := List.countP_pos_iff.1 h
  simp only [Bool.and_eq_true, decide_eq_true_eq] at hp
  exact ⟨t, ht, hp.1, hp.2⟩

/-- The loop of client_msess_forkall gives a child process to exactly the
first session of every address, when no two sessions share id and address. -/
theorem msess_forkall_loop_spec (fork : Nat → Int) (hfork : ∀ i, fork i ≠ 0)
    (todo done : List msess)
    (hkeys : ((done ++ todo).map msess_key).Nodup)
    (htodo : ∀ s ∈ todo, s.child_pid = 0)
    (hdone : ∀ A, msess_workers A done =
      if A ∈ done.map (fun s => s.dst.sin6_addr) then 1 else 0) :
    (msess_forkall_loop fork done todo).map msess_key = (done ++ todo).map msess_key ∧
    ∀ A, msess_workers A (msess_forkall_loop fork done todo) =
      if A ∈ (done ++ todo).map (fun s => s.dst.sin6_addr) then 1 else 0 := by
  induction todo generalizing done with
  | nil => simpa [msess_forkall_loop] using hdone
  | cons s rest ih =>
    have hs0 : s.child_pid = 0 := htodo s (List.mem_cons_self _ _)
    have hrest : ∀ t ∈ rest, t.child_pid = 0 := fun t ht => htodo t (List.mem_cons_of_mem _ ht)
    have htaken : client_msess_isaddrtaken (done ++ s :: rest) s.dst s.id = 1 ↔
        s.dst.sin6_addr ∈ done.map (fun s => s.dst.sin6_addr) := by
      rw [client_msess_isaddrtaken_iff]
      constructor
      · rintro ⟨t, ht, _, hpid, haddr⟩
        rcases List.mem_append.1 ht with ht | ht
        · exact List.mem_map.2 ⟨t, ht, haddr.symm⟩
        · exact absurd (htodo t ht) hpid
      · intro hmem
        have hw := hdone s.dst.sin6_addr
        rw [if_pos hmem] at hw
        obtain ⟨t, ht, haddr, hpid⟩ := msess_workers_pos s.dst.sin6_addr done
          (by rw [hw]; exact Nat.one_pos)
        refine ⟨t, List.mem_append_left _ ht, ?_, hpid, haddr.symm⟩
        intro hid
        have hk : msess_key t = msess_key s := by simp [msess_key, hid, haddr]
        rw [List.map_append, List.nodup_append] at hkeys
        exact hkeys.2.2 (List.mem_map.2 ⟨t, ht, hk⟩)
          (List.mem_map.2 ⟨s, List.mem_cons_self _ _, rfl⟩)
    unfold msess_forkall_loop
    by_cases ht : client_msess_isaddrtaken (done ++ s :: rest) s.dst s.id = 1
    · rw [if_pos ht]
      have hmem := htaken.1 ht
      obtain ⟨i1, i2⟩ := ih (done ++ [s]) (by simpa using hkeys) hrest (by
        intro A
        rw [msess_workers_append, hdone A]
        have : msess_workers A [s] = 0 := by simp [msess_workers, hs0]
        rw [this]
        have hm := mem_addrs_snoc A done s
        by_cases hA : A = s.dst.sin6_addr
        · rw [hA] at hm ⊢
          rw [if_pos hmem, if_pos (hm.2 (Or.inr rfl))]
        · by_cases hd : A ∈ done.map (fun s => s.dst.sin6_addr)
          · rw [if_pos hd, if_pos (hm.2 (Or.inl hd))]
          · rw [if_neg hd, if_neg (fun h => (hm.1 h).elim hd hA)])
      exact ⟨by simpa using i1, by simpa using i2⟩
    · rw [if_neg ht]
      have hmem : s.dst.sin6_addr ∉ done.map (fun s => s.dst.sin6_addr) :=
        fun h => ht (htaken.2 h)
      obtain ⟨i1, i2⟩ := ih (done ++ [{ s with child_pid := fork done.length }])
        (by simpa [msess_key] using hkeys) hrest (by
        intro A
        rw [msess_workers_append, hdone A]
        have hm := mem_addrs_snoc A done { s with child_pid := fork done.length }
        by_cases hA : A = s.dst.sin6_addr
        · rw [hA] at hm ⊢
          have : msess_workers s.dst.sin6_addr [{ s with child_pid := fork done.length }] = 1 := by
            simp [msess_workers, hfork]
          rw [this, if_neg hmem, if_pos (hm.2 (Or.inr rfl))]
        · have hA' : ¬ s.dst.sin6_addr = A := fun h => hA h.symm
          have : msess_workers A [{ s with child_pid := fork done.length }] = 0 := by
            simp [msess_workers, hA']
          rw [this]
          by_cases hd : A ∈ done.map (fun s => s.dst.sin6_addr)
          · rw [if_pos hd, if_pos (hm.2 (Or.inl hd))]
          · rw [if_neg hd, if_neg (fun h => (hm.1 h).elim hd hA)])
      exact ⟨by simpa [msess_key] using i1, by simpa using i2⟩

/-- Where no two sessions share both id and destination address,
client_msess_forkall does what its comment says: for a session list in which
no session has a worker yet, each destination address that occurs in the list
ends with exactly one session with child_pid other than 0, and an address that
does not occur with none; ids and addresses of the sessions are as before. -/
theorem client_msess_forkall_distinct (fork : Nat → Int) (w : World)
    (hfork : ∀ i, fork i ≠ 0)
    (hnone : ∀ s ∈ w.msess_head, s.child_pid = 0)
    (hkeys : (w.msess_head.map msess_key).Nodup) :
    (∀ A, A ∈ w.msess_head.map (fun s => s.dst.sin6_addr) →
      msess_workers A (client_msess_forkall fork w).msess_head = 1) ∧
    (∀ A, A ∉ w.msess_head.map (fun s => s.dst.sin6_addr) →
      msess_workers A (client_msess_forkall fork w).msess_head = 0) ∧
    (client_msess_forkall fork w).msess_head.map msess_key = w.msess_head.map msess_key := by
  obtain ⟨h1, h2⟩ := msess_forkall_loop_spec fork hfork w.msess_head []
    (by simpa using hkeys) hnone (by intro A; simp [msess_workers])
  simp only [List.nil_append] at h1 h2
  refine ⟨?_, ?_, h1⟩
  · intro A hA
    show msess_workers A (msess_forkall_loop fork [] w.msess_head) = 1
    rw [h2 A, if_pos hA]
  · intro A hA
    show msess_workers A (msess_forkall_loop fork [] w.msess_head) = 0
    rw [h2 A, if_neg hA]

/-- C14, the code at the failing input: the two sessions of ex_twin_world, as
the configuration loader leaves them, share the id 7 and the peer address 42
and neither has a worker. client_msess_isaddrtaken passes over every session
with the id of the candidate (line 717), so the second session does not see
the worker of the first, and client_msess_forkall starts a worker for each of
them: two sessions with child_pid other than 0 for the one address. -/
theorem C14_one_worker_failing :
    ex_twin_world.msess_head.map (fun s => (s.id, s.dst.sin6_addr, s.child_pid, s.got_hello))
      = [(7, 42, 0, 0), (7, 42, 0, 0)] ∧
    client_msess_isaddrtaken
        [{ ex_sess with got_hello := 0, child_pid := 100 },
          { ex_sess with got_hello := 0, dscp := 20 }] ex_addr 7 = 0 ∧
    (client_msess_forkall ex_fork ex_twin_world).msess_head.map
        (fun s => (s.id, s.dst.sin6_addr, s.child_pid)) = [(7, 42, 100), (7, 42, 101)] ∧
    msess_workers 42 (client_msess_forkall ex_fork ex_twin_world).msess_head = 2 := by
  decide

/-! ## Which timestamps a call writes -/

/-- An entry that a visit leaves in the list is the entry with the update of
the call applied, its state still the status mask. -/
theorem visited_kept_eq {T : Int} {ms : List msess} {a : addr_t} {d : data_t}
    {ts : Option ts_t} {dscp : Int} {r x : res} (h : Visited T ms a d ts dscp r x)
    (hx : res_isfinal x.state = false) : x = res_match ms a d ts dscp r := by
  obtain ⟨now, rfl⟩ := h
  by_cases hd : (res_match ms a d ts dscp r).state &&& MASK_DONE = MASK_DONE
  · rw [res_classify_done T now _ hd] at hx
    simp only [res_isfinal_done_code] at hx
    cases hx
  · by_cases hl : (diff_ts now (res_match ms a d ts dscp r).created).tv_sec > T
    · rw [res_classify_late T now _ hd hl] at hx
      simp only [res_isfinal_timeout_code] at hx
      cases hx
    · rw [res_classify_wait T now _ hd hl]

/-- C15, refuted as stated: the entry ex_entry_pong has GotPong set and
T4 = 100.003 s from its pong; a second PongReceived for the same key with
receive timestamp 100.009 s leaves the entry in the table with T4 changed to
100.009 s. -/
theorem C15_write_once_counterexample :
    ex_world_pong.res_head = [ex_entry_pong] ∧
    ex_entry_pong.state &&& MASK_PONG = MASK_PONG ∧ ex_entry_pong.ts3 = ⟨100, 3000000⟩ ∧
    res_iskey ex_addr ex_pong ex_entry_pong = true ∧
    (client_res_update opmode.CLIENT 2 ex_addr ex_pong (some ⟨100, 9000000⟩) 10
        ⟨100, 9500000⟩ ⟨100, 9500000⟩ ex_world_pong).res_head
      = [{ ex_entry_pong with ts3 := ⟨100, 9000000⟩ }] := by
  decide

/-- C15, amended: every entry that stays in the result table over a call of
client_res_update comes from an entry of the table before the call with the
same ts[0] (T1); its ts[3] (T4) is changed by nothing but a PongReceived for
its key that carries a receive timestamp, which overwrites it also when it was
set before; its ts[1], ts[2] (T2, T3) are changed by nothing but a TimeReport
for its key, which overwrites them also when they were set before; and an
entry with a different key stays as it is. -/
theorem C15_write_once_amended (op : opmode) (T : Int) (a : addr_t) (d : data_t)
    (ts : Option ts_t) (dscp : Int) (clk clk_dup : ts_t) (w : World) :
    ∀ x ∈ (client_res_update op T a d ts dscp clk clk_dup w).res_head,
      ∃ r ∈ w.res_head,
        x = res_match w.msess_head a d ts dscp r ∧
        x.ts0 = r.ts0 ∧
        (res_iskey a d r = false → x = r) ∧
        (¬ (d.type = TYPE_PONG ∧ ts.isSome = true) → x.ts3 = r.ts3) ∧
        (res_iskey a d r = true → d.type = TYPE_PONG → x.ts3 = ts.getD r.ts3) ∧
        (d.type ≠ TYPE_TIME → x.ts1 = r.ts1 ∧ x.ts2 = r.ts2) ∧
        (res_iskey a d r = true → d.type = TYPE_TIME → x.ts1 = d.t2 ∧ x.ts2 = d.t3) := by
  obtain ⟨V, D, hV, hk, _, _, _⟩ := client_res_update_spec op T a d ts dscp clk clk_dup w
  rw [hk]
  intro x hx
  obtain ⟨hxV, hxf⟩ := List.mem_filter.1 hx
  obtain ⟨r, hr, hvis⟩ := forall₂_mem_right hV hxV
  have hxe := visited_kept_eq hvis (by simpa using hxf)
  refine ⟨r, hr, hxe, ?_⟩
  rw [hxe]
  have hpt : TYPE_PONG ≠ TYPE_TIME := by decide
  by_cases hkey : res_iskey a d r = true
  · by_cases hp : d.type = TYPE_PONG
    · rw [res_match_pong w.msess_head a d ts dscp r hkey hp]
      refine ⟨rfl, ?_, ?_, ?_, ?_, ?_⟩
      · intro h; rw [hkey] at h; cases h
      · intro h
        cases ts with
        | none => rfl
        | some t => exact absurd ⟨hp, rfl⟩ h
      · intro _ _; rfl
      · intro _; exact ⟨rfl, rfl⟩
      · intro _ h; rw [hp] at h; exact absurd h hpt
    · by_cases ht : d.type = TYPE_TIME
      · rw [res_match_time w.msess_head a d ts dscp r hkey ht]
        refine ⟨rfl, ?_, ?_, ?_, ?_, ?_⟩
        · intro h; rw [hkey] at h; cases h
        · intro _; rfl
        · intro _ h; exact absurd h hp
        · intro h; exact absurd ht h
        · intro _ _; exact ⟨rfl, rfl⟩
      · have hm : res_match w.msess_head a d ts dscp r = r := by
          unfold res_match; simp [hkey, hp, ht]
        rw [hm]
        refine ⟨rfl, fun _ => rfl, fun _ => rfl, ?_, fun _ => ⟨rfl, rfl⟩, ?_⟩
        · intro _ h; exact absurd h hp
        · intro _ h; exact absurd h ht
  · have hkf : res_iskey a d r = false := by simpa using hkey
    rw [res_match_other w.msess_head a d ts dscp r hkf]
    refine ⟨rfl, fun _ => rfl, fun _ => rfl, ?_, fun _ => ⟨rfl, rfl⟩, ?_⟩
    · intro h; exact absurd h hkey
    · intro h; exact absurd h hkey

/-- C15 amended, at a sample: the entry left in the table when a second pong
with receive timestamp 100.009 s arrives for ex_entry_pong. -/
theorem C15_write_once_amended_witness :
    ∃ r ∈ ex_world_pong.res_head,
      ({ ex_entry_pong with ts3 := ⟨100, 9000000⟩ } : res) =
        res_match ex_world_pong.msess_head ex_addr ex_pong (some ⟨100, 9000000⟩) 10 r ∧
      ({ ex_entry_pong with ts3 := ⟨100, 9000000⟩ } : res).ts0 = r.ts0 ∧
      (res_iskey ex_addr ex_pong r = false →
        ({ ex_entry_pong with ts3 := ⟨100, 9000000⟩ } : res) = r) ∧
      (¬ (ex_pong.type = TYPE_PONG ∧ (some (⟨100, 9000000⟩ : ts_t)).isSome = true) →
        ({ ex_entry_pong with ts3 := ⟨100, 9000000⟩ } : res).ts3 = r.ts3) ∧
      (res_iskey ex_addr ex_pong r = true → ex_pong.type = TYPE_PONG →
        ({ ex_entry_pong with ts3 := ⟨100, 9000000⟩ } : res).ts3
          = (some (⟨100, 9000000⟩ : ts_t)).getD r.ts3) ∧
      (ex_pong.type ≠ TYPE_TIME →
        ({ ex_entry_pong with ts3 := ⟨100, 9000000⟩ } : res).ts1 = r.ts1 ∧
        ({ ex_entry_pong with ts3 := ⟨100, 9000000⟩ } : res).ts2 = r.ts2) ∧
      (res_iskey ex_addr ex_pong r = true → ex_pong.type = TYPE_TIME →
        ({ ex_entry_pong with ts3 := ⟨100, 9000000⟩ } : res).ts1 = ex_pong.t2 ∧
        ({ ex_entry_pong with ts3 := ⟨100, 9000000⟩ } : res).ts2 = ex_pong.t3) :=
  C15_write_once_amended opmode.CLIENT 2 ex_addr ex_pong (some ⟨100, 9000000⟩) 10
    ⟨100, 9500000⟩ ⟨100, 9500000⟩ ex_world_pong { ex_entry_pong with ts3 := ⟨100, 9000000⟩ }
    (by decide)

/-! ## The statistics counters -/

theorem int_wrap_succ (x : Int) : int_wrap (int_wrap x + 1) = int_wrap (x + 1) := by
  unfold int_wrap
  omega

theorem int_wrap_of_range (x : Int) (h1 : -2147483648 ≤ x) (h2 : x < 2147483648) :
    int_wrap x = x := by
  unfold int_wrap
  omega

theorem int_wrap_sum (a b c d e : Int) :
    int_wrap (int_wrap (int_wrap (int_wrap (int_wrap a + int_wrap b) + int_wrap c) + int_wrap d)
      + int_wrap e) = int_wrap (a + b + c + d + e) := by
  unfold int_wrap
  omega

theorem int_wrap_add (a b : Int) : int_wrap (int_wrap a + int_wrap b) = int_wrap (a + b) := by
  unfold int_wrap
  omega

theorem count_state_snoc (c : Nat) (l : List res) (x : res) :
    count_state c (l ++ [x]) = count_state c l + if x.state = c then 1 else 0 := by
  unfold count_state
  rw [List.countP_append]
  by_cases h : x.state = c
  · simp [h]
  · simp [h]

/-- The output block keeps the statistics in step with the output in client
mode. -/
theorem res_output_stats_inv (w : World) (now : ts_t) (x : res) (h : stats_inv w)
    (hx : res_isfinal x.state = true) :
    stats_inv (res_output opmode.CLIENT w now x).1 := by
  obtain ⟨h1, h2, h3, h4, h5, h6, h7⟩ := h
  have hcodes := (res_isfinal_iff x.state).1 hx
  have hmem : ∀ e ∈ w.emitted ++ [x], e.state ∈ terminal_codes ∨ e.state = STATE_DUP := by
    intro e he
    rcases List.mem_append.1 he with he | he
    · exact h7 e he
    · rw [List.mem_singleton.1 he]; exact Or.inl hcodes
  simp only [terminal_codes, List.mem_cons, List.mem_singleton, List.not_mem_nil,
    or_false] at hcodes
  unfold res_output res_stats stats_inv
  have hd : (opmode.CLIENT = opmode.DAEMON) = False := by simp
  simp only [hd, if_false, if_true]
  rcases hcodes with hs | hs | hs | hs | hs <;>
    simp [hs, count_state_snoc, h1, h2, h3, h4, h5, h6, int_wrap_succ, STATE_OK, STATE_DSERROR,
      STATE_TSERROR, STATE_PONGLOSS, STATE_TIMEOUT, STATE_DUP] <;>
    simpa [hs, STATE_OK, STATE_DSERROR, STATE_TSERROR, STATE_PONGLOSS, STATE_TIMEOUT,
      STATE_DUP, terminal_codes] using hmem

theorem res_visit_stats_inv (T : Int) (a : addr_t) (d : data_t) (ts : Option ts_t)
    (dscp : Int) (st : Sweep) (r : res) (h : stats_inv st.w) :
    stats_inv (res_visit opmode.CLIENT T a d ts dscp st r).w := by
  unfold res_visit
  by_cases hf : res_isfinal
      (res_classify T st.now (res_match st.w.msess_head a d ts dscp r)).1.state = true
  · simp only [hf, if_true]
    exact res_output_stats_inv _ _ _ h hf
  · simp only [hf]
    exact h

theorem res_fold_stats_inv (T : Int) (a : addr_t) (d : data_t) (ts : Option ts_t)
    (dscp : Int) (l : List res) (st : Sweep) (h : stats_inv st.w) :
    stats_inv (l.foldl (res_visit opmode.CLIENT T a d ts dscp) st).w := by
  induction l generalizing st with
  | nil => exact h
  | cons r rest ih =>
    rw [List.foldl_cons]
    exact ih _ (res_visit_stats_inv T a d ts dscp st r h)

theorem res_dup_block_stats_inv (a : addr_t) (d : data_t) (clk : ts_t) (w : World)
    (h : stats_inv w) : stats_inv (res_dup_block opmode.CLIENT a d clk w) := by
  obtain ⟨h1, h2, h3, h4, h5, h6, h7⟩ := h
  unfold res_dup_block stats_inv
  have hd : (opmode.CLIENT = opmode.DAEMON) = False := by simp
  simp only [hd, if_false, if_true]
  refine ⟨?_, ?_, ?_, ?_, ?_, ?_, ?_⟩
  · rw [count_state_snoc, h1]; simp [res_dup_record, STATE_DUP, STATE_OK]
  · rw [count_state_snoc, h2]; simp [res_dup_record, STATE_DUP, STATE_DSERROR]
  · rw [count_state_snoc, h3]; simp [res_dup_record, STATE_DUP, STATE_TSERROR]
  · rw [count_state_snoc, h4]; simp [res_dup_record, STATE_DUP, STATE_TIMEOUT]
  · rw [count_state_snoc, h5]; simp [res_dup_record, STATE_DUP, STATE_PONGLOSS]
  · rw [count_state_snoc, h6]; simp [res_dup_record, int_wrap_succ]
  · intro e he
    rcases List.mem_append.1 he with he | he
    · exact h7 e he
    · rw [List.mem_singleton.1 he]; exact Or.inr rfl

theorem client_res_update_stats_inv (T : Int) (a : addr_t) (d : data_t) (ts : Option ts_t)
    (dscp : Int) (clk clk_dup : ts_t) (w : World) (h : stats_inv w) :
    stats_inv (client_res_update opmode.CLIENT T a d ts dscp clk clk_dup w) := by
  have hs : stats_inv (res_sweep opmode.CLIENT T a d ts dscp clk w).w :=
    res_fold_stats_inv T a d ts dscp w.res_head _ h
  unfold client_res_update
  by_cases hc : (res_sweep opmode.CLIENT T a d ts dscp clk w).found = 0 ∧ d.type = TYPE_PONG
  · simp only [hc, and_self, if_true]
    exact res_dup_block_stats_inv a d clk_dup _ hs
  · simp only [hc, if_false]
    exact hs

theorem client_res_insert_stats_inv (T : Int) (alloc : Bool) (a : addr_t) (d : data_t)
    (ts : ts_t) (c1 c2 c3 : ts_t) (w : World) (h : stats_inv w) :
    stats_inv (client_res_insert opmode.CLIENT T alloc a d ts c1 c2 c3 w) := by
  unfold client_res_insert
  cases alloc with
  | false => simpa using h
  | true =>
    simp only [if_true]
    exact client_res_update_stats_inv T a d (some ts) (-1) c2 c3 _ h

theorem msess_transmit_loop_stats_inv (T : Int) (now : timeval) (env : Nat → TxEnv)
    (todo done : List msess) (w : World) (h : stats_inv w) :
    stats_inv (msess_transmit_loop opmode.CLIENT T now env done todo w) := by
  induction todo generalizing done w with
  | nil => simpa [msess_transmit_loop] using h
  | cons s rest ih =>
    unfold msess_transmit_loop
    apply ih
    rcases msess_transmit_one_cases opmode.CLIENT T now (env done.length) done rest s w
      with h1 | h1 | ⟨t, h1⟩
    · rw [h1]; exact h
    · rw [h1]; exact h
    · rw [h1]; exact client_res_insert_stats_inv T _ _ _ _ _ _ _ _ h

theorem run_stats_inv (T : Int) (cs : List Call) (w : World) (h : stats_inv w) :
    stats_inv (run opmode.CLIENT T cs w) := by
  induction cs generalizing w with
  | nil => exact h
  | cons c rest ih =>
    unfold run
    rw [List.foldl_cons]
    apply ih
    cases c with
    | update a d ts dscp clk clk_dup => exact client_res_update_stats_inv T a d ts dscp clk clk_dup w h
    | insert alloc a d ts c1 c2 c3 => exact client_res_insert_stats_inv T alloc a d ts c1 c2 c3 w h
    | transmit now env => exact msess_transmit_loop_stats_inv T now env w.msess_head [] w h

theorem stats_inv_zero (w : World) : stats_inv (zero_stats w) := by
  simp [stats_inv, zero_stats, count_state, int_wrap]

/-- The records put out with one of the five final codes are the records of
removed entries. -/
theorem count_state_sum (l : List res)
    (h7 : ∀ e ∈ l, e.state ∈ terminal_codes ∨ e.state = STATE_DUP) :
    count_state STATE_OK l + count_state STATE_DSERROR l + count_state STATE_TSERROR l +
      count_state STATE_TIMEOUT l + count_state STATE_PONGLOSS l =
      ((l.filter (fun e => decide (e.state ≠ STATE_DUP))).length : Nat) := by
  unfold count_state
  induction l with
  | nil => simp
  | cons e rest ih =>
    have hr := ih (fun x hx => h7 x (List.mem_cons_of_mem _ hx))
    have he := h7 e (List.mem_cons_self _ _)
    simp only [terminal_codes, List.mem_cons, List.mem_singleton, List.not_mem_nil,
      or_false] at he
    simp only [List.countP_cons, List.filter_cons]
    rcases he with (hs | hs | hs | hs | hs) | hs <;>
      simp [hs, STATE_OK, STATE_DSERROR, STATE_TSERROR, STATE_PONGLOSS, STATE_TIMEOUT,
        STATE_DUP] at hr ⊢ <;> omega

theorem count_state_nonneg (c : Nat) (l : List res) : 0 ≤ count_state c l := by
  unfold count_state; exact Int.natCast_nonneg _

theorem count_state_le (c : Nat) (l : List res) : count_state c l ≤ (l.length : Int) := by
  unfold count_state
  exact_mod_cast List.countP_le_length _

/-- With the statistics in step with the output, the variable total of
client_res_summary is the number of records of removed entries, as far as an
int can tell. -/
theorem res_total_wrap (w : World) (h : stats_inv w) :
    res_total w = int_wrap (removed_count w) := by
  obtain ⟨h1, h2, h3, h4, h5, _, h7⟩ := h
  unfold res_total removed_count
  rw [h1, h2, h3, h4, h5, int_wrap_sum, count_state_sum _ h7]

/-- While fewer than 2^31 records have been put out, the counters are the
numbers of records themselves. -/
theorem stats_exact (w : World) (h : stats_inv w) (hb : (w.emitted.length : Int) < 2147483648) :
    w.res_ok = count_state STATE_OK w.emitted ∧
    w.res_dserror = count_state STATE_DSERROR w.emitted ∧
    w.res_tserror = count_state STATE_TSERROR w.emitted ∧
    w.res_timeout = count_state STATE_TIMEOUT w.emitted ∧
    w.res_pongloss = count_state STATE_PONGLOSS w.emitted ∧
    w.res_dup = count_state STATE_DUP w.emitted ∧
    res_total w = removed_count w ∧
    res_lost w = w.res_timeout + w.res_pongloss := by
  have htot := res_total_wrap w h
  obtain ⟨h1, h2, h3, h4, h5, h6, h7⟩ := h
  have hin : ∀ c, int_wrap (count_state c w.emitted) = count_state c w.emitted := by
    intro c
    have := count_state_nonneg c w.emitted
    have := count_state_le c w.emitted
    exact int_wrap_of_range _ (by omega) (by omega)
  have hsum := count_state_sum _ h7
  have hrem : removed_count w ≤ (w.emitted.length : Int) := by
    unfold removed_count
    exact_mod_cast List.length_filter_le _ _
  have hrem0 : 0 ≤ removed_count w := by
    unfold removed_count; exact Int.natCast_nonneg _
  rw [hin] at h1 h2 h3 h4 h5 h6
  refine ⟨h1, h2, h3, h4, h5, h6, ?_, ?_⟩
  · rw [htot]
    exact int_wrap_of_range _ (by omega) (by omega)
  · unfold res_lost
    have a1 := count_state_nonneg STATE_OK w.emitted
    have a2 := count_state_nonneg STATE_DSERROR w.emitted
    have a3 := count_state_nonneg STATE_TSERROR w.emitted
    have a4 := count_state_nonneg STATE_TIMEOUT w.emitted
    have a5 := count_state_nonneg STATE_PONGLOSS w.emitted
    have hs : count_state STATE_OK w.emitted + count_state STATE_DSERROR w.emitted +
        count_state STATE_TSERROR w.emitted + count_state STATE_TIMEOUT w.emitted +
        count_state STATE_PONGLOSS w.emitted = removed_count w := hsum
    rw [h4, h5]
    exact int_wrap_of_range _ (by omega) (by omega)

/-- A call of client_res_update in client mode raises the sum of the five
counters by the number of entries it removes, while fewer than 2^31 records
have been put out. -/
theorem client_res_update_total (T : Int) (a : addr_t) (d : data_t) (ts : Option ts_t)
    (dscp : Int) (clk clk_dup : ts_t) (w : World) (h : stats_inv w)
    (hb : ((client_res_update opmode.CLIENT T a d ts dscp clk clk_dup w).emitted.length : Int)
      < 2147483648) :
    res_total (client_res_update opmode.CLIENT T a d ts dscp clk clk_dup w) - res_total w =
      (w.res_head.length : Int) -
        ((client_res_update opmode.CLIENT T a d ts dscp clk clk_dup w).res_head.length : Int)
    := by
  have h2 := client_res_update_stats_inv T a d ts dscp clk clk_dup w h
  obtain ⟨V, D, hV, hk, he, _, hD⟩ :=
    client_res_update_spec opmode.CLIENT T a d ts dscp clk clk_dup w
  have hb0 : (w.emitted.length : Int) < 2147483648 := by
    rw [he] at hb
    simp only [List.length_append, Nat.cast_add] at hb
    omega
  rw [(stats_exact _ h2 hb).2.2.2.2.2.2.1, (stats_exact _ h hb0).2.2.2.2.2.2.1]
  have hlen : V.length = w.res_head.length := hV.length_eq.symm
  have hsplit : (V.filter (fun x => res_isfinal x.state)).length +
      (V.filter (fun x => !res_isfinal x.state)).length = V.length := by
    have := (List.filter_append_perm (fun x => res_isfinal x.state) V).length_eq
    rw [List.length_append] at this
    exact this
  have hfin : (V.filter (fun x => res_isfinal x.state)).filter
      (fun e => decide (e.state ≠ STATE_DUP)) = V.filter (fun x => res_isfinal x.state) := by
    rw [List.filter_eq_self]
    intro x hx
    have hc := (res_isfinal_iff x.state).1 (List.mem_filter.1 hx).2
    have : x.state ≠ STATE_DUP := by
      intro hdup; rw [hdup] at hc; exact absurd hc (by decide)
    simpa using this
  have hdup : D.filter (fun e => decide (e.state ≠ STATE_DUP)) = [] := by
    rw [hD]; split_ifs <;> simp [res_dup_record]
  unfold removed_count
  rw [he, hk, List.filter_append, List.filter_append, hfin, hdup]
  simp only [List.append_nil, List.length_append]
  omega

theorem ex_clock_diff (k : Nat) : diff_ts (ex_clock (k + 1)) (ex_clock k) = ⟨3, 0⟩ := by
  unfold diff_ts ts_nanos ex_clock
  rw [ts_t.mk.injEq]
  push_cast
  constructor <;> omega

/-- The visit of a Ping-typed update to the fresh entry of its own ping: the
entry stays as it is. -/
theorem ex_dead_visit_new (w : World) (k : Nat) (ts : Option ts_t) (dscp : Int) (f : Nat) :
    res_visit opmode.CLIENT 2 ex_addr (ex_ping_no k) ts dscp
        { w := w, now := ex_clock k, found := f } (ex_dead_entry k) =
      { w := { w with res_head := w.res_head ++ [ex_dead_entry k] }, now := ex_clock k,
        found := 1 } := by
  have hm : res_match w.msess_head ex_addr (ex_ping_no k) ts dscp (ex_dead_entry k)
      = ex_dead_entry k := by
    unfold res_match
    simp [ex_ping_no, TYPE_PING, TYPE_PONG, TYPE_TIME]
  have hc : res_classify 2 (ex_clock k) (ex_dead_entry k) = (ex_dead_entry k, ex_clock k) := by
    unfold res_classify
    simp [ex_dead_entry, res_new, MASK_PING, MASK_DONE, diff_ts]
  have hk : res_iskey ex_addr (ex_ping_no k) (ex_dead_entry k) = true := by
    simp [res_iskey, ex_dead_entry, res_new, ex_ping_no, ex_addr]
  have hf : res_isfinal (ex_dead_entry k).state = false := by
    simp [ex_dead_entry, res_new, res_isfinal, MASK_PING, STATE_OK, STATE_TSERROR, STATE_DSERROR,
      STATE_TIMEOUT, STATE_PONGLOSS]
  unfold res_visit
  simp only [hm, hc, hk, hf, if_true]
  simp

/-- The visit of the update for the next ping, 3 s later, to that entry: it
is put out as Timeout and counted. -/
theorem ex_dead_visit_old (w : World) (k : Nat) (ts : Option ts_t) (dscp : Int) (f : Nat) :
    res_visit opmode.CLIENT 2 ex_addr (ex_ping_no (k + 1)) ts dscp
        { w := w, now := ex_clock (k + 1), found := f } (ex_dead_entry k) =
      { w := { w with res_timeout := int_wrap (w.res_timeout + 1),
                      emitted := w.emitted ++ [{ ex_dead_entry k with state := STATE_TIMEOUT }] },
        now := ex_clock (k + 1), found := f } := by
  have hm : res_match w.msess_head ex_addr (ex_ping_no (k + 1)) ts dscp (ex_dead_entry k)
      = ex_dead_entry k := by
    unfold res_match
    simp [ex_ping_no, TYPE_PING, TYPE_PONG, TYPE_TIME]
  have hc : res_classify 2 (ex_clock (k + 1)) (ex_dead_entry k) =
      ({ ex_dead_entry k with state := STATE_TIMEOUT }, ex_clock (k + 1)) := by
    unfold res_classify
    simp [ex_dead_entry, res_new, MASK_PING, MASK_DONE, MASK_TIME, MASK_PONG, ex_clock_diff]
  have hk : res_iskey ex_addr (ex_ping_no (k + 1)) (ex_dead_entry k) = false := by
    simp [res_iskey, ex_dead_entry, res_new, ex_ping_no]
  unfold res_visit
  simp only [hm, hc, hk]
  simp [res_isfinal, res_output, res_stats, STATE_OK, STATE_TSERROR, STATE_DSERROR,
      STATE_TIMEOUT, STATE_PONGLOSS]

theorem ex_dead_step (w : World) (k : Nat) (hk : w.res_head = [ex_dead_entry k]) :
    (ex_dead_call (k + 1)).step opmode.CLIENT 2 w =
      { w with res_head := [ex_dead_entry (k + 1)],
               res_timeout := int_wrap (w.res_timeout + 1),
               emitted := w.emitted ++ [{ ex_dead_entry k with state := STATE_TIMEOUT }] } := by
  unfold ex_dead_call Call.step client_res_insert client_res_update res_sweep res_sweep_list
  simp only [if_true, hk, List.foldl_cons, List.foldl_nil]
  have h1 := ex_dead_visit_new
    { w with res_head := [] } (k + 1) (some (ex_clock (k + 1))) (-1) 0
  unfold ex_dead_entry at h1
  simp only [h1]
  have h2 := ex_dead_visit_old { w with res_head := [] ++ [ex_dead_entry (k + 1)] } k
    (some (ex_clock (k + 1))) (-1) 1
  unfold ex_dead_entry at h2 ⊢
  simp only [h2]
  simp [ex_ping_no, TYPE_PING, TYPE_PONG]

/-- The globals after the first n + 1 calls of the run of probes to a peer
that never answers: the last entry is in the table, the n entries before it
were put out as Timeout one by one, and res_timeout was incremented n
times. -/
theorem ex_dead_run (n : Nat) :
    run opmode.CLIENT 2 (ex_dead_calls (n + 1)) client_init =
      { client_init with
        res_head := [ex_dead_entry n],
        res_timeout := int_wrap n,
        emitted := (List.range n).map
          (fun k => { ex_dead_entry k with state := STATE_TIMEOUT }) } := by
  induction n with
  | zero => decide
  | succ n ih =>
    unfold ex_dead_calls at ih ⊢
    rw [List.range_succ, List.map_append]
    unfold run at ih ⊢
    rw [List.foldl_append, ih]
    simp only [List.map_cons, List.map_nil, List.foldl_cons, List.foldl_nil]
    rw [ex_dead_step _ n rfl]
    simp only [List.range_succ, List.map_append, List.map_cons, List.map_nil]
    rw [int_wrap_succ]
    push_cast
    rfl

theorem ex_dead_stats (n : Nat) :
    (run opmode.CLIENT 2 (ex_dead_calls (n + 1)) client_init).res_head.length = 1 ∧
    removed_count (run opmode.CLIENT 2 (ex_dead_calls (n + 1)) client_init) = n ∧
    (run opmode.CLIENT 2 (ex_dead_calls (n + 1)) client_init).res_timeout = int_wrap n ∧
    res_total (run opmode.CLIENT 2 (ex_dead_calls (n + 1)) client_init) = int_wrap n := by
  rw [ex_dead_run]
  refine ⟨rfl, ?_, rfl, ?_⟩
  · unfold removed_count
    simp only []
    rw [List.filter_eq_self.2, List.length_map, List.length_range]
    intro e he
    obtain ⟨k, _, hk⟩ := List.mem_map.1 he
    rw [← hk]
    simp [STATE_TIMEOUT, STATE_DUP]
  · unfold res_total
    simp only [client_init]
    unfold int_wrap
    omega

/-- C16, refuted as stated: in client mode, from the counters at zero, a
probe is registered every 3 s to a peer that never answers; each registration
removes the entry before it as Timeout. After 2147483649 registrations
2147483648 entries have been removed from the table, each with one increment
of res_timeout, which has wrapped around to -2147483648; the sum total is
-2147483648 and not the number of entries removed. -/
theorem C16_aggregate_counters_counterexample :
    res_total client_init = 0 ∧ removed_count client_init = 0 ∧
    (run opmode.CLIENT 2 (ex_dead_calls 2147483649) client_init).res_head.length = 1 ∧
    removed_count (run opmode.CLIENT 2 (ex_dead_calls 2147483649) client_init) = 2147483648 ∧
    (run opmode.CLIENT 2 (ex_dead_calls 2147483649) client_init).res_timeout = -2147483648 ∧
    res_total (run opmode.CLIENT 2 (ex_dead_calls 2147483649) client_init) = -2147483648 ∧
    res_total (run opmode.CLIENT 2 (ex_dead_calls 2147483649) client_init) ≠
      removed_count (run opmode.CLIENT 2 (ex_dead_calls 2147483649) client_init) := by
  obtain ⟨h1, h2, h3, h4⟩ := ex_dead_stats 2147483648
  have hw : int_wrap ((2147483648 : Nat) : Int) = -2147483648 := by decide
  rw [hw] at h3 h4
  refine ⟨by decide, by decide, h1, h2, h3, h4, ?_⟩
  rw [h4, h2]
  decide

/-- C16, amended: in client mode, starting from the statistics at zero, after
any sequence of client_res_insert, client_res_update and client_msess_transmit
calls that has put out fewer than 2^31 records in all (removed entries and
Duplicate records together), each of the five counters is the number of
records put out with its final state, res_dup is the number of Duplicate
records, and the sum total = ok + dscp_error + ts_error + timeout + pong_loss
is the number of records put out for removed entries, Duplicate records not
counted; a further client_res_update that stays below 2^31 records raises
total by the number of entries it removes, a further successful
client_res_insert by the number it removes of the table with the new entry;
and the numerator timeout + pong_loss of the loss ratio satisfies
0 <= timeout + pong_loss <= total, so that the ratio lies between 0 and 1
whenever total > 0. -/
theorem C16_aggregate_counters_amended (T : Int) (w0 : World) (cs : List Call)
    (hb : ((run opmode.CLIENT T cs (zero_stats w0)).emitted.length : Int) < 2147483648) :
    (run opmode.CLIENT T cs (zero_stats w0)).res_ok = count_state STATE_OK (run opmode.CLIENT T cs (zero_stats w0)).emitted ∧
    (run opmode.CLIENT T cs (zero_stats w0)).res_dserror = count_state STATE_DSERROR (run opmode.CLIENT T cs (zero_stats w0)).emitted ∧
    (run opmode.CLIENT T cs (zero_stats w0)).res_tserror = count_state STATE_TSERROR (run opmode.CLIENT T cs (zero_stats w0)).emitted ∧
    (run opmode.CLIENT T cs (zero_stats w0)).res_timeout = count_state STATE_TIMEOUT (run opmode.CLIENT T cs (zero_stats w0)).emitted ∧
    (run opmode.CLIENT T cs (zero_stats w0)).res_pongloss = count_state STATE_PONGLOSS (run opmode.CLIENT T cs (zero_stats w0)).emitted ∧
    (run opmode.CLIENT T cs (zero_stats w0)).res_dup = count_state STATE_DUP (run opmode.CLIENT T cs (zero_stats w0)).emitted ∧
    res_total (run opmode.CLIENT T cs (zero_stats w0)) = removed_count (run opmode.CLIENT T cs (zero_stats w0)) ∧
    (∀ (a : addr_t) (d : data_t) (ts : Option ts_t) (dscp : Int) (clk clk_dup : ts_t),
      ((client_res_update opmode.CLIENT T a d ts dscp clk clk_dup (run opmode.CLIENT T cs (zero_stats w0))).emitted.length : Int)
          < 2147483648 →
        res_total (client_res_update opmode.CLIENT T a d ts dscp clk clk_dup (run opmode.CLIENT T cs (zero_stats w0)))
            - res_total (run opmode.CLIENT T cs (zero_stats w0)) =
          ((run opmode.CLIENT T cs (zero_stats w0)).res_head.length : Int) -
            ((client_res_update opmode.CLIENT T a d ts dscp clk clk_dup
              (run opmode.CLIENT T cs (zero_stats w0))).res_head.length : Int)) ∧
    (∀ (a : addr_t) (d : data_t) (ts : ts_t) (clk_created clk clk_dup : ts_t),
      ((client_res_insert opmode.CLIENT T true a d ts clk_created clk clk_dup
          (run opmode.CLIENT T cs (zero_stats w0))).emitted.length : Int) < 2147483648 →
        res_total (client_res_insert opmode.CLIENT T true a d ts clk_created clk clk_dup (run opmode.CLIENT T cs (zero_stats w0)))
            - res_total (run opmode.CLIENT T cs (zero_stats w0)) =
          ((run opmode.CLIENT T cs (zero_stats w0)).res_head.length : Int) + 1 -
            ((client_res_insert opmode.CLIENT T true a d ts clk_created clk clk_dup
              (run opmode.CLIENT T cs (zero_stats w0))).res_head.length : Int)) ∧
    res_lost (run opmode.CLIENT T cs (zero_stats w0)) = (run opmode.CLIENT T cs (zero_stats w0)).res_timeout + (run opmode.CLIENT T cs (zero_stats w0)).res_pongloss ∧
    0 ≤ res_lost (run opmode.CLIENT T cs (zero_stats w0)) ∧
    res_lost (run opmode.CLIENT T cs (zero_stats w0)) ≤ res_total (run opmode.CLIENT T cs (zero_stats w0)) ∧
    (0 < res_total (run opmode.CLIENT T cs (zero_stats w0)) →
      0 ≤ ((res_lost (run opmode.CLIENT T cs (zero_stats w0)) : Int) : ℚ) / ((res_total (run opmode.CLIENT T cs (zero_stats w0)) : Int) : ℚ) ∧
      ((res_lost (run opmode.CLIENT T cs (zero_stats w0)) : Int) : ℚ) / ((res_total (run opmode.CLIENT T cs (zero_stats w0)) : Int) : ℚ) ≤ 1) := by
  have h := run_stats_inv T cs (zero_stats w0) (stats_inv_zero w0)
  obtain ⟨h1, h2, h3, h4, h5, h6, htot, hlost⟩ := stats_exact _ h hb
  have hlo : 0 ≤ res_lost (run opmode.CLIENT T cs (zero_stats w0)) := by
    rw [hlost, h4, h5]
    exact Int.add_nonneg (count_state_nonneg _ _) (count_state_nonneg _ _)
  have hhi : res_lost (run opmode.CLIENT T cs (zero_stats w0)) ≤
      res_total (run opmode.CLIENT T cs (zero_stats w0)) := by
    rw [hlost, htot]
    unfold removed_count
    rw [← count_state_sum _ h.2.2.2.2.2.2, h4, h5]
    have a1 := count_state_nonneg STATE_OK (run opmode.CLIENT T cs (zero_stats w0)).emitted
    have a2 := count_state_nonneg STATE_DSERROR (run opmode.CLIENT T cs (zero_stats w0)).emitted
    have a3 := count_state_nonneg STATE_TSERROR (run opmode.CLIENT T cs (zero_stats w0)).emitted
    omega
  refine ⟨h1, h2, h3, h4, h5, h6, htot, ?_, ?_, hlost, hlo, hhi, ?_⟩
  · intro a d ts dscp clk clk_dup hb2
    exact client_res_update_total T a d ts dscp clk clk_dup _ h hb2
  · intro a d ts clk_created clk clk_dup hb2
    have := client_res_update_total T a d (some ts) (-1) clk clk_dup
      { (run opmode.CLIENT T cs (zero_stats w0)) with
        res_head := res_new a d ts clk_created :: (run opmode.CLIENT T cs (zero_stats w0)).res_head }
      h hb2
    simp only [List.length_cons, Nat.cast_add, Nat.cast_one] at this
    exact this
  · intro hpos
    have hq : (0 : ℚ) < ((res_total (run opmode.CLIENT T cs (zero_stats w0)) : Int) : ℚ) := by
      exact_mod_cast hpos
    constructor
    · exact div_nonneg (by exact_mod_cast hlo) (le_of_lt hq)
    · rw [div_le_one hq]
      exact_mod_cast hhi

/-- C16 amended, at a sample: the first three registrations of the run of
probes to a peer that never answers, two of which have been removed as
Timeout. -/
theorem C16_aggregate_counters_amended_witness :
    (run opmode.CLIENT 2 (ex_dead_calls 3) (zero_stats client_init)).res_ok = count_state STATE_OK (run opmode.CLIENT 2 (ex_dead_calls 3) (zero_stats client_init)).emitted ∧
    (run opmode.CLIENT 2 (ex_dead_calls 3) (zero_stats client_init)).res_dserror = count_state STATE_DSERROR (run opmode.CLIENT 2 (ex_dead_calls 3) (zero_stats client_init)).emitted ∧
    (run opmode.CLIENT 2 (ex_dead_calls 3) (zero_stats client_init)).res_tserror = count_state STATE_TSERROR (run opmode.CLIENT 2 (ex_dead_calls 3) (zero_stats client_init)).emitted ∧
    (run opmode.CLIENT 2 (ex_dead_calls 3) (zero_stats client_init)).res_timeout = count_state STATE_TIMEOUT (run opmode.CLIENT 2 (ex_dead_calls 3) (zero_stats client_init)).emitted ∧
    (run opmode.CLIENT 2 (ex_dead_calls 3) (zero_stats client_init)).res_pongloss = count_state STATE_PONGLOSS (run opmode.CLIENT 2 (ex_dead_calls 3) (zero_stats client_init)).emitted ∧
    (run opmode.CLIENT 2 (ex_dead_calls 3) (zero_stats client_init)).res_dup = count_state STATE_DUP (run opmode.CLIENT 2 (ex_dead_calls 3) (zero_stats client_init)).emitted ∧
    res_total (run opmode.CLIENT 2 (ex_dead_calls 3) (zero_stats client_init)) = removed_count (run opmode.CLIENT 2 (ex_dead_calls 3) (zero_stats client_init)) ∧
    (∀ (a : addr_t) (d : data_t) (ts : Option ts_t) (dscp : Int) (clk clk_dup : ts_t),
      ((client_res_update opmode.CLIENT 2 a d ts dscp clk clk_dup (run opmode.CLIENT 2 (ex_dead_calls 3) (zero_stats client_init))).emitted.length : Int)
          < 2147483648 →
        res_total (client_res_update opmode.CLIENT 2 a d ts dscp clk clk_dup (run opmode.CLIENT 2 (ex_dead_calls 3) (zero_stats client_init)))
            - res_total (run opmode.CLIENT 2 (ex_dead_calls 3) (zero_stats client_init)) =
          ((run opmode.CLIENT 2 (ex_dead_calls 3) (zero_stats client_init)).res_head.length : Int) -
            ((client_res_update opmode.CLIENT 2 a d ts dscp clk clk_dup
              (run opmode.CLIENT 2 (ex_dead_calls 3) (zero_stats client_init))).res_head.length : Int)) ∧
    (∀ (a : addr_t) (d : data_t) (ts : ts_t) (clk_created clk clk_dup : ts_t),
      ((client_res_insert opmode.CLIENT 2 true a d ts clk_created clk clk_dup
          (run opmode.CLIENT 2 (ex_dead_calls 3) (zero_stats client_init))).emitted.length : Int) < 2147483648 →
        res_total (client_res_insert opmode.CLIENT 2 true a d ts clk_created clk clk_dup (run opmode.CLIENT 2 (ex_dead_calls 3) (zero_stats client_init)))
            - res_total (run opmode.CLIENT 2 (ex_dead_calls 3) (zero_stats client_init)) =
          ((run opmode.CLIENT 2 (ex_dead_calls 3) (zero_stats client_init)).res_head.length : Int) + 1 -
            ((client_res_insert opmode.CLIENT 2 true a d ts clk_created clk clk_dup
              (run opmode.CLIENT 2 (ex_dead_calls 3) (zero_stats client_init))).res_head.length : Int)) ∧
    res_lost (run opmode.CLIENT 2 (ex_dead_calls 3) (zero_stats client_init)) = (run opmode.CLIENT 2 (ex_dead_calls 3) (zero_stats client_init)).res_timeout + (run opmode.CLIENT 2 (ex_dead_calls 3) (zero_stats client_init)).res_pongloss ∧
    0 ≤ res_lost (run opmode.CLIENT 2 (ex_dead_calls 3) (zero_stats client_init)) ∧
    res_lost (run opmode.CLIENT 2 (ex_dead_calls 3) (zero_stats client_init)) ≤ res_total (run opmode.CLIENT 2 (ex_dead_calls 3) (zero_stats client_init)) ∧
    (0 < res_total (run opmode.CLIENT 2 (ex_dead_calls 3) (zero_stats client_init)) →
      0 ≤ ((res_lost (run opmode.CLIENT 2 (ex_dead_calls 3) (zero_stats client_init)) : Int) : ℚ) / ((res_total (run opmode.CLIENT 2 (ex_dead_calls 3) (zero_stats client_init)) : Int) : ℚ) ∧
      ((res_lost (run opmode.CLIENT 2 (ex_dead_calls 3) (zero_stats client_init)) : Int) : ℚ) / ((res_total (run opmode.CLIENT 2 (ex_dead_calls 3) (zero_stats client_init)) : Int) : ℚ) ≤ 1) :=
  C16_aggregate_counters_amended 2 client_init (ex_dead_calls 3) (by decide)

/-! ## Entries after a completed entry -/

/-- C17, the code at the failing input: in client mode with a timeout of 2 s
the time report of ping 2 arrives at 1001 s; the call completes the entry of
ping 2 as Ok, and the entry of ping 1 behind it, incomplete and registered
3.5 s before, stays in the table: it is compared with the T3 - T2 = 0.001 s
that line 375 left in now instead of the clock reading. -/
theorem C17_every_entry_evaluated_failing :
    ex_stall_world.res_head.map (fun r => (r.seq, r.state, r.created))
      = [(2, 3, ⟨998, 0⟩), (1, 1, ⟨997, 500000000⟩)] ∧
    (new_emitted ex_stall_world
        (client_res_update opmode.CLIENT 2 ex_addr ex_stall_time none 0 ⟨1001, 0⟩ ⟨1001, 0⟩
          ex_stall_world)).map (fun r => (r.seq, r.state)) = [(2, STATE_OK)] ∧
    (client_res_update opmode.CLIENT 2 ex_addr ex_stall_time none 0 ⟨1001, 0⟩ ⟨1001, 0⟩
        ex_stall_world).res_head.map (fun r => (r.seq, r.state, r.created))
      = [(1, 1, ⟨997, 500000000⟩)] ∧
    MASK_PING &&& MASK_DONE ≠ MASK_DONE ∧
    (diff_ts ⟨1001, 0⟩ ⟨997, 500000000⟩).tv_sec = 3 ∧ (3 : Int) > 2 ∧
    now_after opmode.CLIENT 2 ex_addr ex_stall_time none 0 ⟨1001, 0⟩ ex_stall_world
        (ex_stall_world.res_head.take 1) = ⟨0, 1000000⟩ := by
  decide

/-! ## The statistics of the round-trip time -/

/-- C18, the code at the failing input: in client mode the time report of
ex_ping completes its entry as Ok with a round-trip time of 1.5 s; res_ok
becomes 1, res_rtt_max and res_rtt_min become 1.5 s, and res_rtt_total, which
was 0, becomes 500000000: line 390 adds the nanosecond field only, not the
1500000000 ns of the round-trip time. -/
theorem C18_average_rtt_failing :
    ex_slow_world.res_rtt_total = 0 ∧ ex_slow_world.res_ok = 0 ∧
    (new_emitted ex_slow_world
        (client_res_update opmode.CLIENT 2 ex_addr ex_slow_time none 0 ⟨102, 0⟩ ⟨102, 0⟩
          ex_slow_world)).map (fun r => (r.state, res_rtt r, rtt_nanos r))
      = [(STATE_OK, ⟨1, 500000000⟩, 1500000000)] ∧
    (client_res_update opmode.CLIENT 2 ex_addr ex_slow_time none 0 ⟨102, 0⟩ ⟨102, 0⟩
        ex_slow_world).res_ok = 1 ∧
    (client_res_update opmode.CLIENT 2 ex_addr ex_slow_time none 0 ⟨102, 0⟩ ⟨102, 0⟩
        ex_slow_world).res_rtt_total = 500000000 ∧
    (client_res_update opmode.CLIENT 2 ex_addr ex_slow_time none 0 ⟨102, 0⟩ ⟨102, 0⟩
        ex_slow_world).res_rtt_max = ⟨1, 500000000⟩ ∧
    (client_res_update opmode.CLIENT 2 ex_addr ex_slow_time none 0 ⟨102, 0⟩ ⟨102, 0⟩
        ex_slow_world).res_rtt_min = ⟨1, 500000000⟩ := by
  decide

end Slang
